import Mathlib

/-!
# Ray–circle occlusion: a verification development of `src/main.cpp`

The program computes on `float` (IEEE 754 binary32), with three `double`
(binary64) sub-expressions where `M_PI` enters.  The embedding keeps that
arithmetic: a floating-point datum is a finite value, an infinity or a NaN, and
every operation rounds its exact result once, to nearest, ties to even.  The
definitions are generic in the ordered field `K` that carries the finite values
(the rationals to run them, the reals to reason); the exact square root is a
parameter `sqrt`, and `std::cos`, `std::sin` on `float`, which are library code
outside the repository, are parameters `cosf`, `sinf`.

The statements relate what the `float` program returns to exact geometry: points,
distances and roots over the reals.
-/

namespace Raycasting

/-! ## Floating-point data and rounding (IEEE 754, round to nearest, ties to even) -/

/-- A floating-point datum: a finite value, an infinity (`neg` tells the sign) or
a NaN.  The sign of a zero is not kept: no comparison of the program depends on
it, and its only divisor, `2 * a`, is a sum of squares, hence never `-0`. -/
inductive Fp (K : Type) where
  | fin (x : K)
  | inf (neg : Bool)
  | nan
deriving DecidableEq, Repr

/-- A binary format: `prec` significand bits, exponents `emin .. emax`. -/
structure Format where
  prec : Nat
  emin : Int
  emax : Int

/-- The format of `float`. -/
def binary32 : Format := ⟨24, -126, 127⟩

/-- The format of `double`. -/
def binary64 : Format := ⟨53, -1022, 1023⟩

/-- The integer nearest to `x`, a tie going to the even one. -/
def roundEven {K : Type} [LinearOrderedField K] [FloorRing K] (x : K) : Int :=
  if x - (⌊x⌋ : K) < 1 / 2 then ⌊x⌋
  else if 1 / 2 < x - (⌊x⌋ : K) then ⌊x⌋ + 1
  else if ⌊x⌋ % 2 = 0 then ⌊x⌋ else ⌊x⌋ + 1

/-- The exponent of the unit in the last place of `x` in format `f`: the binade of
`x`, not below `emin` (subnormal range), less `prec - 1`. -/
def ulpExp {K : Type} [LinearOrderedField K] [FloorRing K] (f : Format) (x : K) : Int :=
  max (Int.log 2 |x|) f.emin - ((f.prec : Int) - 1)

/-- The value `x` rounded to the grid of format `f`, the exponent unbounded above. -/
def roundFin {K : Type} [LinearOrderedField K] [FloorRing K] (f : Format) (x : K) : K :=
  (roundEven (x / (2 : K) ^ ulpExp f x) : K) * (2 : K) ^ ulpExp f x

/-- The largest finite value of format `f`. -/
def maxFinite {K : Type} [LinearOrderedField K] (f : Format) : K :=
  ((2 : K) ^ f.prec - 1) * (2 : K) ^ (f.emax - ((f.prec : Int) - 1))

/-- Rounding of an exact result into format `f`: overflow gives an infinity. -/
def roundTo {K : Type} [LinearOrderedField K] [FloorRing K] (f : Format) (x : K) : Fp K :=
  if maxFinite f < roundFin f x then Fp.inf false
  else if roundFin f x < -maxFinite f then Fp.inf true
  else Fp.fin (roundFin f x)

/-- Negation (exact). -/
def Fp.neg {K : Type} [LinearOrderedField K] : Fp K → Fp K
  | Fp.fin x => Fp.fin (-x)
  | Fp.inf s => Fp.inf (!s)
  | Fp.nan => Fp.nan

/-- Addition in format `f`. -/
def Fp.add {K : Type} [LinearOrderedField K] [FloorRing K] (f : Format) :
    Fp K → Fp K → Fp K
  | Fp.fin x, Fp.fin y => roundTo f (x + y)
  | Fp.fin _, Fp.inf s => Fp.inf s
  | Fp.inf s, Fp.fin _ => Fp.inf s
  | Fp.inf s, Fp.inf t => if s = t then Fp.inf s else Fp.nan
  | _, _ => Fp.nan

/-- Subtraction in format `f`. -/
def Fp.sub {K : Type} [LinearOrderedField K] [FloorRing K] (f : Format)
    (a b : Fp K) : Fp K :=
  Fp.add f a (Fp.neg b)

/-- Multiplication in format `f`. -/
def Fp.mul {K : Type} [LinearOrderedField K] [FloorRing K] (f : Format) :
    Fp K → Fp K → Fp K
  | Fp.fin x, Fp.fin y => roundTo f (x * y)
  | Fp.fin x, Fp.inf s => if x = 0 then Fp.nan else Fp.inf (xor (decide (x < 0)) s)
  | Fp.inf s, Fp.fin y => if y = 0 then Fp.nan else Fp.inf (xor s (decide (y < 0)))
  | Fp.inf s, Fp.inf t => Fp.inf (xor s t)
  | _, _ => Fp.nan

/-- Division in format `f`; a zero divisor is `+0`. -/
def Fp.div {K : Type} [LinearOrderedField K] [FloorRing K] (f : Format) :
    Fp K → Fp K → Fp K
  | Fp.fin x, Fp.fin y =>
    if y = 0 then (if x = 0 then Fp.nan else Fp.inf (decide (x < 0)))
    else roundTo f (x / y)
  | Fp.fin _, Fp.inf _ => Fp.fin 0
  | Fp.inf s, Fp.fin y => Fp.inf (xor s (decide (y < 0)))
  | _, _ => Fp.nan

/-- Square root in format `f`, correctly rounded; `sqrt` is the exact square root. -/
def Fp.sqrt {K : Type} [LinearOrderedField K] [FloorRing K] (f : Format) (sqrt : K → K) :
    Fp K → Fp K
  | Fp.fin x => if x < 0 then Fp.nan else roundTo f (sqrt x)
  | Fp.inf false => Fp.inf false
  | _ => Fp.nan

/-- The comparison `a < b`; false when a NaN is involved. -/
def Fp.lt {K : Type} [LinearOrderedField K] : Fp K → Fp K → Bool
  | Fp.fin x, Fp.fin y => decide (x < y)
  | Fp.fin _, Fp.inf s => !s
  | Fp.inf s, Fp.fin _ => s
  | Fp.inf s, Fp.inf t => s && !t
  | _, _ => false

/-- Conversion into format `f` (`float` to `double` is exact, `double` to `float`
rounds). -/
def Fp.cast {K : Type} [LinearOrderedField K] [FloorRing K] (f : Format) : Fp K → Fp K
  | Fp.fin x => roundTo f x
  | Fp.inf s => Fp.inf s
  | Fp.nan => Fp.nan

/-- The real `x` is a finite value of format `f`: `m * 2^e` with `|m| < 2^prec` and
`e` between the subnormal exponent and the top one. -/
def IsRep (f : Format) (x : ℝ) : Prop :=
  ∃ m e : Int, |m| < 2 ^ f.prec ∧ f.emin - ((f.prec : Int) - 1) ≤ e
    ∧ e ≤ f.emax - ((f.prec : Int) - 1) ∧ x = (m : ℝ) * (2 : ℝ) ^ e

/-! ## The arithmetic of the program

`float` is binary32 and `double` is binary64; every operation rounds its exact
result once.  `std::sqrt` is the correctly rounded square root of IEEE 754, with
the exact square root `sqrt` of the field as parameter.  `std::cos` and `std::sin`
on `float` are library functions outside the repository; they are parameters
`cosf sinf` from `float` to `float` about which nothing is assumed. -/

/-- Addition of two `float`. -/
def fadd {K : Type} [LinearOrderedField K] [FloorRing K] (a b : Fp K) : Fp K :=
  Fp.add binary32 a b

/-- Subtraction of two `float`. -/
def fsub {K : Type} [LinearOrderedField K] [FloorRing K] (a b : Fp K) : Fp K :=
  Fp.sub binary32 a b

/-- Multiplication of two `float`. -/
def fmul {K : Type} [LinearOrderedField K] [FloorRing K] (a b : Fp K) : Fp K :=
  Fp.mul binary32 a b

/-- Division of two `float`. -/
def fdiv {K : Type} [LinearOrderedField K] [FloorRing K] (a b : Fp K) : Fp K :=
  Fp.div binary32 a b

/-- The function `std::sqrt` on `float`. -/
def fsqrt {K : Type} [LinearOrderedField K] [FloorRing K] (sqrt : K → K) (a : Fp K) : Fp K :=
  Fp.sqrt binary32 sqrt a

/-- Subtraction of two `double`. -/
def dsub {K : Type} [LinearOrderedField K] [FloorRing K] (a b : Fp K) : Fp K :=
  Fp.sub binary64 a b

/-- Multiplication of two `double`. -/
def dmul {K : Type} [LinearOrderedField K] [FloorRing K] (a b : Fp K) : Fp K :=
  Fp.mul binary64 a b

/-- Division of two `double`. -/
def ddiv {K : Type} [LinearOrderedField K] [FloorRing K] (a b : Fp K) : Fp K :=
  Fp.div binary64 a b

/-- Conversion of a `double` to `float`. -/
def toFloat {K : Type} [LinearOrderedField K] [FloorRing K] (a : Fp K) : Fp K :=
  Fp.cast binary32 a

/-- Conversion of an `int` to `float`, `static_cast<float>`. -/
def ofInt {K : Type} [LinearOrderedField K] [FloorRing K] (n : Int) : Fp K :=
  roundTo binary32 (n : K)

/-- The macro `M_PI` of `<cmath>`, the `double` nearest to π:
`884279719003555 / 2^48`. -/
def M_PI {K : Type} [LinearOrderedField K] : Fp K :=
  Fp.fin (884279719003555 / 281474976710656)

/-! ## Geometry primitives (main.cpp, lines 5-29) -/

/-- Window width, `const int WIDTH = 800`. -/
def WIDTH : Nat := 800

/-- Window height, `const int HEIGHT = 600`. -/
def HEIGHT : Nat := 600

/-- The `struct Vec2 { float x, y; }` of the source; `F` is the type of the
components. -/
structure Vec2 (F : Type) where
  x : F
  y : F
deriving DecidableEq, Repr

/-- Euclidean distance of two points, `distance` of the source (line 12). -/
def distance {K : Type} [LinearOrderedField K] [FloorRing K] (sqrt : K → K)
    (a b : Vec2 (Fp K)) : Fp K :=
  fsqrt sqrt (fadd (fmul (fsub a.x b.x) (fsub a.x b.x)) (fmul (fsub a.y b.y) (fsub a.y b.y)))

/-- The intersector `raySphereIntersection` of the source (lines 16-29), every
operation in `float`: the quadratic `a t² + b t + c = 0` of the line
`origin + t * dir` against the circle, root `t1` first, then `t2`, the sentinel
`-1` otherwise. -/
def raySphereIntersection {K : Type} [LinearOrderedField K] [FloorRing K] (sqrt : K → K)
    (origin dir center : Vec2 (Fp K)) (radius : Fp K) : Fp K :=
  let oc : Vec2 (Fp K) := ⟨fsub origin.x center.x, fsub origin.y center.y⟩
  let a := fadd (fmul dir.x dir.x) (fmul dir.y dir.y)
  let b := fmul (Fp.fin 2) (fadd (fmul oc.x dir.x) (fmul oc.y dir.y))
  let c := fsub (fadd (fmul oc.x oc.x) (fmul oc.y oc.y)) (fmul radius radius)
  let discriminant := fsub (fmul b b) (fmul (fmul (Fp.fin 4) a) c)
  if Fp.lt discriminant (Fp.fin 0) then Fp.fin (-1)
  else
    let sqrtDisc := fsqrt sqrt discriminant
    let t1 := fdiv (fsub (Fp.neg b) sqrtDisc) (fmul (Fp.fin 2) a)
    let t2 := fdiv (fadd (Fp.neg b) sqrtDisc) (fmul (Fp.fin 2) a)
    if Fp.lt (Fp.fin 0) t1 then t1
    else if Fp.lt (Fp.fin 0) t2 then t2
    else Fp.fin (-1)

/-! ## Scene state and the input/animation step (main.cpp, lines 67-114) -/

/-- The blocker radius, `const float blockerRadius = 80.0f` (line 73). -/
def blockerRadius {K : Type} [LinearOrderedField K] : Fp K := Fp.fin 80

/-- The drawn radius of the light, `const float sourceRadius = 15.0f` (line 70). -/
def sourceRadius {K : Type} [LinearOrderedField K] : Fp K := Fp.fin 15

/-- The window centre, `const Vec2 center = { WIDTH / 2.0f, HEIGHT / 2.0f }`
(line 67). -/
def center {K : Type} [LinearOrderedField K] [FloorRing K] : Vec2 (Fp K) :=
  ⟨fdiv (ofInt WIDTH) (Fp.fin 2), fdiv (ofInt HEIGHT) (Fp.fin 2)⟩

/-- The blocker position, `Vec2 blockerPos = center` (line 72); never assigned
again. -/
def blockerPos {K : Type} [LinearOrderedField K] [FloorRing K] : Vec2 (Fp K) := center

/-- The angular speed, `const float angularSpeed = 0.01f` (line 79): the `float`
nearest to `1/100`. -/
def angularSpeed {K : Type} [LinearOrderedField K] [FloorRing K] : Fp K :=
  roundTo binary32 (1 / 100)

/-- The `enum Mode { AUTOMATIC, DRAG }` of line 81. -/
inductive Mode where
  | AUTOMATIC
  | DRAG
deriving DecidableEq, Repr

/-- The key symbols the event loop distinguishes (`SDLK_a`, `SDLK_d`, any other). -/
inductive Key where
  | SDLK_a
  | SDLK_d
  | otherKey
deriving DecidableEq, Repr

/-- The mouse buttons the event loop distinguishes (`SDL_BUTTON_LEFT`, any other). -/
inductive Button where
  | SDL_BUTTON_LEFT
  | otherButton
deriving DecidableEq, Repr

/-- The events of `SDL_PollEvent` as far as the loop reads them: the type tag and
the fields `key.keysym.sym`, `button.button`, `motion.x`, `motion.y`. -/
inductive Event where
  | SDL_QUIT
  | SDL_KEYDOWN (sym : Key)
  | SDL_MOUSEBUTTONDOWN (button : Button)
  | SDL_MOUSEBUTTONUP (button : Button)
  | SDL_MOUSEMOTION (x y : Int)
  | otherEvent
deriving DecidableEq, Repr

/-- The mutable locals of `main` that the loop reads and writes (lines 69-84). -/
structure State (K : Type) where
  sourcePos : Vec2 (Fp K)
  running : Bool
  angle : Fp K
  mode : Mode
  mouseDown : Bool

/-- The values of the locals when the loop is entered (lines 69-84). -/
def initState {K : Type} [LinearOrderedField K] : State K :=
  { sourcePos := ⟨Fp.fin 0, Fp.fin 0⟩, running := true, angle := Fp.fin 0,
    mode := Mode.AUTOMATIC, mouseDown := false }

/-- The body of the `while (SDL_PollEvent(&e))` loop for one event (lines 88-106). -/
def handleEvent {K : Type} [LinearOrderedField K] [FloorRing K] (e : Event)
    (s : State K) : State K :=
  let s1 : State K := if e = Event.SDL_QUIT then { s with running := false } else s
  let s2 : State K :=
    match e with
    | Event.SDL_KEYDOWN Key.SDLK_a => { s1 with mode := Mode.AUTOMATIC }
    | Event.SDL_KEYDOWN Key.SDLK_d => { s1 with mode := Mode.DRAG }
    | _ => s1
  if s2.mode = Mode.DRAG then
    let s3 : State K :=
      if e = Event.SDL_MOUSEBUTTONDOWN Button.SDL_BUTTON_LEFT then
        { s2 with mouseDown := true } else s2
    let s4 : State K :=
      if e = Event.SDL_MOUSEBUTTONUP Button.SDL_BUTTON_LEFT then
        { s3 with mouseDown := false } else s3
    match e with
    | Event.SDL_MOUSEMOTION x y =>
      if s4.mouseDown then { s4 with sourcePos := ⟨ofInt x, ofInt y⟩ } else s4
    | _ => s4
  else s2

/-- The whole `while (SDL_PollEvent(&e))` loop on the events queued for one frame
(lines 87-107). -/
def pollEvents {K : Type} [LinearOrderedField K] [FloorRing K] (evs : List Event)
    (s : State K) : State K :=
  evs.foldl (fun st e => handleEvent e st) s

/-- The constant `2.0f * M_PI` of lines 111 and 130, a `double` product. -/
def twoPi {K : Type} [LinearOrderedField K] [FloorRing K] : Fp K :=
  dmul (Fp.fin 2) M_PI

/-- The animation step `if (mode == AUTOMATIC) { ... }` (lines 109-114): the sum is
a `float` sum; the comparison and the subtraction are done in `double`, and the
difference is converted back to `float`. -/
def animate {K : Type} [LinearOrderedField K] [FloorRing K] (cosf sinf : Fp K → Fp K)
    (s : State K) : State K :=
  if s.mode = Mode.AUTOMATIC then
    let angle1 := fadd s.angle angularSpeed
    let angle2 := if Fp.lt twoPi angle1 then toFloat (dsub angle1 twoPi) else angle1
    { s with angle := angle2,
             sourcePos := ⟨fadd center.x (fmul (Fp.fin 150) (cosf angle2)),
                           fadd center.y (fmul (Fp.fin 150) (sinf angle2))⟩ }
  else s

/-- One iteration of `while (running)` as far as the state goes (lines 87-114). -/
def frame {K : Type} [LinearOrderedField K] [FloorRing K] (cosf sinf : Fp K → Fp K)
    (evs : List Event) (s : State K) : State K :=
  animate cosf sinf (pollEvents evs s)

/-- The loop `while (running)` on the event batches of successive frames: a frame
is run only while `running` holds (line 86). -/
def runFrames {K : Type} [LinearOrderedField K] [FloorRing K] (cosf sinf : Fp K → Fp K) :
    List (List Event) → State K → State K
  | [], s => s
  | evs :: rest, s =>
    if s.running then runFrames cosf sinf rest (frame cosf sinf evs s) else s

/-! ## The ray loop (main.cpp, lines 128-145) -/

/-- The ray count, `const int numRays = 360` (line 128). -/
def numRays : Nat := 360

/-- The maximum range, `float maxDist = 1000.0f` (line 133). -/
def maxDist {K : Type} [LinearOrderedField K] : Fp K := Fp.fin 1000

/-- The angle of ray `i`, `float rayAngle = i * (2.0f * M_PI / numRays)` (line 130):
a `double` quotient and product, converted to `float`. -/
def rayAngle {K : Type} [LinearOrderedField K] [FloorRing K] (i : Nat) : Fp K :=
  toFloat (dmul (Fp.fin (i : K)) (ddiv twoPi (Fp.fin (numRays : K))))

/-- The direction of ray `i`, `{ std::cos(rayAngle), std::sin(rayAngle) }`
(line 131). -/
def rayDir {K : Type} [LinearOrderedField K] [FloorRing K] (cosf sinf : Fp K → Fp K)
    (i : Nat) : Vec2 (Fp K) :=
  ⟨cosf (rayAngle i), sinf (rayAngle i)⟩

/-- The value `hitDist` of ray `i` (line 135). -/
def hitDist {K : Type} [LinearOrderedField K] [FloorRing K] (sqrt : K → K)
    (cosf sinf : Fp K → Fp K) (sourcePos : Vec2 (Fp K)) (i : Nat) : Fp K :=
  raySphereIntersection sqrt sourcePos (rayDir cosf sinf i) blockerPos blockerRadius

/-- The value `dist` of ray `i`,
`(hitDist > 0 && hitDist < maxDist) ? hitDist : maxDist` (line 137). -/
def dist {K : Type} [LinearOrderedField K] [FloorRing K] (sqrt : K → K)
    (cosf sinf : Fp K → Fp K) (sourcePos : Vec2 (Fp K)) (i : Nat) : Fp K :=
  let h := hitDist sqrt cosf sinf sourcePos i
  if Fp.lt (Fp.fin 0) h && Fp.lt h maxDist then h else maxDist

/-- The value `endPoint` of ray `i` (line 139). -/
def endPoint {K : Type} [LinearOrderedField K] [FloorRing K] (sqrt : K → K)
    (cosf sinf : Fp K → Fp K) (sourcePos : Vec2 (Fp K)) (i : Nat) : Vec2 (Fp K) :=
  ⟨fadd sourcePos.x (fmul (rayDir cosf sinf i).x (dist sqrt cosf sinf sourcePos i)),
   fadd sourcePos.y (fmul (rayDir cosf sinf i).y (dist sqrt cosf sinf sourcePos i))⟩

/-- The segments the `for` loop draws, in order: one per ray index
`0 .. numRays - 1`, from `sourcePos` to `endPoint` (lines 129-145). -/
def castRays {K : Type} [LinearOrderedField K] [FloorRing K] (sqrt : K → K)
    (cosf sinf : Fp K → Fp K) (sourcePos : Vec2 (Fp K)) :
    List (Vec2 (Fp K) × Vec2 (Fp K)) :=
  (List.range numRays).map fun i => (sourcePos, endPoint sqrt cosf sinf sourcePos i)

/-! ## The exact reading, for the statements

The claims speak about points, distances and roots in exact arithmetic.  The
definitions of this section are that exact reading; they are not the program. -/

/-- A vector of finite `float` values. -/
def Vec2.toFp {K : Type} (v : Vec2 K) : Vec2 (Fp K) := ⟨Fp.fin v.x, Fp.fin v.y⟩

/-- The point `origin + t * dir` of a ray, exactly. -/
def rayPoint {K : Type} [LinearOrderedField K] (origin dir : Vec2 K) (t : K) : Vec2 K :=
  ⟨origin.x + dir.x * t, origin.y + dir.y * t⟩

/-- The Euclidean distance of two points, exactly. -/
def exactDistance {K : Type} [LinearOrderedField K] (sqrt : K → K) (a b : Vec2 K) : K :=
  sqrt ((a.x - b.x) * (a.x - b.x) + (a.y - b.y) * (a.y - b.y))

/-- The exact value of coefficient `a` (line 18). -/
def coeffA {K : Type} [LinearOrderedField K] (dir : Vec2 K) : K :=
  dir.x * dir.x + dir.y * dir.y

/-- The exact value of coefficient `b` (line 19). -/
def coeffB {K : Type} [LinearOrderedField K] (origin dir center : Vec2 K) : K :=
  2 * ((origin.x - center.x) * dir.x + (origin.y - center.y) * dir.y)

/-- The exact value of coefficient `c` (line 20). -/
def coeffC {K : Type} [LinearOrderedField K] (origin center : Vec2 K) (radius : K) : K :=
  (origin.x - center.x) * (origin.x - center.x)
    + (origin.y - center.y) * (origin.y - center.y) - radius * radius

/-- The exact value of the discriminant (line 21). -/
def discriminant {K : Type} [LinearOrderedField K] (origin dir center : Vec2 K)
    (radius : K) : K :=
  coeffB origin dir center * coeffB origin dir center
    - 4 * coeffA dir * coeffC origin center radius

/-- The quadratic `a t² + b t + c` whose roots the intersector computes. -/
def quadratic {K : Type} [LinearOrderedField K] (origin dir center : Vec2 K)
    (radius t : K) : K :=
  coeffA dir * (t * t) + coeffB origin dir center * t + coeffC origin center radius

/-- The exact value of the root `t1` (line 24). -/
def rootT1 {K : Type} [LinearOrderedField K] (sqrt : K → K) (origin dir center : Vec2 K)
    (radius : K) : K :=
  (-coeffB origin dir center - sqrt (discriminant origin dir center radius))
    / (2 * coeffA dir)

/-- The exact value of the root `t2` (line 25). -/
def rootT2 {K : Type} [LinearOrderedField K] (sqrt : K → K) (origin dir center : Vec2 K)
    (radius : K) : K :=
  (-coeffB origin dir center + sqrt (discriminant origin dir center radius))
    / (2 * coeffA dir)

/-- The result of lines 22-28 when every operation is exact. -/
def exactIntersection {K : Type} [LinearOrderedField K] (sqrt : K → K)
    (origin dir center : Vec2 K) (radius : K) : K :=
  if discriminant origin dir center radius < 0 then -1
  else if rootT1 sqrt origin dir center radius > 0 then rootT1 sqrt origin dir center radius
  else if rootT2 sqrt origin dir center radius > 0 then rootT2 sqrt origin dir center radius
  else -1

/-- The evaluation of `raySphereIntersection` on these `float` inputs incurs no
rounding: the inputs are binary32 values, and so is the exact result of every
operation of lines 17-21 and, when the discriminant is not negative, of lines
23-25. -/
structure ExactEval (o d c : Vec2 ℝ) (r : ℝ) : Prop where
  inOx : IsRep binary32 o.x
  inOy : IsRep binary32 o.y
  inDx : IsRep binary32 d.x
  inDy : IsRep binary32 d.y
  inCx : IsRep binary32 c.x
  inCy : IsRep binary32 c.y
  inR : IsRep binary32 r
  opOcx : IsRep binary32 (o.x - c.x)
  opOcy : IsRep binary32 (o.y - c.y)
  opDxx : IsRep binary32 (d.x * d.x)
  opDyy : IsRep binary32 (d.y * d.y)
  opA : IsRep binary32 (d.x * d.x + d.y * d.y)
  opBx : IsRep binary32 ((o.x - c.x) * d.x)
  opBy : IsRep binary32 ((o.y - c.y) * d.y)
  opBsum : IsRep binary32 ((o.x - c.x) * d.x + (o.y - c.y) * d.y)
  opB : IsRep binary32 (2 * ((o.x - c.x) * d.x + (o.y - c.y) * d.y))
  opCxx : IsRep binary32 ((o.x - c.x) * (o.x - c.x))
  opCyy : IsRep binary32 ((o.y - c.y) * (o.y - c.y))
  opCsum : IsRep binary32 ((o.x - c.x) * (o.x - c.x) + (o.y - c.y) * (o.y - c.y))
  opRr : IsRep binary32 (r * r)
  opC : IsRep binary32 (coeffC o c r)
  opBb : IsRep binary32 (coeffB o d c * coeffB o d c)
  opFourA : IsRep binary32 (4 * coeffA d)
  opFourAC : IsRep binary32 (4 * coeffA d * coeffC o c r)
  opDisc : IsRep binary32 (discriminant o d c r)
  opTwoA : IsRep binary32 (2 * coeffA d)
  opSqrt : 0 ≤ discriminant o d c r → IsRep binary32 (Real.sqrt (discriminant o d c r))
  opNum1 : 0 ≤ discriminant o d c r →
    IsRep binary32 (-coeffB o d c - Real.sqrt (discriminant o d c r))
  opNum2 : 0 ≤ discriminant o d c r →
    IsRep binary32 (-coeffB o d c + Real.sqrt (discriminant o d c r))
  opT1 : 0 ≤ discriminant o d c r → IsRep binary32 (rootT1 Real.sqrt o d c r)
  opT2 : 0 ≤ discriminant o d c r → IsRep binary32 (rootT2 Real.sqrt o d c r)

/-! ## Event histories, in the words of the specification -/

/-- The mode selected by one event: a key select sets it, any other event keeps it. -/
def selectMode (m : Mode) : Event → Mode
  | Event.SDL_KEYDOWN Key.SDLK_a => Mode.AUTOMATIC
  | Event.SDL_KEYDOWN Key.SDLK_d => Mode.DRAG
  | _ => m

/-- The mode after a history of events, starting from mode `m`. -/
def modeAfter (m : Mode) (evs : List Event) : Mode :=
  evs.foldl selectMode m

/-- The pointer-down (`true`) and pointer-up (`false`) events of a history, oldest
first, whatever the mode was when they arrived. -/
def buttonTrace : List Event → List Bool
  | [] => []
  | Event.SDL_MOUSEBUTTONDOWN Button.SDL_BUTTON_LEFT :: es => true :: buttonTrace es
  | Event.SDL_MOUSEBUTTONUP Button.SDL_BUTTON_LEFT :: es => false :: buttonTrace es
  | _ :: es => buttonTrace es

/-- Whether the most recent pointer-down/up event of a history was a pointer-down,
in whatever mode that event arrived; `held0` is the answer for a history without
such an event. -/
def lastButtonDown (held0 : Bool) (evs : List Event) : Bool :=
  (buttonTrace evs).getLast?.getD held0

/-- The pointer-down (`true`) and pointer-up (`false`) events of a history that
arrived while the mode was `DRAG`, oldest first; `m` is the mode at the start. -/
def dragButtonTrace : Mode → List Event → List Bool
  | _, [] => []
  | Mode.DRAG, Event.SDL_MOUSEBUTTONDOWN Button.SDL_BUTTON_LEFT :: es =>
    true :: dragButtonTrace Mode.DRAG es
  | Mode.DRAG, Event.SDL_MOUSEBUTTONUP Button.SDL_BUTTON_LEFT :: es =>
    false :: dragButtonTrace Mode.DRAG es
  | m, e :: es => dragButtonTrace (selectMode m e) es

/-- Whether the most recent pointer-down/up event that arrived in Drag mode was a
pointer-down; `held0` is the answer for a history without such an event. -/
def lastDragButtonDown (m : Mode) (held0 : Bool) (evs : List Event) : Bool :=
  (dragButtonTrace m evs).getLast?.getD held0

/-- The value `x` reduced modulo `p` into `[0, p)`, in the words of the
specification ("wrapped into `[0, 2π)`"). -/
def reduceMod {K : Type} [LinearOrderedField K] [FloorRing K] (p x : K) : K :=
  x - (⌊x / p⌋ : K) * p

/-- One admissible `std::cos` or `std::sin` on `float`: the correctly rounded value
of the exact function `g`.  It serves to evaluate the program at angle `0`, where
every library returns `cos 0 = 1` and `sin 0 = 0`. -/
def roundedFn {K : Type} [LinearOrderedField K] [FloorRing K] (g : K → K) : Fp K → Fp K
  | Fp.fin x => roundTo binary32 (g x)
  | _ => Fp.nan

/-- The value `a = dir.x * dir.x + dir.y * dir.y` of line 18 as the program
computes it. -/
def floatA {K : Type} [LinearOrderedField K] [FloorRing K] (dir : Vec2 (Fp K)) : Fp K :=
  fadd (fmul dir.x dir.x) (fmul dir.y dir.y)

/-- The divisor `2 * a` of lines 24 and 25 as the program computes it. -/
def divisor {K : Type} [LinearOrderedField K] [FloorRing K] (dir : Vec2 (Fp K)) : Fp K :=
  fmul (Fp.fin 2) (floatA dir)

/-! # Theorems -/

/-! ## Rounding -/

theorem roundEven_intCast (n : Int) : roundEven ((n : ℝ)) = n := by
  unfold roundEven
  simp

theorem roundEven_le (z : ℝ) (N : Int) (h : z ≤ N) : roundEven z ≤ N := by
  have hfl : ⌊z⌋ ≤ N := Int.floor_le_iff.2 (by linarith [Int.floor_le z] : z < (N : ℝ) + 1) |> fun h => h
  unfold roundEven
  by_cases heq : ⌊z⌋ = N
  · have h0 : z - (⌊z⌋ : ℝ) < 1 / 2 := by rw [heq]; linarith
    rw [if_pos h0, heq]
  · have hlt : ⌊z⌋ + 1 ≤ N := by omega
    split
    · exact hfl
    · split
      · exact hlt
      · split
        · exact hfl
        · exact hlt

theorem le_roundEven (z : ℝ) (N : Int) (h : (N : ℝ) ≤ z) : N ≤ roundEven z := by
  have hfl : N ≤ ⌊z⌋ := Int.le_floor.2 h
  unfold roundEven
  split
  · exact hfl
  · split
    · omega
    · split
      · exact hfl
      · omega

theorem roundEven_eq_of_abs_lt (z : ℝ) (n : Int) (h : |z - n| < 1 / 2) :
    roundEven z = n := by
  rw [abs_lt] at h
  unfold roundEven
  by_cases hz : (n : ℝ) ≤ z
  · have hfl : ⌊z⌋ = n := Int.floor_eq_iff.2 ⟨hz, by linarith⟩
    rw [hfl, if_pos (by linarith)]
  · push_neg at hz
    have hfl : ⌊z⌋ = n - 1 := Int.floor_eq_iff.2 ⟨by push_cast; linarith, by push_cast; linarith⟩
    rw [hfl, if_neg (by push_cast; linarith), if_pos (by push_cast; linarith)]
    ring

theorem roundEven_tie_down (z : ℝ) (n : Int) (h : z = n + 1 / 2) (hn : n % 2 = 0) :
    roundEven z = n := by
  have hfl : ⌊z⌋ = n := Int.floor_eq_iff.2 ⟨by linarith, by linarith⟩
  unfold roundEven
  rw [hfl, if_neg (by linarith), if_neg (by linarith), if_pos hn]

theorem roundEven_tie_up (z : ℝ) (n : Int) (h : z = n - 1 / 2) (hn : n % 2 = 0) :
    roundEven z = n := by
  have hfl : ⌊z⌋ = n - 1 := Int.floor_eq_iff.2 ⟨by push_cast; linarith, by push_cast; linarith⟩
  unfold roundEven
  rw [hfl, if_neg (by push_cast; linarith), if_neg (by push_cast; linarith),
    if_neg (by omega)]
  ring

theorem two_zpow_pos (e : Int) : (0 : ℝ) < (2 : ℝ) ^ e := zpow_pos (by norm_num) e

theorem maxFinite_ge (f : Format) (hp : 1 ≤ f.prec) :
    (2 : ℝ) ^ f.emax ≤ maxFinite f := by
  unfold maxFinite
  have h1 : (2 : ℝ) ^ f.emax = (2 : ℝ) ^ ((f.prec : Int) - 1) * 2 ^ (f.emax - ((f.prec : Int) - 1)) := by
    rw [← zpow_add₀ (by norm_num : (2 : ℝ) ≠ 0)]
    congr 1; ring
  rw [h1]
  apply mul_le_mul_of_nonneg_right _ (two_zpow_pos _).le
  have h2 : (2 : ℝ) ^ ((f.prec : Int) - 1) * 2 = 2 ^ f.prec := by
    rw [← zpow_add_one₀ (by norm_num : (2 : ℝ) ≠ 0)]
    rw [sub_add_cancel, zpow_natCast]
  have h3 : (1 : ℝ) ≤ (2 : ℝ) ^ ((f.prec : Int) - 1) :=
    one_le_zpow₀ (by norm_num) (by omega)
  linarith

theorem log_two_eq (x : ℝ) (E : Int) (h1 : (2 : ℝ) ^ E ≤ x) (h2 : x < (2 : ℝ) ^ (E + 1)) :
    Int.log 2 x = E := by
  have hx : 0 < x := lt_of_lt_of_le (two_zpow_pos E) h1
  have ha : E ≤ Int.log 2 x :=
    (Int.zpow_le_iff_le_log (by norm_num) hx).1 (by exact_mod_cast h1)
  have hb : Int.log 2 x < E + 1 :=
    (Int.lt_zpow_iff_log_lt (by norm_num) hx).1 (by exact_mod_cast h2)
  omega

theorem roundFin_zero (f : Format) : roundFin f (0 : ℝ) = 0 := by
  unfold roundFin
  rw [zero_div]
  have : roundEven (0 : ℝ) = 0 := by
    have := roundEven_intCast 0
    simpa using this
  rw [this]; simp

theorem maxFinite_nonneg (f : Format) : (0 : ℝ) ≤ maxFinite f := by
  unfold maxFinite
  apply mul_nonneg _ (two_zpow_pos _).le
  have : (1 : ℝ) ≤ 2 ^ f.prec := one_le_pow₀ (by norm_num)
  linarith

theorem roundTo_of_roundFin (f : Format) (x y : ℝ) (h : roundFin f x = y)
    (hy : |y| ≤ maxFinite f) : roundTo f x = Fp.fin y := by
  rw [abs_le] at hy
  unfold roundTo
  rw [h, if_neg (by linarith [hy.2]), if_neg (by linarith [hy.1])]

theorem roundFin_of_grid (f : Format) (x : ℝ) (m e : Int) (hx : x = (m : ℝ) * (2 : ℝ) ^ e)
    (hu : ulpExp f x ≤ e) : roundFin f x = x := by
  have h2 : (2 : ℝ) ≠ 0 := by norm_num
  unfold roundFin
  obtain ⟨k, hk⟩ := Int.eq_ofNat_of_zero_le (sub_nonneg.2 hu)
  have hdiv : x / (2 : ℝ) ^ ulpExp f x = ((m * 2 ^ k : Int) : ℝ) := by
    have he : e = ulpExp f x + k := by omega
    rw [div_eq_iff (ne_of_gt (two_zpow_pos _))]
    nth_rewrite 1 [hx]
    rw [he, zpow_add₀ h2, zpow_natCast]
    push_cast
    ring
  rw [hdiv, roundEven_intCast, ← hdiv]
  exact div_mul_cancel₀ _ (ne_of_gt (two_zpow_pos _))

/-- A value of the format is left unchanged by rounding. -/
theorem roundTo_of_isRep (f : Format) (x : ℝ) (h : IsRep f x) :
    roundTo f x = Fp.fin x := by
  obtain ⟨m, e, hm, he1, he2, hx⟩ := h
  have h2 : (2 : ℝ) ≠ 0 := by norm_num
  by_cases hm0 : m = 0
  · have hx0 : x = 0 := by rw [hx, hm0]; simp
    rw [hx0]
    exact roundTo_of_roundFin f 0 0 (roundFin_zero f) (by simpa using maxFinite_nonneg f)
  · have hmabs : (1 : ℝ) ≤ |(m : ℝ)| := by
      have : (1 : Int) ≤ |m| := Int.one_le_abs hm0
      exact_mod_cast this
    have hmlt : |(m : ℝ)| < (2 : ℝ) ^ f.prec := by exact_mod_cast hm
    have hmle : |(m : ℝ)| ≤ (2 : ℝ) ^ f.prec - 1 := by
      have : |m| ≤ 2 ^ f.prec - 1 := by omega
      exact_mod_cast this
    have habs : |x| = |(m : ℝ)| * (2 : ℝ) ^ e := by
      rw [hx, abs_mul, abs_of_pos (two_zpow_pos e)]
    have hxpos : 0 < |x| := by
      rw [habs]; exact mul_pos (by linarith) (two_zpow_pos e)
    have hlog : Int.log 2 |x| < (f.prec : Int) + e := by
      apply (Int.lt_zpow_iff_log_lt (by norm_num) hxpos).1
      rw [habs, zpow_add₀ (by norm_num), zpow_natCast]
      push_cast
      exact mul_lt_mul_of_pos_right hmlt (two_zpow_pos e)
    have hu : ulpExp f x ≤ e := by
      unfold ulpExp
      have := max_le (a := Int.log 2 |x|) (b := f.emin) (c := e + ((f.prec : Int) - 1))
        (by omega) (by omega)
      omega
    apply roundTo_of_roundFin f x x (roundFin_of_grid f x m e hx hu)
    rw [habs]
    unfold maxFinite
    exact mul_le_mul hmle (zpow_le_zpow_right₀ (by norm_num) he2) (two_zpow_pos e).le
      (by linarith)

theorem ulpExp_eq (f : Format) (x : ℝ) (E : Int) (h1 : (2 : ℝ) ^ E ≤ |x|)
    (h2 : |x| < (2 : ℝ) ^ (E + 1)) (hmin : f.emin ≤ E) :
    ulpExp f x = E - ((f.prec : Int) - 1) := by
  unfold ulpExp
  rw [log_two_eq |x| E h1 h2, max_eq_left hmin]

/-- Rounding of a value whose binade `E` and nearest grid point `n * 2^u` are
known. -/
theorem roundTo_eval (f : Format) (x y : ℝ) (E u n : Int) (h1 : (2 : ℝ) ^ E ≤ |x|)
    (h2 : |x| < (2 : ℝ) ^ (E + 1)) (hmin : f.emin ≤ E) (hu : u = E - ((f.prec : Int) - 1))
    (hn : roundEven (x / (2 : ℝ) ^ u) = n) (hy : y = (n : ℝ) * (2 : ℝ) ^ u)
    (hr : |y| ≤ maxFinite f) : roundTo f x = Fp.fin y := by
  apply roundTo_of_roundFin f x y _ hr
  unfold roundFin
  rw [ulpExp_eq f x E h1 h2 hmin, ← hu, hn, hy]

/-- Rounding keeps a non-negative value between `0` and a power of two above it. -/
theorem roundTo_bounds (f : Format) (x : ℝ) (k : Int) (hp : 1 ≤ f.prec)
    (hk1 : f.emin < k) (hk2 : k ≤ f.emax) (h0 : 0 ≤ x) (hx : x ≤ (2 : ℝ) ^ k) :
    ∃ y : ℝ, roundTo f x = Fp.fin y ∧ 0 ≤ y ∧ y ≤ (2 : ℝ) ^ k := by
  have h2 : (2 : ℝ) ≠ 0 := by norm_num
  rcases eq_or_lt_of_le hx with heq | hlt
  · refine ⟨x, roundTo_of_isRep f x ⟨2 ^ (f.prec - 1), k - ((f.prec : Int) - 1), ?_, ?_, ?_, ?_⟩,
      h0, hx⟩
    · rw [abs_of_pos (by positivity)]
      exact pow_lt_pow_right₀ (by norm_num) (by omega)
    · omega
    · omega
    · rw [heq]
      push_cast
      rw [← zpow_natCast, ← zpow_add₀ h2]
      congr 1
      have : ((f.prec - 1 : Nat) : Int) = (f.prec : Int) - 1 := by omega
      rw [this]; ring
  · rcases eq_or_lt_of_le h0 with hz | hpos
    · refine ⟨0, ?_, le_refl _, (two_zpow_pos k).le⟩
      rw [← hz]
      exact roundTo_of_roundFin f 0 0 (roundFin_zero f) (by simpa using maxFinite_nonneg f)
    · have habs : |x| = x := abs_of_pos hpos
      have hL : Int.log 2 x < k :=
        (Int.lt_zpow_iff_log_lt (by norm_num) hpos).1 (by exact_mod_cast hlt)
      have hxL : x < (2 : ℝ) ^ (Int.log 2 x + 1) := by
        have := Int.lt_zpow_succ_log_self (b := 2) (by norm_num) x
        exact_mod_cast this
      have hM : max (Int.log 2 x) f.emin ≤ k - 1 := max_le (by omega) (by omega)
      have hLM : Int.log 2 x ≤ max (Int.log 2 x) f.emin := le_max_left _ _
      have hxM : x < (2 : ℝ) ^ (max (Int.log 2 x) f.emin + 1) :=
        lt_of_lt_of_le hxL (zpow_le_zpow_right₀ (by norm_num) (by omega))
      have hu : ulpExp f x = max (Int.log 2 x) f.emin - ((f.prec : Int) - 1) := by
        unfold ulpExp; rw [habs]
      have hupos := two_zpow_pos (ulpExp f x)
      have hz0 : (0 : ℝ) ≤ x / (2 : ℝ) ^ ulpExp f x := div_nonneg h0 hupos.le
      have hz1 : x / (2 : ℝ) ^ ulpExp f x ≤ ((2 ^ f.prec : Int) : ℝ) := by
        rw [div_le_iff₀ hupos]
        push_cast
        rw [← zpow_natCast, ← zpow_add₀ h2, hu]
        have : (f.prec : Int) + (max (Int.log 2 x) f.emin - ((f.prec : Int) - 1))
            = max (Int.log 2 x) f.emin + 1 := by ring
        rw [this]
        exact hxM.le
      have hr1 := roundEven_le _ _ hz1
      have hr0 := le_roundEven (x / (2 : ℝ) ^ ulpExp f x) 0 (by simpa using hz0)
      have hy0 : (0 : ℝ) ≤ roundFin f x := by
        unfold roundFin
        exact mul_nonneg (by exact_mod_cast hr0) hupos.le
      have hy1 : roundFin f x ≤ (2 : ℝ) ^ k := by
        unfold roundFin
        have hr1' : ((roundEven (x / (2 : ℝ) ^ ulpExp f x) : Int) : ℝ) ≤ (2 : ℝ) ^ (f.prec : Int) := by
          rw [zpow_natCast]; exact_mod_cast hr1
        calc ((roundEven (x / (2 : ℝ) ^ ulpExp f x) : Int) : ℝ) * (2 : ℝ) ^ ulpExp f x
            ≤ (2 : ℝ) ^ (f.prec : Int) * (2 : ℝ) ^ ulpExp f x :=
              mul_le_mul_of_nonneg_right hr1' hupos.le
          _ = (2 : ℝ) ^ (max (Int.log 2 x) f.emin + 1) := by
              rw [← zpow_add₀ h2, hu]; congr 1; ring
          _ ≤ (2 : ℝ) ^ k := zpow_le_zpow_right₀ (by norm_num) (by omega)
      refine ⟨roundFin f x, roundTo_of_roundFin f x _ rfl ?_, hy0, hy1⟩
      rw [abs_of_nonneg hy0]
      exact hy1.trans ((zpow_le_zpow_right₀ (by norm_num) hk2).trans (maxFinite_ge f hp))

theorem roundTo_eq_fin (f : Format) (x y : ℝ) (h : roundTo f x = Fp.fin y) :
    y = roundFin f x := by
  unfold roundTo at h
  split at h
  · exact absurd h (by simp)
  · split at h
    · exact absurd h (by simp)
    · exact (Fp.fin.inj h).symm

/-- Rounding does not cross a power of two from above. -/
theorem roundFin_ge (f : Format) (x : ℝ) (k : Int) (hp : 1 ≤ f.prec) (hk : f.emin ≤ k)
    (hx : (2 : ℝ) ^ k ≤ x) : (2 : ℝ) ^ k ≤ roundFin f x := by
  have h2 : (2 : ℝ) ≠ 0 := by norm_num
  have hpos : 0 < x := lt_of_lt_of_le (two_zpow_pos k) hx
  have hL : k ≤ Int.log 2 x :=
    (Int.zpow_le_iff_le_log (by norm_num) hpos).1 (by exact_mod_cast hx)
  have hxL : (2 : ℝ) ^ Int.log 2 x ≤ x := by
    have := Int.zpow_log_le_self (b := 2) (by norm_num) hpos
    exact_mod_cast this
  have hu : ulpExp f x = Int.log 2 x - ((f.prec : Int) - 1) := by
    unfold ulpExp
    rw [abs_of_pos hpos, max_eq_left (by omega)]
  have hupos := two_zpow_pos (ulpExp f x)
  have hz : (((2 : Int) ^ (f.prec - 1) : Int) : ℝ) ≤ x / (2 : ℝ) ^ ulpExp f x := by
    rw [le_div_iff₀ hupos]
    push_cast
    rw [← zpow_natCast, ← zpow_add₀ h2, hu]
    have : ((f.prec - 1 : Nat) : Int) + (Int.log 2 x - ((f.prec : Int) - 1)) = Int.log 2 x := by
      omega
    rw [this]
    exact hxL
  have hr := le_roundEven _ _ hz
  unfold roundFin
  calc (2 : ℝ) ^ k ≤ (2 : ℝ) ^ Int.log 2 x := zpow_le_zpow_right₀ (by norm_num) hL
    _ = (((2 : Int) ^ (f.prec - 1) : Int) : ℝ) * (2 : ℝ) ^ ulpExp f x := by
        push_cast
        rw [← zpow_natCast, ← zpow_add₀ h2, hu]
        congr 1
        omega
    _ ≤ ((roundEven (x / (2 : ℝ) ^ ulpExp f x) : Int) : ℝ) * (2 : ℝ) ^ ulpExp f x :=
        mul_le_mul_of_nonneg_right (by exact_mod_cast hr) hupos.le

/-- Rounding keeps a value between two powers of two that enclose it. -/
theorem roundTo_between (f : Format) (x : ℝ) (k n : Int) (hp : 1 ≤ f.prec)
    (hk : f.emin ≤ k) (hn1 : f.emin < n) (hn2 : n ≤ f.emax)
    (h1 : (2 : ℝ) ^ k ≤ x) (h2 : x ≤ (2 : ℝ) ^ n) :
    ∃ y : ℝ, roundTo f x = Fp.fin y ∧ (2 : ℝ) ^ k ≤ y ∧ y ≤ (2 : ℝ) ^ n := by
  obtain ⟨y, hy, _, hyn⟩ := roundTo_bounds f x n hp hn1 hn2
    ((two_zpow_pos k).le.trans h1) h2
  refine ⟨y, hy, ?_, hyn⟩
  rw [roundTo_eq_fin f x y hy]
  exact roundFin_ge f x k hp hk h1


/-! ## The error of one rounding -/

theorem abs_roundEven_sub_le (z : ℝ) : |(roundEven z : ℝ) - z| ≤ 1 / 2 := by
  have h0 := Int.floor_le z
  have h1 := Int.lt_floor_add_one z
  unfold roundEven
  rw [abs_le]
  split
  · constructor <;> linarith
  · split
    · push_cast; constructor <;> linarith
    · split
      · constructor <;> linarith
      · push_cast; constructor <;> linarith

/-- A value of absolute value at most `2^k` is rounded with an error of at most
half a unit in the last place of that binade, `2^(k - prec)`. -/
theorem roundFin_error (f : Format) (x : ℝ) (k : Int) (hk : f.emin ≤ k)
    (hx : |x| ≤ (2 : ℝ) ^ k) :
    |roundFin f x - x| ≤ (2 : ℝ) ^ (k - (f.prec : Int)) := by
  have h2 : (2 : ℝ) ≠ 0 := by norm_num
  rcases eq_or_lt_of_le (abs_nonneg x) with h0 | hpos
  · have hx0 : x = 0 := abs_eq_zero.1 h0.symm
    rw [hx0, roundFin_zero, sub_zero, abs_zero]
    exact (two_zpow_pos _).le
  · have hu : ulpExp f x ≤ k - ((f.prec : Int) - 1) := by
      unfold ulpExp
      have hlog : Int.log 2 |x| < k + 1 :=
        (Int.lt_zpow_iff_log_lt (by norm_num) hpos).1
          (lt_of_le_of_lt (by exact_mod_cast hx)
            (by exact_mod_cast zpow_lt_zpow_right₀ (by norm_num : (1:ℝ) < 2) (lt_add_one k)))
      have := max_le (show Int.log 2 |x| ≤ k by omega) hk
      omega
    have hupos := two_zpow_pos (ulpExp f x)
    have hz := abs_roundEven_sub_le (x / (2 : ℝ) ^ ulpExp f x)
    have heq : roundFin f x - x
        = ((roundEven (x / (2 : ℝ) ^ ulpExp f x) : ℝ)
            - x / (2 : ℝ) ^ ulpExp f x) * (2 : ℝ) ^ ulpExp f x := by
      unfold roundFin
      field_simp
    rw [heq, abs_mul, abs_of_pos hupos]
    have hle : (2 : ℝ) ^ ulpExp f x ≤ (2 : ℝ) ^ (k - ((f.prec : Int) - 1)) :=
      zpow_le_zpow_right₀ (by norm_num) hu
    have hhalf : (2 : ℝ) ^ (k - (f.prec : Int)) * 2 = (2 : ℝ) ^ (k - ((f.prec : Int) - 1)) := by
      rw [← zpow_add_one₀ h2]; congr 1; ring
    calc _ ≤ 1 / 2 * (2 : ℝ) ^ ulpExp f x := mul_le_mul_of_nonneg_right hz hupos.le
      _ ≤ 1 / 2 * (2 : ℝ) ^ (k - ((f.prec : Int) - 1)) := by linarith
      _ = (2 : ℝ) ^ (k - (f.prec : Int)) := by rw [← hhalf]; ring

/-! ## Operations on finite values -/

theorem fadd_fin (x y : ℝ) : fadd (Fp.fin x) (Fp.fin y) = roundTo binary32 (x + y) := rfl

theorem fsub_fin (x y : ℝ) : fsub (Fp.fin x) (Fp.fin y) = roundTo binary32 (x - y) := by
  simp only [fsub, Fp.sub, Fp.neg, Fp.add, sub_eq_add_neg]

theorem fmul_fin (x y : ℝ) : fmul (Fp.fin x) (Fp.fin y) = roundTo binary32 (x * y) := rfl

theorem fdiv_fin (x y : ℝ) (hy : y ≠ 0) :
    fdiv (Fp.fin x) (Fp.fin y) = roundTo binary32 (x / y) := by
  simp only [fdiv, Fp.div, if_neg hy]

theorem fsqrt_fin (x : ℝ) (hx : 0 ≤ x) :
    fsqrt Real.sqrt (Fp.fin x) = roundTo binary32 (Real.sqrt x) := by
  simp only [fsqrt, Fp.sqrt, if_neg (not_lt.mpr hx)]

theorem fadd_exact (x y : ℝ) (h : IsRep binary32 (x + y)) :
    fadd (Fp.fin x) (Fp.fin y) = Fp.fin (x + y) := by
  rw [fadd_fin, roundTo_of_isRep _ _ h]

theorem fsub_exact (x y : ℝ) (h : IsRep binary32 (x - y)) :
    fsub (Fp.fin x) (Fp.fin y) = Fp.fin (x - y) := by
  rw [fsub_fin, roundTo_of_isRep _ _ h]

theorem fmul_exact (x y : ℝ) (h : IsRep binary32 (x * y)) :
    fmul (Fp.fin x) (Fp.fin y) = Fp.fin (x * y) := by
  rw [fmul_fin, roundTo_of_isRep _ _ h]

theorem fdiv_exact (x y : ℝ) (hy : y ≠ 0) (h : IsRep binary32 (x / y)) :
    fdiv (Fp.fin x) (Fp.fin y) = Fp.fin (x / y) := by
  rw [fdiv_fin _ _ hy, roundTo_of_isRep _ _ h]

theorem fsqrt_exact (x : ℝ) (hx : 0 ≤ x) (h : IsRep binary32 (Real.sqrt x)) :
    fsqrt Real.sqrt (Fp.fin x) = Fp.fin (Real.sqrt x) := by
  rw [fsqrt_fin _ hx, roundTo_of_isRep _ _ h]

theorem lt_fin (x y : ℝ) : Fp.lt (Fp.fin x) (Fp.fin y) = decide (x < y) := rfl

/-! ## The intersector when no operation rounds -/

/-- When no operation rounds, the `float` intersector returns the exact result of
lines 22-28. -/
theorem raySphereIntersection_of_exact (o d c : Vec2 ℝ) (r : ℝ) (ha : 0 < coeffA d)
    (h : ExactEval o d c r) :
    raySphereIntersection Real.sqrt o.toFp d.toFp c.toFp (Fp.fin r)
      = Fp.fin (exactIntersection Real.sqrt o d c r) := by
  have h2a : 2 * coeffA d ≠ 0 := by linarith
  have e1 := fsub_exact o.x c.x h.opOcx
  have e2 := fsub_exact o.y c.y h.opOcy
  have e3 := fmul_exact d.x d.x h.opDxx
  have e4 := fmul_exact d.y d.y h.opDyy
  have e5 := fadd_exact _ _ h.opA
  have e6 := fmul_exact _ _ h.opBx
  have e7 := fmul_exact _ _ h.opBy
  have e8 := fadd_exact _ _ h.opBsum
  have e9 := fmul_exact _ _ h.opB
  have e10 := fmul_exact _ _ h.opCxx
  have e11 := fmul_exact _ _ h.opCyy
  have e12 := fadd_exact _ _ h.opCsum
  have e13 := fmul_exact _ _ h.opRr
  have e14 : fsub (Fp.fin ((o.x - c.x) * (o.x - c.x) + (o.y - c.y) * (o.y - c.y)))
      (Fp.fin (r * r)) = Fp.fin (coeffC o c r) := fsub_exact _ _ h.opC
  have e15 : fmul (Fp.fin (2 * ((o.x - c.x) * d.x + (o.y - c.y) * d.y)))
      (Fp.fin (2 * ((o.x - c.x) * d.x + (o.y - c.y) * d.y)))
      = Fp.fin (coeffB o d c * coeffB o d c) := fmul_exact _ _ h.opBb
  have e16 : fmul (Fp.fin 4) (Fp.fin (d.x * d.x + d.y * d.y)) = Fp.fin (4 * coeffA d) :=
    fmul_exact _ _ h.opFourA
  have e17 : fmul (Fp.fin (4 * coeffA d)) (Fp.fin (coeffC o c r))
      = Fp.fin (4 * coeffA d * coeffC o c r) := fmul_exact _ _ h.opFourAC
  have e18 : fsub (Fp.fin (coeffB o d c * coeffB o d c))
      (Fp.fin (4 * coeffA d * coeffC o c r)) = Fp.fin (discriminant o d c r) :=
    fsub_exact _ _ h.opDisc
  have e19 : fmul (Fp.fin 2) (Fp.fin (d.x * d.x + d.y * d.y)) = Fp.fin (2 * coeffA d) :=
    fmul_exact _ _ h.opTwoA
  unfold raySphereIntersection exactIntersection
  simp only [Vec2.toFp, e1, e2, e3, e4, e5, e6, e7, e8, e9, e10, e11, e12, e13, e14, e15,
    e16, e17, e18, e19, lt_fin, decide_eq_true_eq]
  by_cases hD : discriminant o d c r < 0
  · rw [if_pos hD, if_pos hD]
  · rw [if_neg hD, if_neg hD]
    push_neg at hD
    have s1 := fsqrt_exact _ hD (h.opSqrt hD)
    have n1 : fsub (Fp.neg (Fp.fin (2 * ((o.x - c.x) * d.x + (o.y - c.y) * d.y))))
        (Fp.fin (Real.sqrt (discriminant o d c r)))
        = Fp.fin (-coeffB o d c - Real.sqrt (discriminant o d c r)) :=
      fsub_exact _ _ (h.opNum1 hD)
    have n2 : fadd (Fp.neg (Fp.fin (2 * ((o.x - c.x) * d.x + (o.y - c.y) * d.y))))
        (Fp.fin (Real.sqrt (discriminant o d c r)))
        = Fp.fin (-coeffB o d c + Real.sqrt (discriminant o d c r)) :=
      fadd_exact _ _ (h.opNum2 hD)
    have q1 : fdiv (Fp.fin (-coeffB o d c - Real.sqrt (discriminant o d c r)))
        (Fp.fin (2 * coeffA d)) = Fp.fin (rootT1 Real.sqrt o d c r) :=
      fdiv_exact _ _ h2a (h.opT1 hD)
    have q2 : fdiv (Fp.fin (-coeffB o d c + Real.sqrt (discriminant o d c r)))
        (Fp.fin (2 * coeffA d)) = Fp.fin (rootT2 Real.sqrt o d c r) :=
      fdiv_exact _ _ h2a (h.opT2 hD)
    simp only [s1, n1, n2, q1, q2, lt_fin, decide_eq_true_eq]
    by_cases h1 : rootT1 Real.sqrt o d c r > 0
    · rw [if_pos h1, if_pos h1]
    · rw [if_neg h1, if_neg h1]
      by_cases h2 : rootT2 Real.sqrt o d c r > 0
      · rw [if_pos h2, if_pos h2]
      · rw [if_neg h2, if_neg h2]

/-! ## The exact reading of the intersector -/

theorem exactIntersection_eq (sqrt : ℝ → ℝ) (o d c : Vec2 ℝ) (r : ℝ) :
    exactIntersection sqrt o d c r =
      if discriminant o d c r < 0 then -1
      else if (-coeffB o d c - sqrt (discriminant o d c r)) / (2 * coeffA d) > 0 then
        (-coeffB o d c - sqrt (discriminant o d c r)) / (2 * coeffA d)
      else if (-coeffB o d c + sqrt (discriminant o d c r)) / (2 * coeffA d) > 0 then
        (-coeffB o d c + sqrt (discriminant o d c r)) / (2 * coeffA d)
      else -1 := rfl

/-- The squared distance of the ray point at parameter `t` from the centre is the
quadratic plus `radius²`. -/
theorem sq_dist_rayPoint (o d c : Vec2 ℝ) (r t : ℝ) :
    ((rayPoint o d t).x - c.x) * ((rayPoint o d t).x - c.x)
      + ((rayPoint o d t).y - c.y) * ((rayPoint o d t).y - c.y)
      = quadratic o d c r t + r * r := by
  simp only [rayPoint, quadratic, coeffA, coeffB, coeffC]
  ring

/-- For a non-negative radius the ray point at `t` is on the circle exactly when
`t` is a root of the quadratic. -/
theorem on_circle_iff (o d c : Vec2 ℝ) (r t : ℝ) (hr : 0 ≤ r) :
    exactDistance Real.sqrt (rayPoint o d t) c = r ↔ quadratic o d c r t = 0 := by
  unfold exactDistance
  rw [sq_dist_rayPoint o d c r t]
  constructor
  · intro h
    have h0 : 0 ≤ quadratic o d c r t + r * r := by
      rw [← sq_dist_rayPoint o d c r t]
      exact add_nonneg (mul_self_nonneg _) (mul_self_nonneg _)
    have h2 := Real.mul_self_sqrt h0
    rw [h] at h2
    linarith
  · intro h
    rw [h, zero_add]
    exact Real.sqrt_mul_self hr

/-- The three outcomes of the intersector for a non-zero direction: the sentinel
when the quadratic has no positive root, and its least positive root otherwise. -/
theorem exactIntersection_cases (o d c : Vec2 ℝ) (r : ℝ) (ha : 0 < coeffA d) :
    (exactIntersection Real.sqrt o d c r = -1
        ∧ ∀ t : ℝ, 0 < t → quadratic o d c r t ≠ 0)
    ∨ (0 < exactIntersection Real.sqrt o d c r
        ∧ quadratic o d c r (exactIntersection Real.sqrt o d c r) = 0
        ∧ ∀ t : ℝ, 0 < t → quadratic o d c r t = 0 →
            exactIntersection Real.sqrt o d c r ≤ t) := by
  rw [exactIntersection_eq]
  have ha0 : coeffA d ≠ 0 := ne_of_gt ha
  have h2a : 0 < 2 * coeffA d := by linarith
  by_cases hD : discriminant o d c r < 0
  · left
    rw [if_pos hD]
    refine ⟨rfl, fun t _ => ?_⟩
    unfold quadratic
    apply quadratic_ne_zero_of_discrim_ne_sq
    intro s hs
    have h1 : discrim (coeffA d) (coeffB o d c) (coeffC o c r) = discriminant o d c r := by
      simp only [discrim, discriminant]; ring
    rw [h1] at hs
    nlinarith [sq_nonneg s]
  · rw [if_neg hD]
    push_neg at hD
    have hs0 := Real.sqrt_nonneg (discriminant o d c r)
    have hss := Real.mul_self_sqrt hD
    have hdis : discrim (coeffA d) (coeffB o d c) (coeffC o c r)
        = Real.sqrt (discriminant o d c r) * Real.sqrt (discriminant o d c r) := by
      rw [hss]; simp only [discrim, discriminant]; ring
    have hroots := fun t => quadratic_eq_zero_iff ha0 hdis t
    have hle : (-coeffB o d c - Real.sqrt (discriminant o d c r)) / (2 * coeffA d)
        ≤ (-coeffB o d c + Real.sqrt (discriminant o d c r)) / (2 * coeffA d) := by
      apply div_le_div_of_nonneg_right _ h2a.le
      linarith
    by_cases h1 : (-coeffB o d c - Real.sqrt (discriminant o d c r)) / (2 * coeffA d) > 0
    · right
      rw [if_pos h1]
      refine ⟨h1, ?_, ?_⟩
      · exact (hroots _).2 (Or.inr rfl)
      · intro t _ hq
        rcases (hroots t).1 hq with h | h
        · rw [h]; exact hle
        · rw [h]
    · rw [if_neg h1]
      by_cases h2 : (-coeffB o d c + Real.sqrt (discriminant o d c r)) / (2 * coeffA d) > 0
      · right
        rw [if_pos h2]
        refine ⟨h2, ?_, ?_⟩
        · exact (hroots _).2 (Or.inl rfl)
        · intro t ht hq
          rcases (hroots t).1 hq with h | h
          · rw [h]
          · exfalso; rw [h] at ht; exact h1 ht
      · left
        rw [if_neg h2]
        refine ⟨rfl, fun t ht hq => ?_⟩
        rcases (hroots t).1 hq with h | h
        · rw [h] at ht; exact h2 ht
        · rw [h] at ht; exact h1 ht

/-- A non-zero direction has `a = dir·dir > 0`. -/
theorem coeffA_pos (d : Vec2 ℝ) (hd : d ≠ ⟨0, 0⟩) : 0 < coeffA d := by
  unfold coeffA
  rcases d with ⟨dx, dy⟩
  by_contra hneg
  push_neg at hneg
  have hx : dx = 0 := by nlinarith [mul_self_nonneg dx, mul_self_nonneg dy]
  have hy : dy = 0 := by nlinarith [mul_self_nonneg dx, mul_self_nonneg dy]
  exact hd (by rw [hx, hy])

/-- The intersector once the square root of the discriminant is known. -/
theorem exactIntersection_of_sqrt (o d c : Vec2 ℝ) (r s : ℝ) (hs : 0 ≤ s)
    (hD : discriminant o d c r = s * s) :
    exactIntersection Real.sqrt o d c r =
      if (-coeffB o d c - s) / (2 * coeffA d) > 0 then (-coeffB o d c - s) / (2 * coeffA d)
      else if (-coeffB o d c + s) / (2 * coeffA d) > 0 then
        (-coeffB o d c + s) / (2 * coeffA d)
      else -1 := by
  rw [exactIntersection_eq, hD, Real.sqrt_mul_self hs,
    if_neg (not_lt.mpr (mul_self_nonneg s))]

/-- The origin is strictly outside a circle of non-negative radius exactly when
the coefficient `c` is positive. -/
theorem coeffC_pos_of_outside (o c : Vec2 ℝ) (r : ℝ) (hr : 0 ≤ r)
    (hout : exactDistance Real.sqrt o c > r) : 0 < coeffC o c r := by
  unfold exactDistance at hout
  have h := (Real.lt_sqrt hr).1 hout
  unfold coeffC
  nlinarith

/-- With `a > 0`, `b < 0`, `c > 0` and a non-negative discriminant the smaller
root is positive, so the intersector returns it. -/
theorem exactIntersection_towards (o d c : Vec2 ℝ) (r : ℝ) (ha : 0 < coeffA d)
    (hb : coeffB o d c < 0) (hc : 0 < coeffC o c r) (hD : 0 ≤ discriminant o d c r) :
    exactIntersection Real.sqrt o d c r
      = (-coeffB o d c - Real.sqrt (discriminant o d c r)) / (2 * coeffA d)
    ∧ 0 < (-coeffB o d c - Real.sqrt (discriminant o d c r)) / (2 * coeffA d) := by
  have hs0 := Real.sqrt_nonneg (discriminant o d c r)
  have hss := Real.mul_self_sqrt hD
  have hlt : Real.sqrt (discriminant o d c r) < -coeffB o d c := by
    by_contra hge
    push_neg at hge
    have h1 : coeffB o d c * coeffB o d c
        ≤ Real.sqrt (discriminant o d c r) * Real.sqrt (discriminant o d c r) := by
      nlinarith
    rw [hss] at h1
    unfold discriminant at h1
    nlinarith [mul_pos ha hc]
  have hpos : 0 < (-coeffB o d c - Real.sqrt (discriminant o d c r)) / (2 * coeffA d) :=
    div_pos (by linarith) (by linarith)
  refine ⟨?_, hpos⟩
  rw [exactIntersection_eq, if_neg (not_lt.mpr hD), if_pos hpos]

/-- In exact arithmetic the result is the sentinel exactly when the forward ray
misses the circle, and the least forward parameter otherwise. -/
theorem exact_nearest_forward_hit (o d c : Vec2 ℝ) (r : ℝ) (hd : d ≠ ⟨0, 0⟩) (hr : 0 ≤ r) :
    (exactIntersection Real.sqrt o d c r = -1 ↔
        ¬ ∃ t : ℝ, 0 < t ∧ exactDistance Real.sqrt (rayPoint o d t) c = r)
    ∧ (exactIntersection Real.sqrt o d c r ≠ -1 →
        IsLeast {t : ℝ | 0 < t ∧ exactDistance Real.sqrt (rayPoint o d t) c = r}
          (exactIntersection Real.sqrt o d c r)) := by
  rcases exactIntersection_cases o d c r (coeffA_pos d hd) with ⟨hm, hno⟩ | ⟨hpos, hq, hmin⟩
  · refine ⟨⟨fun _ => ?_, fun _ => hm⟩, fun hne => absurd hm hne⟩
    rintro ⟨t, ht, hon⟩
    exact hno t ht ((on_circle_iff o d c r t hr).1 hon)
  · have hne : exactIntersection Real.sqrt o d c r ≠ -1 := by
      intro h; rw [h] at hpos; norm_num at hpos
    refine ⟨⟨fun h => absurd h hne, fun h => ?_⟩, fun _ => ⟨⟨hpos, ?_⟩, ?_⟩⟩
    · exact absurd ⟨_, hpos, (on_circle_iff o d c r _ hr).2 hq⟩ h
    · exact (on_circle_iff o d c r _ hr).2 hq
    · rintro t ⟨ht, hon⟩
      exact hmin t ht ((on_circle_iff o d c r t hr).1 hon)

/-- In exact arithmetic a ray towards a circle it is strictly outside of, on a line
through the circle, hits the boundary. -/
theorem exact_hit_on_boundary (o d c : Vec2 ℝ) (r : ℝ) (hd : d ≠ ⟨0, 0⟩) (hr : 0 ≤ r)
    (hD : 0 ≤ discriminant o d c r) (hout : exactDistance Real.sqrt o c > r)
    (htow : 0 < (c.x - o.x) * d.x + (c.y - o.y) * d.y) :
    0 < exactIntersection Real.sqrt o d c r
    ∧ exactDistance Real.sqrt (rayPoint o d (exactIntersection Real.sqrt o d c r)) c = r := by
  have ha := coeffA_pos d hd
  have hb : coeffB o d c < 0 := by unfold coeffB; linarith
  have hc := coeffC_pos_of_outside o c r hr hout
  obtain ⟨heq, hpos⟩ := exactIntersection_towards o d c r ha hb hc hD
  rcases exactIntersection_cases o d c r ha with ⟨hm, _⟩ | ⟨hp, hq, _⟩
  · rw [heq] at hm; rw [hm] at hpos; norm_num at hpos
  · exact ⟨hp, (on_circle_iff o d c r _ hr).2 hq⟩

/-- In exact arithmetic a ray through the centre gets `D - r`, `D + r` or `-1`. -/
theorem exact_central_ray (c d : Vec2 ℝ) (r D : ℝ)
    (hunit : d.x * d.x + d.y * d.y = 1) (hr : 0 < r) :
    (r < D →
      exactIntersection Real.sqrt ⟨c.x - D * d.x, c.y - D * d.y⟩ d c r = D - r)
    ∧ (-r < D ∧ D ≤ r →
      exactIntersection Real.sqrt ⟨c.x - D * d.x, c.y - D * d.y⟩ d c r = D + r)
    ∧ (D ≤ -r →
      exactIntersection Real.sqrt ⟨c.x - D * d.x, c.y - D * d.y⟩ d c r = -1) := by
  have hA : coeffA d = 1 := hunit
  have hB : coeffB ⟨c.x - D * d.x, c.y - D * d.y⟩ d c = -2 * D := by
    simp only [coeffB]
    linear_combination (-2 * D) * hunit
  have hDisc : discriminant ⟨c.x - D * d.x, c.y - D * d.y⟩ d c r = (2 * r) * (2 * r) := by
    simp only [discriminant, hA, hB, coeffC]
    linear_combination (-4 * D * D) * hunit
  have key := exactIntersection_of_sqrt ⟨c.x - D * d.x, c.y - D * d.y⟩ d c r (2 * r)
    (by linarith) hDisc
  rw [hA, hB] at key
  have e1 : (-(-2 * D) - 2 * r) / (2 * 1) = D - r := by ring
  have e2 : (-(-2 * D) + 2 * r) / (2 * 1) = D + r := by ring
  rw [e1, e2] at key
  refine ⟨fun h => ?_, fun h => ?_, fun h => ?_⟩
  · rw [key, if_pos (by linarith)]
  · rw [key, if_neg (by linarith [h.2]), if_pos (by linarith [h.1])]
  · rw [key, if_neg (by linarith), if_neg (by linarith)]

theorem isRep32_mk (x : ℝ) (m e : Int) (hx : x = (m : ℝ) * (2 : ℝ) ^ e)
    (hm : |m| < 2 ^ 24) (he1 : -149 ≤ e) (he2 : e ≤ 104) : IsRep binary32 x :=
  ⟨m, e, hm, by simpa [binary32] using he1, by simpa [binary32] using he2, hx⟩

theorem isRep64_mk (x : ℝ) (m e : Int) (hx : x = (m : ℝ) * (2 : ℝ) ^ e)
    (hm : |m| < 2 ^ 53) (he1 : -1074 ≤ e) (he2 : e ≤ 971) : IsRep binary64 x :=
  ⟨m, e, hm, by simpa [binary64] using he1, by simpa [binary64] using he2, hx⟩

theorem isRep32_int (x : ℝ) (n : Int) (hx : x = (n : ℝ)) (hn : |n| < 2 ^ 24) :
    IsRep binary32 x :=
  isRep32_mk x n 0 (by rw [hx]; simp) hn (by norm_num) (by norm_num)

theorem maxFinite32 : maxFinite binary32 = (340282346638528859811704183484516925440 : ℝ) := by
  norm_num [maxFinite, binary32]

theorem twoPi_eq : (twoPi : Fp ℝ) = Fp.fin (884279719003555 / 140737488355328) := by
  unfold twoPi dmul M_PI
  show roundTo binary64 (2 * (884279719003555 / 281474976710656)) = _
  rw [roundTo_of_isRep _ _ (isRep64_mk _ 884279719003555 (-47) (by norm_num) (by norm_num)
    (by norm_num) (by norm_num))]
  norm_num

theorem ofInt_small (n : Int) (hn : |n| ≤ 2 ^ 24) : (ofInt n : Fp ℝ) = Fp.fin (n : ℝ) := by
  unfold ofInt
  apply roundTo_of_isRep
  rcases lt_or_eq_of_le hn with h | h
  · exact isRep32_int _ n rfl h
  · have h2 : |(n : ℝ)| = 2 ^ 24 := by
      have : ((|n| : Int) : ℝ) = ((2 ^ 24 : Int) : ℝ) := by rw [h]
      push_cast at this
      rw [this]; norm_num
    rcases abs_eq (by norm_num : (0 : ℝ) ≤ 2 ^ 24) |>.1 h2 with h3 | h3
    · exact isRep32_mk _ 1 24 (by rw [h3]; norm_num) (by norm_num) (by norm_num) (by norm_num)
    · exact isRep32_mk _ (-1) 24 (by rw [h3]; norm_num) (by norm_num) (by norm_num)
        (by norm_num)

/-- The constant `0.01f` is `10737418 / 2^30`. -/
theorem angularSpeed_eq : (angularSpeed : Fp ℝ) = Fp.fin (5368709 / 536870912) := by
  unfold angularSpeed
  apply roundTo_eval binary32 (1 / 100) _ (-7) (-30) 10737418
  · rw [abs_of_pos (by norm_num)]; norm_num
  · rw [abs_of_pos (by norm_num)]; norm_num
  · norm_num [binary32]
  · norm_num [binary32]
  · apply roundEven_eq_of_abs_lt
    rw [abs_lt]; constructor <;> norm_num
  · norm_num
  · rw [maxFinite32, abs_of_pos (by norm_num)]; norm_num

/-! ## The event loop and the animation step -/

theorem handleEvent_angle (e : Event) (s : State ℝ) : (handleEvent e s).angle = s.angle := by
  unfold handleEvent
  cases e <;> simp <;> (repeat' split) <;> rfl

theorem handleEvent_mode (e : Event) (s : State ℝ) :
    (handleEvent e s).mode = selectMode s.mode e := by
  unfold handleEvent selectMode
  cases e <;> simp <;> (repeat' split) <;> simp_all

theorem pollEvents_cons (e : Event) (es : List Event) (s : State ℝ) :
    pollEvents (e :: es) s = pollEvents es (handleEvent e s) := rfl

theorem pollEvents_angle (evs : List Event) (s : State ℝ) :
    (pollEvents evs s).angle = s.angle := by
  induction evs generalizing s with
  | nil => rfl
  | cons e es ih => rw [pollEvents_cons, ih, handleEvent_angle]

theorem pollEvents_mode (evs : List Event) (s : State ℝ) :
    (pollEvents evs s).mode = modeAfter s.mode evs := by
  induction evs generalizing s with
  | nil => rfl
  | cons e es ih =>
    rw [pollEvents_cons, ih, handleEvent_mode]
    rfl

/-- The angle update of lines 110-111 as a function of the angle. -/
theorem animate_angle (cosf sinf : Fp ℝ → Fp ℝ) (s : State ℝ) :
    (animate cosf sinf s).angle
      = if s.mode = Mode.AUTOMATIC then
          (if Fp.lt twoPi (fadd s.angle angularSpeed) then
              toFloat (dsub (fadd s.angle angularSpeed) twoPi)
            else fadd s.angle angularSpeed)
        else s.angle := by
  unfold animate
  by_cases hm : s.mode = Mode.AUTOMATIC
  · rw [if_pos hm, if_pos hm]
  · rw [if_neg hm, if_neg hm]

theorem frame_angle (cosf sinf : Fp ℝ → Fp ℝ) (evs : List Event) (s : State ℝ) :
    (frame cosf sinf evs s).angle
      = if modeAfter s.mode evs = Mode.AUTOMATIC then
          (if Fp.lt twoPi (fadd s.angle angularSpeed) then
              toFloat (dsub (fadd s.angle angularSpeed) twoPi)
            else fadd s.angle angularSpeed)
        else s.angle := by
  unfold frame
  rw [animate_angle, pollEvents_mode, pollEvents_angle]

theorem two_M_PI_lt : (884279719003555 / 140737488355328 : ℝ) < 2 * Real.pi := by
  have := Real.pi_gt_d20
  norm_num at this ⊢
  linarith

/-- The angles the loop can hold: finite values between `0` and the `double`
`2 * M_PI`. -/
theorem angle_step_inv (x : ℝ) (h0 : 0 ≤ x) (h1 : x ≤ 884279719003555 / 140737488355328) :
    ∃ y : ℝ,
      (if Fp.lt twoPi (fadd (Fp.fin x) angularSpeed) then
          toFloat (dsub (fadd (Fp.fin x) angularSpeed) twoPi)
        else fadd (Fp.fin x) angularSpeed) = Fp.fin y
      ∧ 0 ≤ y ∧ y ≤ 884279719003555 / 140737488355328 := by
  rw [angularSpeed_eq, twoPi_eq, fadd_fin]
  obtain ⟨y, hy, hy0, hy8⟩ := roundTo_bounds binary32 (x + 5368709 / 536870912) 3
    (by norm_num [binary32]) (by norm_num [binary32]) (by norm_num [binary32])
    (by linarith) (by norm_num; linarith)
  rw [hy, lt_fin]
  by_cases hlt : (884279719003555 / 140737488355328 : ℝ) < y
  · rw [if_pos (by simpa using hlt)]
    have hsub : dsub (Fp.fin y) (Fp.fin (884279719003555 / 140737488355328))
        = roundTo binary64 (y - 884279719003555 / 140737488355328) := by
      simp only [dsub, Fp.sub, Fp.neg, Fp.add, sub_eq_add_neg]
    obtain ⟨z, hz, hz0, hz2⟩ := roundTo_bounds binary64
      (y - 884279719003555 / 140737488355328) 1
      (by norm_num [binary64]) (by norm_num [binary64]) (by norm_num [binary64])
      (by linarith) (by norm_num at hy8 ⊢; linarith)
    obtain ⟨w, hw, hw0, hw2⟩ := roundTo_bounds binary32 z 1
      (by norm_num [binary32]) (by norm_num [binary32]) (by norm_num [binary32]) hz0 hz2
    refine ⟨w, ?_, hw0, ?_⟩
    · rw [hsub, hz]; exact hw
    · norm_num at hw2 ⊢; linarith
  · rw [if_neg (by simpa using hlt)]
    exact ⟨y, rfl, hy0, not_lt.mp hlt⟩

theorem frame_angle_inv (cosf sinf : Fp ℝ → Fp ℝ) (evs : List Event) (s : State ℝ)
    (h : ∃ x : ℝ, s.angle = Fp.fin x ∧ 0 ≤ x ∧ x ≤ 884279719003555 / 140737488355328) :
    ∃ x : ℝ, (frame cosf sinf evs s).angle = Fp.fin x ∧ 0 ≤ x
      ∧ x ≤ 884279719003555 / 140737488355328 := by
  obtain ⟨x, hx, h0, h1⟩ := h
  rw [frame_angle, hx]
  by_cases hm : modeAfter s.mode evs = Mode.AUTOMATIC
  · rw [if_pos hm]; exact angle_step_inv x h0 h1
  · rw [if_neg hm]; exact ⟨x, rfl, h0, h1⟩

theorem runFrames_angle_inv (cosf sinf : Fp ℝ → Fp ℝ) (fs : List (List Event))
    (s : State ℝ)
    (h : ∃ x : ℝ, s.angle = Fp.fin x ∧ 0 ≤ x ∧ x ≤ 884279719003555 / 140737488355328) :
    ∃ x : ℝ, (runFrames cosf sinf fs s).angle = Fp.fin x ∧ 0 ≤ x
      ∧ x ≤ 884279719003555 / 140737488355328 := by
  induction fs generalizing s with
  | nil => exact h
  | cons evs rest ih =>
    unfold runFrames
    by_cases hr : s.running = true
    · rw [if_pos hr]; exact ih _ (frame_angle_inv cosf sinf evs s h)
    · rw [if_neg hr]; exact h

/-! ## C7: the orbit angle stays in `[0, 2π)` -/

/-- C7: in every state reached from the initial state (angle `0`, angular speed
`0.01f`, mode Automatic) by any number of frames with any input events, whatever
`std::cos` and `std::sin` return, the angle at the end of the animation step of the
frame is a finite `float` `x` with `0 ≤ x < 2π`. -/
theorem c7_angle_in_range (cosf sinf : Fp ℝ → Fp ℝ) (fs : List (List Event)) :
    ∃ x : ℝ, (runFrames cosf sinf fs initState).angle = Fp.fin x
      ∧ 0 ≤ x ∧ x < 2 * Real.pi := by
  obtain ⟨x, hx, h0, h1⟩ := runFrames_angle_inv cosf sinf fs initState
    ⟨0, rfl, le_refl _, by norm_num⟩
  exact ⟨x, hx, h0, lt_of_le_of_lt h1 two_M_PI_lt⟩

theorem two_pi_sub_M_PI : 2 * Real.pi - 884279719003555 / 140737488355328
    ≤ (2 : ℝ) ^ (-40 : Int) := by
  have := Real.pi_lt_d20
  norm_num at this ⊢
  linarith

/-- Lines 110-111 against exact arithmetic: from a finite angle `x` between `0` and
the `double` `2 * M_PI` the new angle `y` is within `2^-20` of `x + 0.01f`, or,
when the wrap was taken, of `x + 0.01f - 2π`. -/
theorem angle_step_error (x : ℝ) (h0 : 0 ≤ x) (h1 : x ≤ 884279719003555 / 140737488355328) :
    ∃ y : ℝ,
      (if Fp.lt twoPi (fadd (Fp.fin x) angularSpeed) then
          toFloat (dsub (fadd (Fp.fin x) angularSpeed) twoPi)
        else fadd (Fp.fin x) angularSpeed) = Fp.fin y
      ∧ (|y - (x + 5368709 / 536870912)| ≤ (2 : ℝ) ^ (-20 : Int)
          ∨ |y - (x + 5368709 / 536870912 - 2 * Real.pi)| ≤ (2 : ℝ) ^ (-20 : Int)) := by
  rw [angularSpeed_eq, twoPi_eq, fadd_fin]
  obtain ⟨y, hy, hy0, hy8⟩ := roundTo_bounds binary32 (x + 5368709 / 536870912) 3
    (by norm_num [binary32]) (by norm_num [binary32]) (by norm_num [binary32])
    (by linarith) (by norm_num; linarith)
  have ey : |y - (x + 5368709 / 536870912)| ≤ (2 : ℝ) ^ (-21 : Int) := by
    rw [roundTo_eq_fin _ _ _ hy]
    have := roundFin_error binary32 (x + 5368709 / 536870912) 3 (by norm_num [binary32])
      (by rw [abs_of_nonneg (by linarith)]; norm_num; linarith)
    simpa [binary32] using this
  rw [hy, lt_fin]
  by_cases hlt : (884279719003555 / 140737488355328 : ℝ) < y
  · rw [if_pos (by simpa using hlt)]
    have hsub : dsub (Fp.fin y) (Fp.fin (884279719003555 / 140737488355328))
        = roundTo binary64 (y - 884279719003555 / 140737488355328) := by
      simp only [dsub, Fp.sub, Fp.neg, Fp.add, sub_eq_add_neg]
    obtain ⟨z, hz, hz0, hz2⟩ := roundTo_bounds binary64
      (y - 884279719003555 / 140737488355328) 1
      (by norm_num [binary64]) (by norm_num [binary64]) (by norm_num [binary64])
      (by linarith) (by norm_num at hy8 ⊢; linarith)
    have ez : |z - (y - 884279719003555 / 140737488355328)| ≤ (2 : ℝ) ^ (-52 : Int) := by
      rw [roundTo_eq_fin _ _ _ hz]
      have := roundFin_error binary64 (y - 884279719003555 / 140737488355328) 1
        (by norm_num [binary64])
        (by rw [abs_of_nonneg (by linarith)]; norm_num at hy8 ⊢; linarith)
      simpa [binary64] using this
    obtain ⟨w, hw, hw0, hw2⟩ := roundTo_bounds binary32 z 1
      (by norm_num [binary32]) (by norm_num [binary32]) (by norm_num [binary32]) hz0 hz2
    have ew : |w - z| ≤ (2 : ℝ) ^ (-23 : Int) := by
      rw [roundTo_eq_fin _ _ _ hw]
      have := roundFin_error binary32 z 1 (by norm_num [binary32])
        (by rw [abs_of_nonneg hz0]; exact hz2)
      simpa [binary32] using this
    refine ⟨w, by rw [hsub, hz]; exact hw, Or.inr ?_⟩
    have hpi1 := two_M_PI_lt
    have hpi2 := two_pi_sub_M_PI
    rw [abs_le] at ey ez ew ⊢
    norm_num at ey ez ew hpi2 ⊢
    constructor <;> linarith [ey.1, ey.2, ez.1, ez.2, ew.1, ew.2]
  · rw [if_neg (by simpa using hlt)]
    refine ⟨y, rfl, Or.inl (ey.trans ?_)⟩
    norm_num

/-! ## C8: the orbit angle advances in Automatic frames only -/

theorem frame_nil_running (cosf sinf : Fp ℝ → Fp ℝ) (s : State ℝ) :
    (frame cosf sinf [] s).running = s.running := by
  unfold frame animate pollEvents
  simp only [List.foldl_nil]
  split <;> rfl

theorem frame_nil_mode (cosf sinf : Fp ℝ → Fp ℝ) (s : State ℝ) :
    (frame cosf sinf [] s).mode = s.mode := by
  unfold frame animate pollEvents
  simp only [List.foldl_nil]
  split <;> rfl

/-- An Automatic frame without wrap: the angle becomes the `float` sum. -/
theorem frame_nil_angle (cosf sinf : Fp ℝ → Fp ℝ) (s : State ℝ) (x y : ℝ)
    (hm : s.mode = Mode.AUTOMATIC) (hx : s.angle = Fp.fin x)
    (hy : roundTo binary32 (x + 5368709 / 536870912) = Fp.fin y)
    (hlt : y ≤ 884279719003555 / 140737488355328) :
    (frame cosf sinf [] s).angle = Fp.fin y := by
  rw [frame_angle, hx, angularSpeed_eq, twoPi_eq, fadd_fin, hy, lt_fin]
  have : modeAfter s.mode [] = Mode.AUTOMATIC := hm
  rw [if_pos this, if_neg (by simpa using hlt)]

/-- C8, as stated, fails on the `float` sum: after four frames without events the
angle is `4 * 0.01f = 5368709 / 2^27`; the fifth frame, still Automatic, holds
`3355443 / 2^26`, the sum rounded to `float` (a tie, to even), which is not
`angle + angularSpeed = 26843545 / 2^29` reduced modulo `2π`. -/
theorem c8_rounded_sum_counterexample :
    (runFrames (roundedFn Real.cos) (roundedFn Real.sin) [[], [], [], []]
        initState).angle = Fp.fin (5368709 / 134217728)
    ∧ (angularSpeed : Fp ℝ) = Fp.fin (5368709 / 536870912)
    ∧ (pollEvents [] (runFrames (roundedFn Real.cos) (roundedFn Real.sin)
        [[], [], [], []] initState)).mode = Mode.AUTOMATIC
    ∧ (frame (roundedFn Real.cos) (roundedFn Real.sin) []
        (runFrames (roundedFn Real.cos) (roundedFn Real.sin) [[], [], [], []]
          initState)).angle = Fp.fin (3355443 / 67108864)
    ∧ (3355443 / 67108864 : ℝ)
        ≠ reduceMod (2 * Real.pi) (5368709 / 134217728 + 5368709 / 536870912) := by
  have hpi := Real.pi_gt_three
  have r1 : roundTo binary32 ((0 : ℝ) + 5368709 / 536870912)
      = Fp.fin (5368709 / 536870912) := by
    rw [roundTo_of_isRep _ _ (isRep32_mk _ 5368709 (-29) (by norm_num) (by norm_num)
      (by norm_num) (by norm_num))]
    norm_num
  have r2 : roundTo binary32 ((5368709 / 536870912 : ℝ) + 5368709 / 536870912)
      = Fp.fin (5368709 / 268435456) := by
    rw [roundTo_of_isRep _ _ (isRep32_mk _ 5368709 (-28) (by norm_num) (by norm_num)
      (by norm_num) (by norm_num))]
    norm_num
  have r3 : roundTo binary32 ((5368709 / 268435456 : ℝ) + 5368709 / 536870912)
      = Fp.fin (16106127 / 536870912) := by
    rw [roundTo_of_isRep _ _ (isRep32_mk _ 16106127 (-29) (by norm_num) (by norm_num)
      (by norm_num) (by norm_num))]
    norm_num
  have r4 : roundTo binary32 ((16106127 / 536870912 : ℝ) + 5368709 / 536870912)
      = Fp.fin (5368709 / 134217728) := by
    rw [roundTo_of_isRep _ _ (isRep32_mk _ 5368709 (-27) (by norm_num) (by norm_num)
      (by norm_num) (by norm_num))]
    norm_num
  have r5 : roundTo binary32 ((5368709 / 134217728 : ℝ) + 5368709 / 536870912)
      = Fp.fin (3355443 / 67108864) := by
    apply roundTo_eval binary32 _ _ (-5) (-28) 13421772
    · rw [abs_of_pos (by norm_num)]; norm_num
    · rw [abs_of_pos (by norm_num)]; norm_num
    · norm_num [binary32]
    · norm_num [binary32]
    · apply roundEven_tie_down _ _ _ (by norm_num)
      norm_num
    · norm_num
    · rw [maxFinite32, abs_of_pos (by norm_num)]; norm_num
  have hT : (6 : ℝ) < 884279719003555 / 140737488355328 := by norm_num
  set c := roundedFn Real.cos
  set sn := roundedFn Real.sin
  have s0m : (initState : State ℝ).mode = Mode.AUTOMATIC := rfl
  have s0r : (initState : State ℝ).running = true := rfl
  have a1 := frame_nil_angle c sn initState 0 _ s0m rfl r1 (by norm_num)
  have m1 : (frame c sn [] initState).mode = Mode.AUTOMATIC := by rw [frame_nil_mode]; rfl
  have u1 : (frame c sn [] initState).running = true := by rw [frame_nil_running]; rfl
  have a2 := frame_nil_angle c sn _ _ _ m1 a1 r2 (by norm_num)
  have m2 : (frame c sn [] (frame c sn [] initState)).mode = Mode.AUTOMATIC := by
    rw [frame_nil_mode]; exact m1
  have u2 : (frame c sn [] (frame c sn [] initState)).running = true := by
    rw [frame_nil_running]; exact u1
  have a3 := frame_nil_angle c sn _ _ _ m2 a2 r3 (by norm_num)
  have m3 : (frame c sn [] (frame c sn [] (frame c sn [] initState))).mode
      = Mode.AUTOMATIC := by rw [frame_nil_mode]; exact m2
  have u3 : (frame c sn [] (frame c sn [] (frame c sn [] initState))).running = true := by
    rw [frame_nil_running]; exact u2
  have a4 := frame_nil_angle c sn _ _ _ m3 a3 r4 (by norm_num)
  have m4 : (frame c sn [] (frame c sn [] (frame c sn [] (frame c sn [] initState)))).mode
      = Mode.AUTOMATIC := by rw [frame_nil_mode]; exact m3
  have a5 := frame_nil_angle c sn _ _ _ m4 a4 r5 (by norm_num)
  have hrun : runFrames c sn [[], [], [], []] initState
      = frame c sn [] (frame c sn [] (frame c sn [] (frame c sn [] initState))) := by
    simp only [runFrames, s0r, u1, u2, u3, if_true]
  rw [hrun]
  refine ⟨a4, angularSpeed_eq, m4, a5, ?_⟩
  have hfl : ⌊((5368709 / 134217728 : ℝ) + 5368709 / 536870912) / (2 * Real.pi)⌋ = 0 := by
    rw [Int.floor_eq_iff]
    have h2pi : (0 : ℝ) < 2 * Real.pi := by linarith
    constructor
    · rw [le_div_iff₀ h2pi]; norm_num
    · rw [div_lt_iff₀ h2pi]; norm_num; linarith
  unfold reduceMod
  rw [hfl]
  norm_num

/-- C8 (amended): in every state reached from the initial state by any sequence
of frames with arbitrary events, the angle is a finite `float` `x`, and a frame
whose mode after event processing is Automatic changes it to the `float` sum
`x + angularSpeed`, from which the `double` `2 * M_PI` is subtracted once (the
difference converted to `float`) when the sum exceeds it, whatever events arrived:
a finite `y` in `[0, 2π)` within `2^-20` of `x + angularSpeed` or of
`x + angularSpeed - 2π`; a frame whose mode after event processing is Drag leaves
the angle unchanged; in particular a Drag frame followed by an Automatic frame
continues from the angle held when Drag was entered. -/
theorem c8_angle_advances_only_in_automatic (cosf sinf : Fp ℝ → Fp ℝ)
    (fs : List (List Event)) (evs : List Event) :
    (∃ x y : ℝ, (runFrames cosf sinf fs initState).angle = Fp.fin x
      ∧ (frame cosf sinf evs (runFrames cosf sinf fs initState)).angle = Fp.fin y
      ∧ 0 ≤ y ∧ y < 2 * Real.pi
      ∧ (match (pollEvents evs (runFrames cosf sinf fs initState)).mode with
        | Mode.AUTOMATIC =>
          Fp.fin y = (if Fp.lt twoPi (fadd (Fp.fin x) angularSpeed) then
              toFloat (dsub (fadd (Fp.fin x) angularSpeed) twoPi)
            else fadd (Fp.fin x) angularSpeed)
          ∧ (angularSpeed : Fp ℝ) = Fp.fin (5368709 / 536870912)
          ∧ (|y - (x + 5368709 / 536870912)| ≤ (2 : ℝ) ^ (-20 : Int)
              ∨ |y - (x + 5368709 / 536870912 - 2 * Real.pi)| ≤ (2 : ℝ) ^ (-20 : Int))
        | Mode.DRAG => y = x))
    ∧ (frame cosf sinf [Event.SDL_KEYDOWN Key.SDLK_d]
        (runFrames cosf sinf fs initState)).angle
        = (runFrames cosf sinf fs initState).angle
    ∧ (frame cosf sinf [Event.SDL_KEYDOWN Key.SDLK_a]
        (frame cosf sinf [Event.SDL_KEYDOWN Key.SDLK_d]
          (runFrames cosf sinf fs initState))).angle
      = (if Fp.lt twoPi (fadd (runFrames cosf sinf fs initState).angle angularSpeed) then
            toFloat (dsub (fadd (runFrames cosf sinf fs initState).angle angularSpeed) twoPi)
          else fadd (runFrames cosf sinf fs initState).angle angularSpeed) := by
  have hinv := runFrames_angle_inv cosf sinf fs initState ⟨0, rfl, le_refl _, by norm_num⟩
  generalize runFrames cosf sinf fs initState = s at hinv ⊢
  obtain ⟨x, hx, h0, h1⟩ := hinv
  have hd : (frame cosf sinf [Event.SDL_KEYDOWN Key.SDLK_d] s).angle = s.angle := by
    rw [frame_angle]
    have : modeAfter s.mode [Event.SDL_KEYDOWN Key.SDLK_d] = Mode.DRAG := rfl
    rw [this, if_neg (by decide)]
  refine ⟨?_, hd, ?_⟩
  · obtain ⟨y, hy, hy0, hy1⟩ := frame_angle_inv cosf sinf evs s ⟨x, hx, h0, h1⟩
    refine ⟨x, y, hx, hy, hy0, lt_of_le_of_lt hy1 two_M_PI_lt, ?_⟩
    rw [frame_angle, hx] at hy
    rw [pollEvents_mode]
    cases hm : modeAfter s.mode evs with
    | AUTOMATIC =>
      rw [hm, if_pos rfl] at hy
      obtain ⟨y2, hy2, herr⟩ := angle_step_error x h0 h1
      have hyy : y2 = y := Fp.fin.inj (hy2.symm.trans hy)
      rw [hyy] at herr
      exact ⟨hy.symm, angularSpeed_eq, herr⟩
    | DRAG =>
      rw [hm, if_neg (by decide)] at hy
      exact (Fp.fin.inj hy).symm
  · rw [frame_angle, hd]
    have : modeAfter (frame cosf sinf [Event.SDL_KEYDOWN Key.SDLK_d] s).mode
        [Event.SDL_KEYDOWN Key.SDLK_a] = Mode.AUTOMATIC := rfl
    rw [this, if_pos rfl]

/-! ## C9: drag semantics of the event step -/

theorem getLast?_cons_getD (b h : Bool) (l : List Bool) :
    ((b :: l).getLast?).getD h = (l.getLast?).getD b := by
  cases l with
  | nil => rfl
  | cons c l => simp [List.getLast?_cons_cons, List.getLast?_eq_getLast]

theorem handleEvent_mouseDown (e : Event) (s : State ℝ) :
    (handleEvent e s).mouseDown = lastDragButtonDown s.mode s.mouseDown [e] := by
  unfold handleEvent lastDragButtonDown
  rcases s with ⟨pos, run, ang, m, md⟩
  cases e with
  | SDL_QUIT => cases m <;> simp [dragButtonTrace]
  | SDL_KEYDOWN k => cases k <;> cases m <;> simp [dragButtonTrace]
  | SDL_MOUSEBUTTONDOWN b => cases b <;> cases m <;> simp [dragButtonTrace]
  | SDL_MOUSEBUTTONUP b => cases b <;> cases m <;> simp [dragButtonTrace]
  | SDL_MOUSEMOTION x y =>
    cases m <;> simp [dragButtonTrace]
    split <;> simp_all
  | otherEvent => cases m <;> simp [dragButtonTrace]

theorem lastDragButtonDown_cons (m : Mode) (h : Bool) (e : Event) (es : List Event) :
    lastDragButtonDown m h (e :: es)
      = lastDragButtonDown (selectMode m e) (lastDragButtonDown m h [e]) es := by
  unfold lastDragButtonDown
  cases e with
  | SDL_QUIT => cases m <;> simp [dragButtonTrace, selectMode]
  | SDL_KEYDOWN k => cases k <;> cases m <;> simp [dragButtonTrace, selectMode]
  | SDL_MOUSEBUTTONDOWN b =>
    cases b <;> cases m <;> simp [dragButtonTrace, selectMode, getLast?_cons_getD]
  | SDL_MOUSEBUTTONUP b =>
    cases b <;> cases m <;> simp [dragButtonTrace, selectMode, getLast?_cons_getD]
  | SDL_MOUSEMOTION x y => cases m <;> simp [dragButtonTrace, selectMode]
  | otherEvent => cases m <;> simp [dragButtonTrace, selectMode]

theorem pollEvents_mouseDown (evs : List Event) (s : State ℝ) :
    (pollEvents evs s).mouseDown = lastDragButtonDown s.mode s.mouseDown evs := by
  induction evs generalizing s with
  | nil => cases hm : s.mode <;> simp [pollEvents, lastDragButtonDown, dragButtonTrace]
  | cons e es ih =>
    rw [pollEvents_cons, ih, handleEvent_mode, handleEvent_mouseDown,
      ← lastDragButtonDown_cons]

theorem handleEvent_motion (x y : Int) (s : State ℝ) :
    (handleEvent (Event.SDL_MOUSEMOTION x y) s).sourcePos
      = if s.mode = Mode.DRAG ∧ s.mouseDown = true then ⟨ofInt x, ofInt y⟩
        else s.sourcePos := by
  unfold handleEvent
  rcases s with ⟨pos, run, ang, m, md⟩
  cases m <;> cases md <;> simp

theorem ofInt_five_seven :
    ((⟨ofInt 5, ofInt 7⟩ : Vec2 (Fp ℝ)) = ⟨Fp.fin 5, Fp.fin 7⟩) := by
  rw [ofInt_small 5 (by norm_num), ofInt_small 7 (by norm_num)]
  norm_num

/-- C9, as stated, fails in both directions.  A pointer-down that arrives in
Automatic mode is not recorded: after `[pointer-down, key d]` the mode is Drag and
the most recent pointer-down/up event was a pointer-down, yet a move to `(5,7)`
leaves the light at `(0,0)`.  A pointer-up that arrives in Automatic mode is not
recorded either: after `[key d, pointer-down, key a, pointer-up, key d]` the most
recent pointer-down/up event was a pointer-up, yet a move to `(5,7)` sets the
light to `(5,7)`. -/
theorem c9_button_outside_drag_counterexample :
    ((pollEvents [Event.SDL_MOUSEBUTTONDOWN Button.SDL_BUTTON_LEFT,
          Event.SDL_KEYDOWN Key.SDLK_d] (initState : State ℝ)).mode = Mode.DRAG
      ∧ lastButtonDown false [Event.SDL_MOUSEBUTTONDOWN Button.SDL_BUTTON_LEFT,
          Event.SDL_KEYDOWN Key.SDLK_d] = true
      ∧ (handleEvent (Event.SDL_MOUSEMOTION 5 7)
          (pollEvents [Event.SDL_MOUSEBUTTONDOWN Button.SDL_BUTTON_LEFT,
            Event.SDL_KEYDOWN Key.SDLK_d] (initState : State ℝ))).sourcePos
          = ⟨Fp.fin 0, Fp.fin 0⟩
      ∧ (handleEvent (Event.SDL_MOUSEMOTION 5 7)
          (pollEvents [Event.SDL_MOUSEBUTTONDOWN Button.SDL_BUTTON_LEFT,
            Event.SDL_KEYDOWN Key.SDLK_d] (initState : State ℝ))).sourcePos
          ≠ ⟨Fp.fin 5, Fp.fin 7⟩)
    ∧ ((pollEvents [Event.SDL_KEYDOWN Key.SDLK_d,
          Event.SDL_MOUSEBUTTONDOWN Button.SDL_BUTTON_LEFT, Event.SDL_KEYDOWN Key.SDLK_a,
          Event.SDL_MOUSEBUTTONUP Button.SDL_BUTTON_LEFT, Event.SDL_KEYDOWN Key.SDLK_d]
          (initState : State ℝ)).mode = Mode.DRAG
      ∧ lastButtonDown false [Event.SDL_KEYDOWN Key.SDLK_d,
          Event.SDL_MOUSEBUTTONDOWN Button.SDL_BUTTON_LEFT, Event.SDL_KEYDOWN Key.SDLK_a,
          Event.SDL_MOUSEBUTTONUP Button.SDL_BUTTON_LEFT, Event.SDL_KEYDOWN Key.SDLK_d]
          = false
      ∧ (pollEvents [Event.SDL_KEYDOWN Key.SDLK_d,
          Event.SDL_MOUSEBUTTONDOWN Button.SDL_BUTTON_LEFT, Event.SDL_KEYDOWN Key.SDLK_a,
          Event.SDL_MOUSEBUTTONUP Button.SDL_BUTTON_LEFT, Event.SDL_KEYDOWN Key.SDLK_d]
          (initState : State ℝ)).sourcePos = ⟨Fp.fin 0, Fp.fin 0⟩
      ∧ (handleEvent (Event.SDL_MOUSEMOTION 5 7)
          (pollEvents [Event.SDL_KEYDOWN Key.SDLK_d,
            Event.SDL_MOUSEBUTTONDOWN Button.SDL_BUTTON_LEFT, Event.SDL_KEYDOWN Key.SDLK_a,
            Event.SDL_MOUSEBUTTONUP Button.SDL_BUTTON_LEFT, Event.SDL_KEYDOWN Key.SDLK_d]
            (initState : State ℝ))).sourcePos = ⟨Fp.fin 5, Fp.fin 7⟩) := by
  refine ⟨⟨?_, ?_, ?_, ?_⟩, ?_, ?_, ?_, ?_⟩
  · rw [pollEvents_mode]; rfl
  · rfl
  · rw [handleEvent_motion, pollEvents_mode, pollEvents_mouseDown]
    simp [initState, modeAfter, selectMode, lastDragButtonDown, dragButtonTrace,
      pollEvents, handleEvent]
  · rw [handleEvent_motion, pollEvents_mode, pollEvents_mouseDown]
    simp [initState, modeAfter, selectMode, lastDragButtonDown, dragButtonTrace,
      pollEvents, handleEvent]
  · rw [pollEvents_mode]; rfl
  · rfl
  · simp [pollEvents, handleEvent, initState]
  · rw [handleEvent_motion, pollEvents_mode, pollEvents_mouseDown, ofInt_five_seven]
    simp [initState, modeAfter, selectMode, lastDragButtonDown, dragButtonTrace]

/-- C9 (amended): for every start state and every sequence of events in any
interleaving, a following pointer-move event sets the light position to the
pointer coordinate (converted to `float`, which leaves every coordinate up to
`2^24` in absolute value unchanged) exactly when the mode is Drag and the most
recent left-button down/up event that arrived while the mode was Drag was a
pointer-down (the flag keeps its start value when there was none); in every other
case the event leaves the light position unchanged. -/
theorem c9_drag_semantics (s0 : State ℝ) (evs : List Event) (x y : Int) :
    (handleEvent (Event.SDL_MOUSEMOTION x y) (pollEvents evs s0)).sourcePos
      = (if modeAfter s0.mode evs = Mode.DRAG
            ∧ lastDragButtonDown s0.mode s0.mouseDown evs = true
        then ⟨ofInt x, ofInt y⟩
        else (pollEvents evs s0).sourcePos)
    ∧ (|x| ≤ 2 ^ 24 → |y| ≤ 2 ^ 24 →
        (⟨ofInt x, ofInt y⟩ : Vec2 (Fp ℝ)) = ⟨Fp.fin (x : ℝ), Fp.fin (y : ℝ)⟩) := by
  refine ⟨?_, fun hx hy => ?_⟩
  · rw [handleEvent_motion, pollEvents_mode, pollEvents_mouseDown]
  · rw [ofInt_small x hx, ofInt_small y hy]

/-- Witness of C9 (amended): the pointer coordinate `(5, 7)`. -/
theorem c9_drag_semantics_witness :
    (⟨ofInt 5, ofInt 7⟩ : Vec2 (Fp ℝ)) = ⟨Fp.fin ((5 : Int) : ℝ), Fp.fin ((7 : Int) : ℝ)⟩ :=
  (c9_drag_semantics initState [] 5 7).2 (by norm_num) (by norm_num)

/-! ## Evaluations without rounding

Each input below is made of small integers; every intermediate result of lines
17-25 is a binary32 value, so the `float` program computes the exact result. -/

theorem exactEval_scenarioOne :
    ExactEval (⟨0, 0⟩ : Vec2 ℝ) (⟨1, 0⟩ : Vec2 ℝ) (⟨10, 0⟩ : Vec2 ℝ) 2 := by
  have hD : discriminant (⟨0, 0⟩ : Vec2 ℝ) (⟨1, 0⟩ : Vec2 ℝ) (⟨10, 0⟩ : Vec2 ℝ) 2 = 16 := by
    norm_num [coeffA, coeffB, coeffC, discriminant]
  have hs : Real.sqrt (discriminant (⟨0, 0⟩ : Vec2 ℝ) (⟨1, 0⟩ : Vec2 ℝ) (⟨10, 0⟩ : Vec2 ℝ) 2) = 4 := by
    rw [hD]
    exact (Real.sqrt_eq_iff_mul_self_eq (by norm_num) (by norm_num)).2 (by norm_num)
  exact {
    inOx := isRep32_mk _ 0 0 (by norm_num) (by norm_num) (by norm_num) (by norm_num)
    inOy := isRep32_mk _ 0 0 (by norm_num) (by norm_num) (by norm_num) (by norm_num)
    inDx := isRep32_mk _ 1 0 (by norm_num) (by norm_num) (by norm_num) (by norm_num)
    inDy := isRep32_mk _ 0 0 (by norm_num) (by norm_num) (by norm_num) (by norm_num)
    inCx := isRep32_mk _ 5 1 (by norm_num) (by norm_num) (by norm_num) (by norm_num)
    inCy := isRep32_mk _ 0 0 (by norm_num) (by norm_num) (by norm_num) (by norm_num)
    inR := isRep32_mk _ 1 1 (by norm_num) (by norm_num) (by norm_num) (by norm_num)
    opOcx := isRep32_mk _ (-5) 1 (by norm_num) (by norm_num) (by norm_num) (by norm_num)
    opOcy := isRep32_mk _ 0 0 (by norm_num) (by norm_num) (by norm_num) (by norm_num)
    opDxx := isRep32_mk _ 1 0 (by norm_num) (by norm_num) (by norm_num) (by norm_num)
    opDyy := isRep32_mk _ 0 0 (by norm_num) (by norm_num) (by norm_num) (by norm_num)
    opA := isRep32_mk _ 1 0 (by norm_num) (by norm_num) (by norm_num) (by norm_num)
    opBx := isRep32_mk _ (-5) 1 (by norm_num) (by norm_num) (by norm_num) (by norm_num)
    opBy := isRep32_mk _ 0 0 (by norm_num) (by norm_num) (by norm_num) (by norm_num)
    opBsum := isRep32_mk _ (-5) 1 (by norm_num) (by norm_num) (by norm_num) (by norm_num)
    opB := isRep32_mk _ (-5) 2 (by norm_num) (by norm_num) (by norm_num) (by norm_num)
    opCxx := isRep32_mk _ 25 2 (by norm_num) (by norm_num) (by norm_num) (by norm_num)
    opCyy := isRep32_mk _ 0 0 (by norm_num) (by norm_num) (by norm_num) (by norm_num)
    opCsum := isRep32_mk _ 25 2 (by norm_num) (by norm_num) (by norm_num) (by norm_num)
    opRr := isRep32_mk _ 1 2 (by norm_num) (by norm_num) (by norm_num) (by norm_num)
    opC := isRep32_mk _ 3 5 (by norm_num [coeffA, coeffB, coeffC, discriminant]) (by norm_num) (by norm_num) (by norm_num)
    opBb := isRep32_mk _ 25 4 (by norm_num [coeffA, coeffB, coeffC, discriminant]) (by norm_num) (by norm_num) (by norm_num)
    opFourA := isRep32_mk _ 1 2 (by norm_num [coeffA, coeffB, coeffC, discriminant]) (by norm_num) (by norm_num) (by norm_num)
    opFourAC := isRep32_mk _ 3 7 (by norm_num [coeffA, coeffB, coeffC, discriminant]) (by norm_num) (by norm_num) (by norm_num)
    opDisc := isRep32_mk _ 1 4 (by norm_num [coeffA, coeffB, coeffC, discriminant]) (by norm_num) (by norm_num) (by norm_num)
    opTwoA := isRep32_mk _ 1 1 (by norm_num [coeffA, coeffB, coeffC, discriminant]) (by norm_num) (by norm_num) (by norm_num)
    opSqrt := fun _ => by rw [hs]; exact isRep32_mk _ 1 2 (by norm_num) (by norm_num) (by norm_num) (by norm_num)
    opNum1 := fun _ => by rw [hs]; exact isRep32_mk _ 1 4 (by norm_num [coeffA, coeffB, coeffC, discriminant]) (by norm_num) (by norm_num) (by norm_num)
    opNum2 := fun _ => by rw [hs]; exact isRep32_mk _ 3 3 (by norm_num [coeffA, coeffB, coeffC, discriminant]) (by norm_num) (by norm_num) (by norm_num)
    opT1 := fun _ => by unfold rootT1; rw [hs]; exact isRep32_mk _ 1 3 (by norm_num [coeffA, coeffB, coeffC, discriminant]) (by norm_num) (by norm_num) (by norm_num)
    opT2 := fun _ => by unfold rootT2; rw [hs]; exact isRep32_mk _ 3 2 (by norm_num [coeffA, coeffB, coeffC, discriminant]) (by norm_num) (by norm_num) (by norm_num) }

theorem exactEval_radiusThree :
    ExactEval (⟨0, 0⟩ : Vec2 ℝ) (⟨1, 0⟩ : Vec2 ℝ) (⟨10, 0⟩ : Vec2 ℝ) 3 := by
  have hD : discriminant (⟨0, 0⟩ : Vec2 ℝ) (⟨1, 0⟩ : Vec2 ℝ) (⟨10, 0⟩ : Vec2 ℝ) 3 = 36 := by
    norm_num [coeffA, coeffB, coeffC, discriminant]
  have hs : Real.sqrt (discriminant (⟨0, 0⟩ : Vec2 ℝ) (⟨1, 0⟩ : Vec2 ℝ) (⟨10, 0⟩ : Vec2 ℝ) 3) = 6 := by
    rw [hD]
    exact (Real.sqrt_eq_iff_mul_self_eq (by norm_num) (by norm_num)).2 (by norm_num)
  exact {
    inOx := isRep32_mk _ 0 0 (by norm_num) (by norm_num) (by norm_num) (by norm_num)
    inOy := isRep32_mk _ 0 0 (by norm_num) (by norm_num) (by norm_num) (by norm_num)
    inDx := isRep32_mk _ 1 0 (by norm_num) (by norm_num) (by norm_num) (by norm_num)
    inDy := isRep32_mk _ 0 0 (by norm_num) (by norm_num) (by norm_num) (by norm_num)
    inCx := isRep32_mk _ 5 1 (by norm_num) (by norm_num) (by norm_num) (by norm_num)
    inCy := isRep32_mk _ 0 0 (by norm_num) (by norm_num) (by norm_num) (by norm_num)
    inR := isRep32_mk _ 3 0 (by norm_num) (by norm_num) (by norm_num) (by norm_num)
    opOcx := isRep32_mk _ (-5) 1 (by norm_num) (by norm_num) (by norm_num) (by norm_num)
    opOcy := isRep32_mk _ 0 0 (by norm_num) (by norm_num) (by norm_num) (by norm_num)
    opDxx := isRep32_mk _ 1 0 (by norm_num) (by norm_num) (by norm_num) (by norm_num)
    opDyy := isRep32_mk _ 0 0 (by norm_num) (by norm_num) (by norm_num) (by norm_num)
    opA := isRep32_mk _ 1 0 (by norm_num) (by norm_num) (by norm_num) (by norm_num)
    opBx := isRep32_mk _ (-5) 1 (by norm_num) (by norm_num) (by norm_num) (by norm_num)
    opBy := isRep32_mk _ 0 0 (by norm_num) (by norm_num) (by norm_num) (by norm_num)
    opBsum := isRep32_mk _ (-5) 1 (by norm_num) (by norm_num) (by norm_num) (by norm_num)
    opB := isRep32_mk _ (-5) 2 (by norm_num) (by norm_num) (by norm_num) (by norm_num)
    opCxx := isRep32_mk _ 25 2 (by norm_num) (by norm_num) (by norm_num) (by norm_num)
    opCyy := isRep32_mk _ 0 0 (by norm_num) (by norm_num) (by norm_num) (by norm_num)
    opCsum := isRep32_mk _ 25 2 (by norm_num) (by norm_num) (by norm_num) (by norm_num)
    opRr := isRep32_mk _ 9 0 (by norm_num) (by norm_num) (by norm_num) (by norm_num)
    opC := isRep32_mk _ 91 0 (by norm_num [coeffA, coeffB, coeffC, discriminant]) (by norm_num) (by norm_num) (by norm_num)
    opBb := isRep32_mk _ 25 4 (by norm_num [coeffA, coeffB, coeffC, discriminant]) (by norm_num) (by norm_num) (by norm_num)
    opFourA := isRep32_mk _ 1 2 (by norm_num [coeffA, coeffB, coeffC, discriminant]) (by norm_num) (by norm_num) (by norm_num)
    opFourAC := isRep32_mk _ 91 2 (by norm_num [coeffA, coeffB, coeffC, discriminant]) (by norm_num) (by norm_num) (by norm_num)
    opDisc := isRep32_mk _ 9 2 (by norm_num [coeffA, coeffB, coeffC, discriminant]) (by norm_num) (by norm_num) (by norm_num)
    opTwoA := isRep32_mk _ 1 1 (by norm_num [coeffA, coeffB, coeffC, discriminant]) (by norm_num) (by norm_num) (by norm_num)
    opSqrt := fun _ => by rw [hs]; exact isRep32_mk _ 3 1 (by norm_num) (by norm_num) (by norm_num) (by norm_num)
    opNum1 := fun _ => by rw [hs]; exact isRep32_mk _ 7 1 (by norm_num [coeffA, coeffB, coeffC, discriminant]) (by norm_num) (by norm_num) (by norm_num)
    opNum2 := fun _ => by rw [hs]; exact isRep32_mk _ 13 1 (by norm_num [coeffA, coeffB, coeffC, discriminant]) (by norm_num) (by norm_num) (by norm_num)
    opT1 := fun _ => by unfold rootT1; rw [hs]; exact isRep32_mk _ 7 0 (by norm_num [coeffA, coeffB, coeffC, discriminant]) (by norm_num) (by norm_num) (by norm_num)
    opT2 := fun _ => by unfold rootT2; rw [hs]; exact isRep32_mk _ 13 0 (by norm_num [coeffA, coeffB, coeffC, discriminant]) (by norm_num) (by norm_num) (by norm_num) }

theorem exactValue_radiusThree :
    exactIntersection Real.sqrt (⟨0, 0⟩ : Vec2 ℝ) (⟨1, 0⟩ : Vec2 ℝ) (⟨10, 0⟩ : Vec2 ℝ) 3 = 7 := by
  rw [exactIntersection_of_sqrt _ _ _ _ 6 (by norm_num)
    (by norm_num [coeffA, coeffB, coeffC, discriminant])]
  norm_num [coeffA, coeffB]

theorem floatValue_radiusThree :
    raySphereIntersection Real.sqrt (Vec2.toFp (⟨0, 0⟩ : Vec2 ℝ)) (Vec2.toFp (⟨1, 0⟩ : Vec2 ℝ))
      (Vec2.toFp (⟨10, 0⟩ : Vec2 ℝ)) (Fp.fin 3) = Fp.fin 7 := by
  rw [raySphereIntersection_of_exact _ _ _ _ (by norm_num [coeffA]) exactEval_radiusThree,
    exactValue_radiusThree]

theorem exactEval_behind :
    ExactEval (⟨0, 0⟩ : Vec2 ℝ) (⟨-1, 0⟩ : Vec2 ℝ) (⟨10, 0⟩ : Vec2 ℝ) 2 := by
  have hD : discriminant (⟨0, 0⟩ : Vec2 ℝ) (⟨-1, 0⟩ : Vec2 ℝ) (⟨10, 0⟩ : Vec2 ℝ) 2 = 16 := by
    norm_num [coeffA, coeffB, coeffC, discriminant]
  have hs : Real.sqrt (discriminant (⟨0, 0⟩ : Vec2 ℝ) (⟨-1, 0⟩ : Vec2 ℝ) (⟨10, 0⟩ : Vec2 ℝ) 2) = 4 := by
    rw [hD]
    exact (Real.sqrt_eq_iff_mul_self_eq (by norm_num) (by norm_num)).2 (by norm_num)
  exact {
    inOx := isRep32_mk _ 0 0 (by norm_num) (by norm_num) (by norm_num) (by norm_num)
    inOy := isRep32_mk _ 0 0 (by norm_num) (by norm_num) (by norm_num) (by norm_num)
    inDx := isRep32_mk _ (-1) 0 (by norm_num) (by norm_num) (by norm_num) (by norm_num)
    inDy := isRep32_mk _ 0 0 (by norm_num) (by norm_num) (by norm_num) (by norm_num)
    inCx := isRep32_mk _ 5 1 (by norm_num) (by norm_num) (by norm_num) (by norm_num)
    inCy := isRep32_mk _ 0 0 (by norm_num) (by norm_num) (by norm_num) (by norm_num)
    inR := isRep32_mk _ 1 1 (by norm_num) (by norm_num) (by norm_num) (by norm_num)
    opOcx := isRep32_mk _ (-5) 1 (by norm_num) (by norm_num) (by norm_num) (by norm_num)
    opOcy := isRep32_mk _ 0 0 (by norm_num) (by norm_num) (by norm_num) (by norm_num)
    opDxx := isRep32_mk _ 1 0 (by norm_num) (by norm_num) (by norm_num) (by norm_num)
    opDyy := isRep32_mk _ 0 0 (by norm_num) (by norm_num) (by norm_num) (by norm_num)
    opA := isRep32_mk _ 1 0 (by norm_num) (by norm_num) (by norm_num) (by norm_num)
    opBx := isRep32_mk _ 5 1 (by norm_num) (by norm_num) (by norm_num) (by norm_num)
    opBy := isRep32_mk _ 0 0 (by norm_num) (by norm_num) (by norm_num) (by norm_num)
    opBsum := isRep32_mk _ 5 1 (by norm_num) (by norm_num) (by norm_num) (by norm_num)
    opB := isRep32_mk _ 5 2 (by norm_num) (by norm_num) (by norm_num) (by norm_num)
    opCxx := isRep32_mk _ 25 2 (by norm_num) (by norm_num) (by norm_num) (by norm_num)
    opCyy := isRep32_mk _ 0 0 (by norm_num) (by norm_num) (by norm_num) (by norm_num)
    opCsum := isRep32_mk _ 25 2 (by norm_num) (by norm_num) (by norm_num) (by norm_num)
    opRr := isRep32_mk _ 1 2 (by norm_num) (by norm_num) (by norm_num) (by norm_num)
    opC := isRep32_mk _ 3 5 (by norm_num [coeffA, coeffB, coeffC, discriminant]) (by norm_num) (by norm_num) (by norm_num)
    opBb := isRep32_mk _ 25 4 (by norm_num [coeffA, coeffB, coeffC, discriminant]) (by norm_num) (by norm_num) (by norm_num)
    opFourA := isRep32_mk _ 1 2 (by norm_num [coeffA, coeffB, coeffC, discriminant]) (by norm_num) (by norm_num) (by norm_num)
    opFourAC := isRep32_mk _ 3 7 (by norm_num [coeffA, coeffB, coeffC, discriminant]) (by norm_num) (by norm_num) (by norm_num)
    opDisc := isRep32_mk _ 1 4 (by norm_num [coeffA, coeffB, coeffC, discriminant]) (by norm_num) (by norm_num) (by norm_num)
    opTwoA := isRep32_mk _ 1 1 (by norm_num [coeffA, coeffB, coeffC, discriminant]) (by norm_num) (by norm_num) (by norm_num)
    opSqrt := fun _ => by rw [hs]; exact isRep32_mk _ 1 2 (by norm_num) (by norm_num) (by norm_num) (by norm_num)
    opNum1 := fun _ => by rw [hs]; exact isRep32_mk _ (-3) 3 (by norm_num [coeffA, coeffB, coeffC, discriminant]) (by norm_num) (by norm_num) (by norm_num)
    opNum2 := fun _ => by rw [hs]; exact isRep32_mk _ (-1) 4 (by norm_num [coeffA, coeffB, coeffC, discriminant]) (by norm_num) (by norm_num) (by norm_num)
    opT1 := fun _ => by unfold rootT1; rw [hs]; exact isRep32_mk _ (-3) 2 (by norm_num [coeffA, coeffB, coeffC, discriminant]) (by norm_num) (by norm_num) (by norm_num)
    opT2 := fun _ => by unfold rootT2; rw [hs]; exact isRep32_mk _ (-1) 3 (by norm_num [coeffA, coeffB, coeffC, discriminant]) (by norm_num) (by norm_num) (by norm_num) }

theorem exactValue_behind :
    exactIntersection Real.sqrt (⟨0, 0⟩ : Vec2 ℝ) (⟨-1, 0⟩ : Vec2 ℝ) (⟨10, 0⟩ : Vec2 ℝ) 2 = (-1) := by
  rw [exactIntersection_of_sqrt _ _ _ _ 4 (by norm_num)
    (by norm_num [coeffA, coeffB, coeffC, discriminant])]
  norm_num [coeffA, coeffB]

theorem floatValue_behind :
    raySphereIntersection Real.sqrt (Vec2.toFp (⟨0, 0⟩ : Vec2 ℝ)) (Vec2.toFp (⟨-1, 0⟩ : Vec2 ℝ))
      (Vec2.toFp (⟨10, 0⟩ : Vec2 ℝ)) (Fp.fin 2) = Fp.fin (-1) := by
  rw [raySphereIntersection_of_exact _ _ _ _ (by norm_num [coeffA]) exactEval_behind,
    exactValue_behind]

theorem exactEval_fromCentre :
    ExactEval (⟨10, 0⟩ : Vec2 ℝ) (⟨1, 0⟩ : Vec2 ℝ) (⟨10, 0⟩ : Vec2 ℝ) 5 := by
  have hD : discriminant (⟨10, 0⟩ : Vec2 ℝ) (⟨1, 0⟩ : Vec2 ℝ) (⟨10, 0⟩ : Vec2 ℝ) 5 = 100 := by
    norm_num [coeffA, coeffB, coeffC, discriminant]
  have hs : Real.sqrt (discriminant (⟨10, 0⟩ : Vec2 ℝ) (⟨1, 0⟩ : Vec2 ℝ) (⟨10, 0⟩ : Vec2 ℝ) 5) = 10 := by
    rw [hD]
    exact (Real.sqrt_eq_iff_mul_self_eq (by norm_num) (by norm_num)).2 (by norm_num)
  exact {
    inOx := isRep32_mk _ 5 1 (by norm_num) (by norm_num) (by norm_num) (by norm_num)
    inOy := isRep32_mk _ 0 0 (by norm_num) (by norm_num) (by norm_num) (by norm_num)
    inDx := isRep32_mk _ 1 0 (by norm_num) (by norm_num) (by norm_num) (by norm_num)
    inDy := isRep32_mk _ 0 0 (by norm_num) (by norm_num) (by norm_num) (by norm_num)
    inCx := isRep32_mk _ 5 1 (by norm_num) (by norm_num) (by norm_num) (by norm_num)
    inCy := isRep32_mk _ 0 0 (by norm_num) (by norm_num) (by norm_num) (by norm_num)
    inR := isRep32_mk _ 5 0 (by norm_num) (by norm_num) (by norm_num) (by norm_num)
    opOcx := isRep32_mk _ 0 0 (by norm_num) (by norm_num) (by norm_num) (by norm_num)
    opOcy := isRep32_mk _ 0 0 (by norm_num) (by norm_num) (by norm_num) (by norm_num)
    opDxx := isRep32_mk _ 1 0 (by norm_num) (by norm_num) (by norm_num) (by norm_num)
    opDyy := isRep32_mk _ 0 0 (by norm_num) (by norm_num) (by norm_num) (by norm_num)
    opA := isRep32_mk _ 1 0 (by norm_num) (by norm_num) (by norm_num) (by norm_num)
    opBx := isRep32_mk _ 0 0 (by norm_num) (by norm_num) (by norm_num) (by norm_num)
    opBy := isRep32_mk _ 0 0 (by norm_num) (by norm_num) (by norm_num) (by norm_num)
    opBsum := isRep32_mk _ 0 0 (by norm_num) (by norm_num) (by norm_num) (by norm_num)
    opB := isRep32_mk _ 0 0 (by norm_num) (by norm_num) (by norm_num) (by norm_num)
    opCxx := isRep32_mk _ 0 0 (by norm_num) (by norm_num) (by norm_num) (by norm_num)
    opCyy := isRep32_mk _ 0 0 (by norm_num) (by norm_num) (by norm_num) (by norm_num)
    opCsum := isRep32_mk _ 0 0 (by norm_num) (by norm_num) (by norm_num) (by norm_num)
    opRr := isRep32_mk _ 25 0 (by norm_num) (by norm_num) (by norm_num) (by norm_num)
    opC := isRep32_mk _ (-25) 0 (by norm_num [coeffA, coeffB, coeffC, discriminant]) (by norm_num) (by norm_num) (by norm_num)
    opBb := isRep32_mk _ 0 0 (by norm_num [coeffA, coeffB, coeffC, discriminant]) (by norm_num) (by norm_num) (by norm_num)
    opFourA := isRep32_mk _ 1 2 (by norm_num [coeffA, coeffB, coeffC, discriminant]) (by norm_num) (by norm_num) (by norm_num)
    opFourAC := isRep32_mk _ (-25) 2 (by norm_num [coeffA, coeffB, coeffC, discriminant]) (by norm_num) (by norm_num) (by norm_num)
    opDisc := isRep32_mk _ 25 2 (by norm_num [coeffA, coeffB, coeffC, discriminant]) (by norm_num) (by norm_num) (by norm_num)
    opTwoA := isRep32_mk _ 1 1 (by norm_num [coeffA, coeffB, coeffC, discriminant]) (by norm_num) (by norm_num) (by norm_num)
    opSqrt := fun _ => by rw [hs]; exact isRep32_mk _ 5 1 (by norm_num) (by norm_num) (by norm_num) (by norm_num)
    opNum1 := fun _ => by rw [hs]; exact isRep32_mk _ (-5) 1 (by norm_num [coeffA, coeffB, coeffC, discriminant]) (by norm_num) (by norm_num) (by norm_num)
    opNum2 := fun _ => by rw [hs]; exact isRep32_mk _ 5 1 (by norm_num [coeffA, coeffB, coeffC, discriminant]) (by norm_num) (by norm_num) (by norm_num)
    opT1 := fun _ => by unfold rootT1; rw [hs]; exact isRep32_mk _ (-5) 0 (by norm_num [coeffA, coeffB, coeffC, discriminant]) (by norm_num) (by norm_num) (by norm_num)
    opT2 := fun _ => by unfold rootT2; rw [hs]; exact isRep32_mk _ 5 0 (by norm_num [coeffA, coeffB, coeffC, discriminant]) (by norm_num) (by norm_num) (by norm_num) }

theorem exactValue_fromCentre :
    exactIntersection Real.sqrt (⟨10, 0⟩ : Vec2 ℝ) (⟨1, 0⟩ : Vec2 ℝ) (⟨10, 0⟩ : Vec2 ℝ) 5 = 5 := by
  rw [exactIntersection_of_sqrt _ _ _ _ 10 (by norm_num)
    (by norm_num [coeffA, coeffB, coeffC, discriminant])]
  norm_num [coeffA, coeffB]

theorem floatValue_fromCentre :
    raySphereIntersection Real.sqrt (Vec2.toFp (⟨10, 0⟩ : Vec2 ℝ)) (Vec2.toFp (⟨1, 0⟩ : Vec2 ℝ))
      (Vec2.toFp (⟨10, 0⟩ : Vec2 ℝ)) (Fp.fin 5) = Fp.fin 5 := by
  rw [raySphereIntersection_of_exact _ _ _ _ (by norm_num [coeffA]) exactEval_fromCentre,
    exactValue_fromCentre]

theorem exactEval_pastCircle :
    ExactEval (⟨20, 0⟩ : Vec2 ℝ) (⟨1, 0⟩ : Vec2 ℝ) (⟨10, 0⟩ : Vec2 ℝ) 2 := by
  have hD : discriminant (⟨20, 0⟩ : Vec2 ℝ) (⟨1, 0⟩ : Vec2 ℝ) (⟨10, 0⟩ : Vec2 ℝ) 2 = 16 := by
    norm_num [coeffA, coeffB, coeffC, discriminant]
  have hs : Real.sqrt (discriminant (⟨20, 0⟩ : Vec2 ℝ) (⟨1, 0⟩ : Vec2 ℝ) (⟨10, 0⟩ : Vec2 ℝ) 2) = 4 := by
    rw [hD]
    exact (Real.sqrt_eq_iff_mul_self_eq (by norm_num) (by norm_num)).2 (by norm_num)
  exact {
    inOx := isRep32_mk _ 5 2 (by norm_num) (by norm_num) (by norm_num) (by norm_num)
    inOy := isRep32_mk _ 0 0 (by norm_num) (by norm_num) (by norm_num) (by norm_num)
    inDx := isRep32_mk _ 1 0 (by norm_num) (by norm_num) (by norm_num) (by norm_num)
    inDy := isRep32_mk _ 0 0 (by norm_num) (by norm_num) (by norm_num) (by norm_num)
    inCx := isRep32_mk _ 5 1 (by norm_num) (by norm_num) (by norm_num) (by norm_num)
    inCy := isRep32_mk _ 0 0 (by norm_num) (by norm_num) (by norm_num) (by norm_num)
    inR := isRep32_mk _ 1 1 (by norm_num) (by norm_num) (by norm_num) (by norm_num)
    opOcx := isRep32_mk _ 5 1 (by norm_num) (by norm_num) (by norm_num) (by norm_num)
    opOcy := isRep32_mk _ 0 0 (by norm_num) (by norm_num) (by norm_num) (by norm_num)
    opDxx := isRep32_mk _ 1 0 (by norm_num) (by norm_num) (by norm_num) (by norm_num)
    opDyy := isRep32_mk _ 0 0 (by norm_num) (by norm_num) (by norm_num) (by norm_num)
    opA := isRep32_mk _ 1 0 (by norm_num) (by norm_num) (by norm_num) (by norm_num)
    opBx := isRep32_mk _ 5 1 (by norm_num) (by norm_num) (by norm_num) (by norm_num)
    opBy := isRep32_mk _ 0 0 (by norm_num) (by norm_num) (by norm_num) (by norm_num)
    opBsum := isRep32_mk _ 5 1 (by norm_num) (by norm_num) (by norm_num) (by norm_num)
    opB := isRep32_mk _ 5 2 (by norm_num) (by norm_num) (by norm_num) (by norm_num)
    opCxx := isRep32_mk _ 25 2 (by norm_num) (by norm_num) (by norm_num) (by norm_num)
    opCyy := isRep32_mk _ 0 0 (by norm_num) (by norm_num) (by norm_num) (by norm_num)
    opCsum := isRep32_mk _ 25 2 (by norm_num) (by norm_num) (by norm_num) (by norm_num)
    opRr := isRep32_mk _ 1 2 (by norm_num) (by norm_num) (by norm_num) (by norm_num)
    opC := isRep32_mk _ 3 5 (by norm_num [coeffA, coeffB, coeffC, discriminant]) (by norm_num) (by norm_num) (by norm_num)
    opBb := isRep32_mk _ 25 4 (by norm_num [coeffA, coeffB, coeffC, discriminant]) (by norm_num) (by norm_num) (by norm_num)
    opFourA := isRep32_mk _ 1 2 (by norm_num [coeffA, coeffB, coeffC, discriminant]) (by norm_num) (by norm_num) (by norm_num)
    opFourAC := isRep32_mk _ 3 7 (by norm_num [coeffA, coeffB, coeffC, discriminant]) (by norm_num) (by norm_num) (by norm_num)
    opDisc := isRep32_mk _ 1 4 (by norm_num [coeffA, coeffB, coeffC, discriminant]) (by norm_num) (by norm_num) (by norm_num)
    opTwoA := isRep32_mk _ 1 1 (by norm_num [coeffA, coeffB, coeffC, discriminant]) (by norm_num) (by norm_num) (by norm_num)
    opSqrt := fun _ => by rw [hs]; exact isRep32_mk _ 1 2 (by norm_num) (by norm_num) (by norm_num) (by norm_num)
    opNum1 := fun _ => by rw [hs]; exact isRep32_mk _ (-3) 3 (by norm_num [coeffA, coeffB, coeffC, discriminant]) (by norm_num) (by norm_num) (by norm_num)
    opNum2 := fun _ => by rw [hs]; exact isRep32_mk _ (-1) 4 (by norm_num [coeffA, coeffB, coeffC, discriminant]) (by norm_num) (by norm_num) (by norm_num)
    opT1 := fun _ => by unfold rootT1; rw [hs]; exact isRep32_mk _ (-3) 2 (by norm_num [coeffA, coeffB, coeffC, discriminant]) (by norm_num) (by norm_num) (by norm_num)
    opT2 := fun _ => by unfold rootT2; rw [hs]; exact isRep32_mk _ (-1) 3 (by norm_num [coeffA, coeffB, coeffC, discriminant]) (by norm_num) (by norm_num) (by norm_num) }

theorem exactValue_pastCircle :
    exactIntersection Real.sqrt (⟨20, 0⟩ : Vec2 ℝ) (⟨1, 0⟩ : Vec2 ℝ) (⟨10, 0⟩ : Vec2 ℝ) 2 = (-1) := by
  rw [exactIntersection_of_sqrt _ _ _ _ 4 (by norm_num)
    (by norm_num [coeffA, coeffB, coeffC, discriminant])]
  norm_num [coeffA, coeffB]

theorem floatValue_pastCircle :
    raySphereIntersection Real.sqrt (Vec2.toFp (⟨20, 0⟩ : Vec2 ℝ)) (Vec2.toFp (⟨1, 0⟩ : Vec2 ℝ))
      (Vec2.toFp (⟨10, 0⟩ : Vec2 ℝ)) (Fp.fin 2) = Fp.fin (-1) := by
  rw [raySphereIntersection_of_exact _ _ _ _ (by norm_num [coeffA]) exactEval_pastCircle,
    exactValue_pastCircle]

theorem exactEval_boundaryIn :
    ExactEval (⟨2, 0⟩ : Vec2 ℝ) (⟨-1, 0⟩ : Vec2 ℝ) (⟨0, 0⟩ : Vec2 ℝ) 2 := by
  have hD : discriminant (⟨2, 0⟩ : Vec2 ℝ) (⟨-1, 0⟩ : Vec2 ℝ) (⟨0, 0⟩ : Vec2 ℝ) 2 = 16 := by
    norm_num [coeffA, coeffB, coeffC, discriminant]
  have hs : Real.sqrt (discriminant (⟨2, 0⟩ : Vec2 ℝ) (⟨-1, 0⟩ : Vec2 ℝ) (⟨0, 0⟩ : Vec2 ℝ) 2) = 4 := by
    rw [hD]
    exact (Real.sqrt_eq_iff_mul_self_eq (by norm_num) (by norm_num)).2 (by norm_num)
  exact {
    inOx := isRep32_mk _ 1 1 (by norm_num) (by norm_num) (by norm_num) (by norm_num)
    inOy := isRep32_mk _ 0 0 (by norm_num) (by norm_num) (by norm_num) (by norm_num)
    inDx := isRep32_mk _ (-1) 0 (by norm_num) (by norm_num) (by norm_num) (by norm_num)
    inDy := isRep32_mk _ 0 0 (by norm_num) (by norm_num) (by norm_num) (by norm_num)
    inCx := isRep32_mk _ 0 0 (by norm_num) (by norm_num) (by norm_num) (by norm_num)
    inCy := isRep32_mk _ 0 0 (by norm_num) (by norm_num) (by norm_num) (by norm_num)
    inR := isRep32_mk _ 1 1 (by norm_num) (by norm_num) (by norm_num) (by norm_num)
    opOcx := isRep32_mk _ 1 1 (by norm_num) (by norm_num) (by norm_num) (by norm_num)
    opOcy := isRep32_mk _ 0 0 (by norm_num) (by norm_num) (by norm_num) (by norm_num)
    opDxx := isRep32_mk _ 1 0 (by norm_num) (by norm_num) (by norm_num) (by norm_num)
    opDyy := isRep32_mk _ 0 0 (by norm_num) (by norm_num) (by norm_num) (by norm_num)
    opA := isRep32_mk _ 1 0 (by norm_num) (by norm_num) (by norm_num) (by norm_num)
    opBx := isRep32_mk _ (-1) 1 (by norm_num) (by norm_num) (by norm_num) (by norm_num)
    opBy := isRep32_mk _ 0 0 (by norm_num) (by norm_num) (by norm_num) (by norm_num)
    opBsum := isRep32_mk _ (-1) 1 (by norm_num) (by norm_num) (by norm_num) (by norm_num)
    opB := isRep32_mk _ (-1) 2 (by norm_num) (by norm_num) (by norm_num) (by norm_num)
    opCxx := isRep32_mk _ 1 2 (by norm_num) (by norm_num) (by norm_num) (by norm_num)
    opCyy := isRep32_mk _ 0 0 (by norm_num) (by norm_num) (by norm_num) (by norm_num)
    opCsum := isRep32_mk _ 1 2 (by norm_num) (by norm_num) (by norm_num) (by norm_num)
    opRr := isRep32_mk _ 1 2 (by norm_num) (by norm_num) (by norm_num) (by norm_num)
    opC := isRep32_mk _ 0 0 (by norm_num [coeffA, coeffB, coeffC, discriminant]) (by norm_num) (by norm_num) (by norm_num)
    opBb := isRep32_mk _ 1 4 (by norm_num [coeffA, coeffB, coeffC, discriminant]) (by norm_num) (by norm_num) (by norm_num)
    opFourA := isRep32_mk _ 1 2 (by norm_num [coeffA, coeffB, coeffC, discriminant]) (by norm_num) (by norm_num) (by norm_num)
    opFourAC := isRep32_mk _ 0 0 (by norm_num [coeffA, coeffB, coeffC, discriminant]) (by norm_num) (by norm_num) (by norm_num)
    opDisc := isRep32_mk _ 1 4 (by norm_num [coeffA, coeffB, coeffC, discriminant]) (by norm_num) (by norm_num) (by norm_num)
    opTwoA := isRep32_mk _ 1 1 (by norm_num [coeffA, coeffB, coeffC, discriminant]) (by norm_num) (by norm_num) (by norm_num)
    opSqrt := fun _ => by rw [hs]; exact isRep32_mk _ 1 2 (by norm_num) (by norm_num) (by norm_num) (by norm_num)
    opNum1 := fun _ => by rw [hs]; exact isRep32_mk _ 0 0 (by norm_num [coeffA, coeffB, coeffC, discriminant]) (by norm_num) (by norm_num) (by norm_num)
    opNum2 := fun _ => by rw [hs]; exact isRep32_mk _ 1 3 (by norm_num [coeffA, coeffB, coeffC, discriminant]) (by norm_num) (by norm_num) (by norm_num)
    opT1 := fun _ => by unfold rootT1; rw [hs]; exact isRep32_mk _ 0 0 (by norm_num [coeffA, coeffB, coeffC, discriminant]) (by norm_num) (by norm_num) (by norm_num)
    opT2 := fun _ => by unfold rootT2; rw [hs]; exact isRep32_mk _ 1 2 (by norm_num [coeffA, coeffB, coeffC, discriminant]) (by norm_num) (by norm_num) (by norm_num) }

theorem exactValue_boundaryIn :
    exactIntersection Real.sqrt (⟨2, 0⟩ : Vec2 ℝ) (⟨-1, 0⟩ : Vec2 ℝ) (⟨0, 0⟩ : Vec2 ℝ) 2 = 4 := by
  rw [exactIntersection_of_sqrt _ _ _ _ 4 (by norm_num)
    (by norm_num [coeffA, coeffB, coeffC, discriminant])]
  norm_num [coeffA, coeffB]

theorem floatValue_boundaryIn :
    raySphereIntersection Real.sqrt (Vec2.toFp (⟨2, 0⟩ : Vec2 ℝ)) (Vec2.toFp (⟨-1, 0⟩ : Vec2 ℝ))
      (Vec2.toFp (⟨0, 0⟩ : Vec2 ℝ)) (Fp.fin 2) = Fp.fin 4 := by
  rw [raySphereIntersection_of_exact _ _ _ _ (by norm_num [coeffA]) exactEval_boundaryIn,
    exactValue_boundaryIn]

theorem exactEval_awayLight :
    ExactEval (⟨1000, 300⟩ : Vec2 ℝ) (⟨1, 0⟩ : Vec2 ℝ) (⟨400, 300⟩ : Vec2 ℝ) 80 := by
  have hD : discriminant (⟨1000, 300⟩ : Vec2 ℝ) (⟨1, 0⟩ : Vec2 ℝ) (⟨400, 300⟩ : Vec2 ℝ) 80 = 25600 := by
    norm_num [coeffA, coeffB, coeffC, discriminant]
  have hs : Real.sqrt (discriminant (⟨1000, 300⟩ : Vec2 ℝ) (⟨1, 0⟩ : Vec2 ℝ) (⟨400, 300⟩ : Vec2 ℝ) 80) = 160 := by
    rw [hD]
    exact (Real.sqrt_eq_iff_mul_self_eq (by norm_num) (by norm_num)).2 (by norm_num)
  exact {
    inOx := isRep32_mk _ 125 3 (by norm_num) (by norm_num) (by norm_num) (by norm_num)
    inOy := isRep32_mk _ 75 2 (by norm_num) (by norm_num) (by norm_num) (by norm_num)
    inDx := isRep32_mk _ 1 0 (by norm_num) (by norm_num) (by norm_num) (by norm_num)
    inDy := isRep32_mk _ 0 0 (by norm_num) (by norm_num) (by norm_num) (by norm_num)
    inCx := isRep32_mk _ 25 4 (by norm_num) (by norm_num) (by norm_num) (by norm_num)
    inCy := isRep32_mk _ 75 2 (by norm_num) (by norm_num) (by norm_num) (by norm_num)
    inR := isRep32_mk _ 5 4 (by norm_num) (by norm_num) (by norm_num) (by norm_num)
    opOcx := isRep32_mk _ 75 3 (by norm_num) (by norm_num) (by norm_num) (by norm_num)
    opOcy := isRep32_mk _ 0 0 (by norm_num) (by norm_num) (by norm_num) (by norm_num)
    opDxx := isRep32_mk _ 1 0 (by norm_num) (by norm_num) (by norm_num) (by norm_num)
    opDyy := isRep32_mk _ 0 0 (by norm_num) (by norm_num) (by norm_num) (by norm_num)
    opA := isRep32_mk _ 1 0 (by norm_num) (by norm_num) (by norm_num) (by norm_num)
    opBx := isRep32_mk _ 75 3 (by norm_num) (by norm_num) (by norm_num) (by norm_num)
    opBy := isRep32_mk _ 0 0 (by norm_num) (by norm_num) (by norm_num) (by norm_num)
    opBsum := isRep32_mk _ 75 3 (by norm_num) (by norm_num) (by norm_num) (by norm_num)
    opB := isRep32_mk _ 75 4 (by norm_num) (by norm_num) (by norm_num) (by norm_num)
    opCxx := isRep32_mk _ 5625 6 (by norm_num) (by norm_num) (by norm_num) (by norm_num)
    opCyy := isRep32_mk _ 0 0 (by norm_num) (by norm_num) (by norm_num) (by norm_num)
    opCsum := isRep32_mk _ 5625 6 (by norm_num) (by norm_num) (by norm_num) (by norm_num)
    opRr := isRep32_mk _ 25 8 (by norm_num) (by norm_num) (by norm_num) (by norm_num)
    opC := isRep32_mk _ 5525 6 (by norm_num [coeffA, coeffB, coeffC, discriminant]) (by norm_num) (by norm_num) (by norm_num)
    opBb := isRep32_mk _ 5625 8 (by norm_num [coeffA, coeffB, coeffC, discriminant]) (by norm_num) (by norm_num) (by norm_num)
    opFourA := isRep32_mk _ 1 2 (by norm_num [coeffA, coeffB, coeffC, discriminant]) (by norm_num) (by norm_num) (by norm_num)
    opFourAC := isRep32_mk _ 5525 8 (by norm_num [coeffA, coeffB, coeffC, discriminant]) (by norm_num) (by norm_num) (by norm_num)
    opDisc := isRep32_mk _ 25 10 (by norm_num [coeffA, coeffB, coeffC, discriminant]) (by norm_num) (by norm_num) (by norm_num)
    opTwoA := isRep32_mk _ 1 1 (by norm_num [coeffA, coeffB, coeffC, discriminant]) (by norm_num) (by norm_num) (by norm_num)
    opSqrt := fun _ => by rw [hs]; exact isRep32_mk _ 5 5 (by norm_num) (by norm_num) (by norm_num) (by norm_num)
    opNum1 := fun _ => by rw [hs]; exact isRep32_mk _ (-85) 4 (by norm_num [coeffA, coeffB, coeffC, discriminant]) (by norm_num) (by norm_num) (by norm_num)
    opNum2 := fun _ => by rw [hs]; exact isRep32_mk _ (-65) 4 (by norm_num [coeffA, coeffB, coeffC, discriminant]) (by norm_num) (by norm_num) (by norm_num)
    opT1 := fun _ => by unfold rootT1; rw [hs]; exact isRep32_mk _ (-85) 3 (by norm_num [coeffA, coeffB, coeffC, discriminant]) (by norm_num) (by norm_num) (by norm_num)
    opT2 := fun _ => by unfold rootT2; rw [hs]; exact isRep32_mk _ (-65) 3 (by norm_num [coeffA, coeffB, coeffC, discriminant]) (by norm_num) (by norm_num) (by norm_num) }

theorem exactValue_awayLight :
    exactIntersection Real.sqrt (⟨1000, 300⟩ : Vec2 ℝ) (⟨1, 0⟩ : Vec2 ℝ) (⟨400, 300⟩ : Vec2 ℝ) 80 = (-1) := by
  rw [exactIntersection_of_sqrt _ _ _ _ 160 (by norm_num)
    (by norm_num [coeffA, coeffB, coeffC, discriminant])]
  norm_num [coeffA, coeffB]

theorem floatValue_awayLight :
    raySphereIntersection Real.sqrt (Vec2.toFp (⟨1000, 300⟩ : Vec2 ℝ)) (Vec2.toFp (⟨1, 0⟩ : Vec2 ℝ))
      (Vec2.toFp (⟨400, 300⟩ : Vec2 ℝ)) (Fp.fin 80) = Fp.fin (-1) := by
  rw [raySphereIntersection_of_exact _ _ _ _ (by norm_num [coeffA]) exactEval_awayLight,
    exactValue_awayLight]

/-! ## Evaluations with rounding -/

/-- The ray from `(7330, 3665)` along `(-3, -4)` touches the circle of centre
`(0, 0)` and radius `3665`; in `float` the sum `7330² + 3665²` and the products
`b*b` and `4*a*c` round, the discriminant is `-512`, and the result is `-1`. -/
theorem floatValue_tangent :
    raySphereIntersection Real.sqrt (⟨Fp.fin 7330, Fp.fin 3665⟩ : Vec2 (Fp ℝ))
      ⟨Fp.fin (-3), Fp.fin (-4)⟩ ⟨Fp.fin 0, Fp.fin 0⟩ (Fp.fin 3665) = Fp.fin (-1) := by
  have e1 : fsub (Fp.fin 7330 : Fp ℝ) (Fp.fin 0 : Fp ℝ) = Fp.fin 7330 := by
    rw [fsub_fin _ _, roundTo_of_isRep _ _ (isRep32_mk _ 3665 1 (by norm_num) (by norm_num)
      (by norm_num) (by norm_num))]
    norm_num
  have e2 : fsub (Fp.fin 3665 : Fp ℝ) (Fp.fin 0 : Fp ℝ) = Fp.fin 3665 := by
    rw [fsub_fin _ _, roundTo_of_isRep _ _ (isRep32_mk _ 3665 0 (by norm_num) (by norm_num)
      (by norm_num) (by norm_num))]
    norm_num
  have e3 : fmul (Fp.fin (-3) : Fp ℝ) (Fp.fin (-3) : Fp ℝ) = Fp.fin 9 := by
    rw [fmul_fin _ _, roundTo_of_isRep _ _ (isRep32_mk _ 9 0 (by norm_num) (by norm_num)
      (by norm_num) (by norm_num))]
    norm_num
  have e4 : fmul (Fp.fin (-4) : Fp ℝ) (Fp.fin (-4) : Fp ℝ) = Fp.fin 16 := by
    rw [fmul_fin _ _, roundTo_of_isRep _ _ (isRep32_mk _ 1 4 (by norm_num) (by norm_num)
      (by norm_num) (by norm_num))]
    norm_num
  have e5 : fadd (Fp.fin 9 : Fp ℝ) (Fp.fin 16 : Fp ℝ) = Fp.fin 25 := by
    rw [fadd_fin _ _, roundTo_of_isRep _ _ (isRep32_mk _ 25 0 (by norm_num) (by norm_num)
      (by norm_num) (by norm_num))]
    norm_num
  have e6 : fmul (Fp.fin 7330 : Fp ℝ) (Fp.fin (-3) : Fp ℝ) = Fp.fin (-21990) := by
    rw [fmul_fin _ _, roundTo_of_isRep _ _ (isRep32_mk _ (-10995) 1 (by norm_num) (by norm_num)
      (by norm_num) (by norm_num))]
    norm_num
  have e7 : fmul (Fp.fin 3665 : Fp ℝ) (Fp.fin (-4) : Fp ℝ) = Fp.fin (-14660) := by
    rw [fmul_fin _ _, roundTo_of_isRep _ _ (isRep32_mk _ (-3665) 2 (by norm_num) (by norm_num)
      (by norm_num) (by norm_num))]
    norm_num
  have e8 : fadd (Fp.fin (-21990) : Fp ℝ) (Fp.fin (-14660) : Fp ℝ) = Fp.fin (-36650) := by
    rw [fadd_fin _ _, roundTo_of_isRep _ _ (isRep32_mk _ (-18325) 1 (by norm_num) (by norm_num)
      (by norm_num) (by norm_num))]
    norm_num
  have e9 : fmul (Fp.fin 2 : Fp ℝ) (Fp.fin (-36650) : Fp ℝ) = Fp.fin (-73300) := by
    rw [fmul_fin _ _, roundTo_of_isRep _ _ (isRep32_mk _ (-18325) 2 (by norm_num) (by norm_num)
      (by norm_num) (by norm_num))]
    norm_num
  have e10 : fmul (Fp.fin 7330 : Fp ℝ) (Fp.fin 7330 : Fp ℝ) = Fp.fin 53728900 := by
    rw [fmul_fin _ _, roundTo_of_isRep _ _ (isRep32_mk _ 13432225 2 (by norm_num) (by norm_num)
      (by norm_num) (by norm_num))]
    norm_num
  have e11 : fmul (Fp.fin 3665 : Fp ℝ) (Fp.fin 3665 : Fp ℝ) = Fp.fin 13432225 := by
    rw [fmul_fin _ _, roundTo_of_isRep _ _ (isRep32_mk _ 13432225 0 (by norm_num) (by norm_num)
      (by norm_num) (by norm_num))]
    norm_num
  have e12 : fadd (Fp.fin 53728900 : Fp ℝ) (Fp.fin 13432225 : Fp ℝ) = Fp.fin 67161128 := by
    rw [fadd_fin _ _]
    apply roundTo_eval binary32 _ _ 26 3 8395141
    · rw [abs_of_pos (by norm_num)]; norm_num
    · rw [abs_of_pos (by norm_num)]; norm_num
    · norm_num [binary32]
    · norm_num [binary32]
    · apply roundEven_eq_of_abs_lt
      rw [abs_lt]; constructor <;> norm_num
    · norm_num
    · rw [maxFinite32, abs_of_pos (by norm_num)]; norm_num
  have e13 : fsub (Fp.fin 67161128 : Fp ℝ) (Fp.fin 13432225 : Fp ℝ) = Fp.fin 53728904 := by
    rw [fsub_fin _ _]
    apply roundTo_eval binary32 _ _ 25 2 13432226
    · rw [abs_of_pos (by norm_num)]; norm_num
    · rw [abs_of_pos (by norm_num)]; norm_num
    · norm_num [binary32]
    · norm_num [binary32]
    · apply roundEven_eq_of_abs_lt
      rw [abs_lt]; constructor <;> norm_num
    · norm_num
    · rw [maxFinite32, abs_of_pos (by norm_num)]; norm_num
  have e14 : fmul (Fp.fin (-73300) : Fp ℝ) (Fp.fin (-73300) : Fp ℝ) = Fp.fin 5372890112 := by
    rw [fmul_fin _ _]
    apply roundTo_eval binary32 _ _ 32 9 10493926
    · rw [abs_of_pos (by norm_num)]; norm_num
    · rw [abs_of_pos (by norm_num)]; norm_num
    · norm_num [binary32]
    · norm_num [binary32]
    · apply roundEven_eq_of_abs_lt
      rw [abs_lt]; constructor <;> norm_num
    · norm_num
    · rw [maxFinite32, abs_of_pos (by norm_num)]; norm_num
  have e15 : fmul (Fp.fin 4 : Fp ℝ) (Fp.fin 25 : Fp ℝ) = Fp.fin 100 := by
    rw [fmul_fin _ _, roundTo_of_isRep _ _ (isRep32_mk _ 25 2 (by norm_num) (by norm_num)
      (by norm_num) (by norm_num))]
    norm_num
  have e16 : fmul (Fp.fin 100 : Fp ℝ) (Fp.fin 53728904 : Fp ℝ) = Fp.fin 5372890624 := by
    rw [fmul_fin _ _]
    apply roundTo_eval binary32 _ _ 32 9 10493927
    · rw [abs_of_pos (by norm_num)]; norm_num
    · rw [abs_of_pos (by norm_num)]; norm_num
    · norm_num [binary32]
    · norm_num [binary32]
    · apply roundEven_eq_of_abs_lt
      rw [abs_lt]; constructor <;> norm_num
    · norm_num
    · rw [maxFinite32, abs_of_pos (by norm_num)]; norm_num
  have e17 : fsub (Fp.fin 5372890112 : Fp ℝ) (Fp.fin 5372890624 : Fp ℝ) = Fp.fin (-512) := by
    rw [fsub_fin _ _, roundTo_of_isRep _ _ (isRep32_mk _ (-1) 9 (by norm_num) (by norm_num)
      (by norm_num) (by norm_num))]
    norm_num
  unfold raySphereIntersection
  simp only [e1, e2, e3, e4, e5, e6, e7, e8, e9, e10, e11, e12, e13, e14, e15, e16, e17,
    Fp.neg, neg_neg, lt_fin, decide_eq_true_eq]
  norm_num

/-- The ray from `(0, 0)` along `(1, 0)` towards the circle of centre `(10000, 0)`
and radius `1`: in `float` `c = 10^8 - 1` rounds to `10^8`, the discriminant is
`0`, and the result is `10000`, the parameter of the centre. -/
theorem floatValue_farCentre :
    raySphereIntersection Real.sqrt (⟨Fp.fin 0, Fp.fin 0⟩ : Vec2 (Fp ℝ))
      ⟨Fp.fin 1, Fp.fin 0⟩ ⟨Fp.fin 10000, Fp.fin 0⟩ (Fp.fin 1) = Fp.fin 10000 := by
  have e1 : fsub (Fp.fin 0 : Fp ℝ) (Fp.fin 10000 : Fp ℝ) = Fp.fin (-10000) := by
    rw [fsub_fin _ _, roundTo_of_isRep _ _ (isRep32_mk _ (-625) 4 (by norm_num) (by norm_num)
      (by norm_num) (by norm_num))]
    norm_num
  have e2 : fsub (Fp.fin 0 : Fp ℝ) (Fp.fin 0 : Fp ℝ) = Fp.fin 0 := by
    rw [fsub_fin _ _, roundTo_of_isRep _ _ (isRep32_mk _ 0 0 (by norm_num) (by norm_num)
      (by norm_num) (by norm_num))]
    norm_num
  have e3 : fmul (Fp.fin 1 : Fp ℝ) (Fp.fin 1 : Fp ℝ) = Fp.fin 1 := by
    rw [fmul_fin _ _, roundTo_of_isRep _ _ (isRep32_mk _ 1 0 (by norm_num) (by norm_num)
      (by norm_num) (by norm_num))]
    norm_num
  have e4 : fmul (Fp.fin 0 : Fp ℝ) (Fp.fin 0 : Fp ℝ) = Fp.fin 0 := by
    rw [fmul_fin _ _, roundTo_of_isRep _ _ (isRep32_mk _ 0 0 (by norm_num) (by norm_num)
      (by norm_num) (by norm_num))]
    norm_num
  have e5 : fadd (Fp.fin 1 : Fp ℝ) (Fp.fin 0 : Fp ℝ) = Fp.fin 1 := by
    rw [fadd_fin _ _, roundTo_of_isRep _ _ (isRep32_mk _ 1 0 (by norm_num) (by norm_num)
      (by norm_num) (by norm_num))]
    norm_num
  have e6 : fmul (Fp.fin (-10000) : Fp ℝ) (Fp.fin 1 : Fp ℝ) = Fp.fin (-10000) := by
    rw [fmul_fin _ _, roundTo_of_isRep _ _ (isRep32_mk _ (-625) 4 (by norm_num) (by norm_num)
      (by norm_num) (by norm_num))]
    norm_num
  have e7 : fadd (Fp.fin (-10000) : Fp ℝ) (Fp.fin 0 : Fp ℝ) = Fp.fin (-10000) := by
    rw [fadd_fin _ _, roundTo_of_isRep _ _ (isRep32_mk _ (-625) 4 (by norm_num) (by norm_num)
      (by norm_num) (by norm_num))]
    norm_num
  have e8 : fmul (Fp.fin 2 : Fp ℝ) (Fp.fin (-10000) : Fp ℝ) = Fp.fin (-20000) := by
    rw [fmul_fin _ _, roundTo_of_isRep _ _ (isRep32_mk _ (-625) 5 (by norm_num) (by norm_num)
      (by norm_num) (by norm_num))]
    norm_num
  have e9 : fmul (Fp.fin (-10000) : Fp ℝ) (Fp.fin (-10000) : Fp ℝ) = Fp.fin 100000000 := by
    rw [fmul_fin _ _, roundTo_of_isRep _ _ (isRep32_mk _ 390625 8 (by norm_num) (by norm_num)
      (by norm_num) (by norm_num))]
    norm_num
  have e10 : fadd (Fp.fin 100000000 : Fp ℝ) (Fp.fin 0 : Fp ℝ) = Fp.fin 100000000 := by
    rw [fadd_fin _ _, roundTo_of_isRep _ _ (isRep32_mk _ 390625 8 (by norm_num) (by norm_num)
      (by norm_num) (by norm_num))]
    norm_num
  have e11 : fsub (Fp.fin 100000000 : Fp ℝ) (Fp.fin 1 : Fp ℝ) = Fp.fin 100000000 := by
    rw [fsub_fin _ _]
    apply roundTo_eval binary32 _ _ 26 3 12500000
    · rw [abs_of_pos (by norm_num)]; norm_num
    · rw [abs_of_pos (by norm_num)]; norm_num
    · norm_num [binary32]
    · norm_num [binary32]
    · apply roundEven_eq_of_abs_lt
      rw [abs_lt]; constructor <;> norm_num
    · norm_num
    · rw [maxFinite32, abs_of_pos (by norm_num)]; norm_num
  have e12 : fmul (Fp.fin (-20000) : Fp ℝ) (Fp.fin (-20000) : Fp ℝ) = Fp.fin 400000000 := by
    rw [fmul_fin _ _, roundTo_of_isRep _ _ (isRep32_mk _ 390625 10 (by norm_num) (by norm_num)
      (by norm_num) (by norm_num))]
    norm_num
  have e13 : fmul (Fp.fin 4 : Fp ℝ) (Fp.fin 1 : Fp ℝ) = Fp.fin 4 := by
    rw [fmul_fin _ _, roundTo_of_isRep _ _ (isRep32_mk _ 1 2 (by norm_num) (by norm_num)
      (by norm_num) (by norm_num))]
    norm_num
  have e14 : fmul (Fp.fin 4 : Fp ℝ) (Fp.fin 100000000 : Fp ℝ) = Fp.fin 400000000 := by
    rw [fmul_fin _ _, roundTo_of_isRep _ _ (isRep32_mk _ 390625 10 (by norm_num) (by norm_num)
      (by norm_num) (by norm_num))]
    norm_num
  have e15 : fsub (Fp.fin 400000000 : Fp ℝ) (Fp.fin 400000000 : Fp ℝ) = Fp.fin 0 := by
    rw [fsub_fin _ _, roundTo_of_isRep _ _ (isRep32_mk _ 0 0 (by norm_num) (by norm_num)
      (by norm_num) (by norm_num))]
    norm_num
  have e16 : fsqrt Real.sqrt (Fp.fin 0 : Fp ℝ) = Fp.fin 0 := by
    have hs : Real.sqrt (0 : ℝ) = 0 :=
      (Real.sqrt_eq_iff_mul_self_eq (by norm_num) (by norm_num)).2 (by norm_num)
    rw [fsqrt_fin _ (by norm_num), hs, roundTo_of_isRep _ _ (isRep32_mk _ 0 0 (by norm_num)
      (by norm_num) (by norm_num) (by norm_num))]
  have e17 : fmul (Fp.fin 2 : Fp ℝ) (Fp.fin 1 : Fp ℝ) = Fp.fin 2 := by
    rw [fmul_fin _ _, roundTo_of_isRep _ _ (isRep32_mk _ 1 1 (by norm_num) (by norm_num)
      (by norm_num) (by norm_num))]
    norm_num
  have e18 : fsub (Fp.fin 20000 : Fp ℝ) (Fp.fin 0 : Fp ℝ) = Fp.fin 20000 := by
    rw [fsub_fin _ _, roundTo_of_isRep _ _ (isRep32_mk _ 625 5 (by norm_num) (by norm_num)
      (by norm_num) (by norm_num))]
    norm_num
  have e19 : fdiv (Fp.fin 20000 : Fp ℝ) (Fp.fin 2 : Fp ℝ) = Fp.fin 10000 := by
    rw [fdiv_fin _ _ (by norm_num), roundTo_of_isRep _ _ (isRep32_mk _ 625 4 (by norm_num) (by norm_num)
      (by norm_num) (by norm_num))]
    norm_num
  have e20 : fadd (Fp.fin 20000 : Fp ℝ) (Fp.fin 0 : Fp ℝ) = Fp.fin 20000 := by
    rw [fadd_fin _ _, roundTo_of_isRep _ _ (isRep32_mk _ 625 5 (by norm_num) (by norm_num)
      (by norm_num) (by norm_num))]
    norm_num
  unfold raySphereIntersection
  simp only [e1, e2, e3, e4, e5, e6, e7, e8, e9, e10, e11, e12, e13, e14, e15, e16, e17, e18, e19, e20,
    Fp.neg, neg_neg, lt_fin, decide_eq_true_eq]
  norm_num

/-! ## C1: nearest forward intersection or the sentinel -/

theorem vec_one_zero_ne_zero : (⟨1, 0⟩ : Vec2 ℝ) ≠ ⟨0, 0⟩ := by
  intro h; have := congrArg Vec2.x h; norm_num at this

theorem vec_neg_one_zero_ne_zero : (⟨-1, 0⟩ : Vec2 ℝ) ≠ ⟨0, 0⟩ := by
  intro h; have := congrArg Vec2.x h; norm_num at this

theorem exactDistance_zero_ten : exactDistance Real.sqrt ⟨0, 0⟩ ⟨10, 0⟩ = 10 := by
  unfold exactDistance
  exact (Real.sqrt_eq_iff_mul_self_eq (by norm_num) (by norm_num)).2 (by norm_num)

/-- C1, as stated, fails on a ray that touches the circle: origin `(7330, 3665)`,
direction `(-3, -4)`, centre `(0, 0)`, radius `3665`.  The point at `t = 1466` is
`(2932, -2199)`, at distance exactly `3665` from the centre, yet the `float`
discriminant is `-512` and the result is `-1`. -/
theorem c1_rounding_counterexample :
    raySphereIntersection Real.sqrt (⟨Fp.fin 7330, Fp.fin 3665⟩ : Vec2 (Fp ℝ))
        ⟨Fp.fin (-3), Fp.fin (-4)⟩ ⟨Fp.fin 0, Fp.fin 0⟩ (Fp.fin 3665) = Fp.fin (-1)
    ∧ (⟨-3, -4⟩ : Vec2 ℝ) ≠ ⟨0, 0⟩
    ∧ ∃ t : ℝ, 0 < t
        ∧ exactDistance Real.sqrt (rayPoint ⟨7330, 3665⟩ ⟨-3, -4⟩ t) ⟨0, 0⟩ = 3665 := by
  refine ⟨floatValue_tangent, ?_, 1466, by norm_num, ?_⟩
  · intro h; have := congrArg Vec2.x h; norm_num at this
  · unfold exactDistance rayPoint
    exact (Real.sqrt_eq_iff_mul_self_eq (by norm_num) (by norm_num)).2 (by norm_num)

/-- C1 (amended): for every origin, non-zero direction, centre and radius `≥ 0`
given as `float` values on which the evaluation of lines 17-25 incurs no rounding,
`raySphereIntersection` returns a finite `t` that is `-1` exactly when no `s > 0`
has `|origin + s*dir - center| = radius`, and otherwise is the least such `s`. -/
theorem c1_nearest_forward_hit (o d c : Vec2 ℝ) (r : ℝ) (hd : d ≠ ⟨0, 0⟩) (hr : 0 ≤ r)
    (hex : ExactEval o d c r) :
    ∃ t : ℝ, raySphereIntersection Real.sqrt o.toFp d.toFp c.toFp (Fp.fin r) = Fp.fin t
      ∧ (t = -1 ↔ ¬ ∃ s : ℝ, 0 < s ∧ exactDistance Real.sqrt (rayPoint o d s) c = r)
      ∧ (t ≠ -1 →
          IsLeast {s : ℝ | 0 < s ∧ exactDistance Real.sqrt (rayPoint o d s) c = r} t) :=
  ⟨exactIntersection Real.sqrt o d c r,
    raySphereIntersection_of_exact o d c r (coeffA_pos d hd) hex,
    (exact_nearest_forward_hit o d c r hd hr).1, (exact_nearest_forward_hit o d c r hd hr).2⟩

/-- Witness of C1 (amended): scenario 1 of the specification, origin `(0,0)`,
direction `(1,0)`, centre `(10,0)`, radius `2`. -/
theorem c1_nearest_forward_hit_witness :
    (⟨1, 0⟩ : Vec2 ℝ) ≠ ⟨0, 0⟩ ∧ (0 : ℝ) ≤ 2
    ∧ ExactEval (⟨0, 0⟩ : Vec2 ℝ) ⟨1, 0⟩ ⟨10, 0⟩ 2
    ∧ ∃ t : ℝ, raySphereIntersection Real.sqrt (Vec2.toFp (⟨0, 0⟩ : Vec2 ℝ))
          (Vec2.toFp (⟨1, 0⟩ : Vec2 ℝ)) (Vec2.toFp (⟨10, 0⟩ : Vec2 ℝ)) (Fp.fin 2) = Fp.fin t
      ∧ (t = -1 ↔ ¬ ∃ s : ℝ, 0 < s
          ∧ exactDistance Real.sqrt (rayPoint ⟨0, 0⟩ ⟨1, 0⟩ s) ⟨10, 0⟩ = 2)
      ∧ (t ≠ -1 →
          IsLeast {s : ℝ | 0 < s
            ∧ exactDistance Real.sqrt (rayPoint ⟨0, 0⟩ ⟨1, 0⟩ s) ⟨10, 0⟩ = 2} t) :=
  ⟨vec_one_zero_ne_zero, by norm_num, exactEval_scenarioOne,
    c1_nearest_forward_hit ⟨0, 0⟩ ⟨1, 0⟩ ⟨10, 0⟩ 2 vec_one_zero_ne_zero (by norm_num)
      exactEval_scenarioOne⟩

/-! ## C2: a line through the circle, origin strictly outside -/

theorem exactDistance_zero_far : exactDistance Real.sqrt ⟨0, 0⟩ ⟨10000, 0⟩ = 10000 := by
  unfold exactDistance
  exact (Real.sqrt_eq_iff_mul_self_eq (by norm_num) (by norm_num)).2 (by norm_num)

/-- C2, as stated, fails in two ways.  A circle that lies behind the origin:
origin `(0,0)`, direction `(-1,0)`, centre `(10,0)`, radius `2` has discriminant
`16 ≥ 0` and the origin at distance `10 > 2`, and the result is `-1`.  Rounding:
origin `(0,0)`, direction `(1,0)`, centre `(10000,0)`, radius `1` has discriminant
`4 ≥ 0` and the origin at distance `10000 > 1`; the `float` result is `10000`, the
parameter of the centre, at distance `0` from it, not `1`. -/
theorem c2_behind_counterexample :
    ((⟨-1, 0⟩ : Vec2 ℝ) ≠ ⟨0, 0⟩
      ∧ 0 ≤ discriminant (⟨0, 0⟩ : Vec2 ℝ) ⟨-1, 0⟩ ⟨10, 0⟩ 2
      ∧ exactDistance Real.sqrt ⟨0, 0⟩ ⟨10, 0⟩ > 2
      ∧ raySphereIntersection Real.sqrt (Vec2.toFp (⟨0, 0⟩ : Vec2 ℝ))
          (Vec2.toFp (⟨-1, 0⟩ : Vec2 ℝ)) (Vec2.toFp (⟨10, 0⟩ : Vec2 ℝ)) (Fp.fin 2)
          = Fp.fin (-1)
      ∧ ¬ (0 : ℝ) < -1)
    ∧ ((⟨1, 0⟩ : Vec2 ℝ) ≠ ⟨0, 0⟩
      ∧ 0 ≤ discriminant (⟨0, 0⟩ : Vec2 ℝ) ⟨1, 0⟩ ⟨10000, 0⟩ 1
      ∧ exactDistance Real.sqrt ⟨0, 0⟩ ⟨10000, 0⟩ > 1
      ∧ raySphereIntersection Real.sqrt (⟨Fp.fin 0, Fp.fin 0⟩ : Vec2 (Fp ℝ))
          ⟨Fp.fin 1, Fp.fin 0⟩ ⟨Fp.fin 10000, Fp.fin 0⟩ (Fp.fin 1) = Fp.fin 10000
      ∧ exactDistance Real.sqrt (rayPoint ⟨0, 0⟩ ⟨1, 0⟩ 10000) ⟨10000, 0⟩ ≠ 1) := by
  refine ⟨⟨vec_neg_one_zero_ne_zero, ?_, ?_, floatValue_behind, by norm_num⟩,
    vec_one_zero_ne_zero, ?_, ?_, floatValue_farCentre, ?_⟩
  · norm_num [discriminant, coeffA, coeffB, coeffC]
  · rw [exactDistance_zero_ten]; norm_num
  · norm_num [discriminant, coeffA, coeffB, coeffC]
  · rw [exactDistance_zero_far]; norm_num
  · unfold exactDistance rayPoint
    norm_num

/-- C2 (amended): for every ray with non-zero direction that points towards the
centre side (`(center - origin)·dir > 0`), whose line passes through the circle
(discriminant `≥ 0`, radius `≥ 0`), whose origin is strictly outside it, and on
which the `float` evaluation of lines 17-25 incurs no rounding,
`raySphereIntersection` returns a finite `t > 0` with `origin + t*dir` exactly on
the circle. -/
theorem c2_hit_on_boundary (o d c : Vec2 ℝ) (r : ℝ) (hd : d ≠ ⟨0, 0⟩) (hr : 0 ≤ r)
    (hD : 0 ≤ discriminant o d c r) (hout : exactDistance Real.sqrt o c > r)
    (htow : 0 < (c.x - o.x) * d.x + (c.y - o.y) * d.y) (hex : ExactEval o d c r) :
    ∃ t : ℝ, raySphereIntersection Real.sqrt o.toFp d.toFp c.toFp (Fp.fin r) = Fp.fin t
      ∧ 0 < t ∧ exactDistance Real.sqrt (rayPoint o d t) c = r :=
  ⟨exactIntersection Real.sqrt o d c r,
    raySphereIntersection_of_exact o d c r (coeffA_pos d hd) hex,
    exact_hit_on_boundary o d c r hd hr hD hout htow⟩

/-- Witness of C2 (amended): origin `(0,0)`, direction `(1,0)`, centre `(10,0)`,
radius `2`. -/
theorem c2_hit_on_boundary_witness :
    ((⟨1, 0⟩ : Vec2 ℝ) ≠ ⟨0, 0⟩ ∧ (0 : ℝ) ≤ 2
      ∧ 0 ≤ discriminant (⟨0, 0⟩ : Vec2 ℝ) ⟨1, 0⟩ ⟨10, 0⟩ 2
      ∧ exactDistance Real.sqrt ⟨0, 0⟩ ⟨10, 0⟩ > 2
      ∧ (0 : ℝ) < (10 - 0) * 1 + (0 - 0) * 0
      ∧ ExactEval (⟨0, 0⟩ : Vec2 ℝ) ⟨1, 0⟩ ⟨10, 0⟩ 2)
    ∧ ∃ t : ℝ, raySphereIntersection Real.sqrt (Vec2.toFp (⟨0, 0⟩ : Vec2 ℝ))
          (Vec2.toFp (⟨1, 0⟩ : Vec2 ℝ)) (Vec2.toFp (⟨10, 0⟩ : Vec2 ℝ)) (Fp.fin 2) = Fp.fin t
      ∧ 0 < t ∧ exactDistance Real.sqrt (rayPoint ⟨0, 0⟩ ⟨1, 0⟩ t) ⟨10, 0⟩ = 2 :=
  ⟨⟨vec_one_zero_ne_zero, by norm_num,
      by norm_num [discriminant, coeffA, coeffB, coeffC],
      by rw [exactDistance_zero_ten]; norm_num, by norm_num, exactEval_scenarioOne⟩,
    c2_hit_on_boundary ⟨0, 0⟩ ⟨1, 0⟩ ⟨10, 0⟩ 2 vec_one_zero_ne_zero (by norm_num)
      (by norm_num [discriminant, coeffA, coeffB, coeffC])
      (by rw [exactDistance_zero_ten]; norm_num) (by norm_num) exactEval_scenarioOne⟩

/-! ## C3: rays whose line goes through the centre -/

/-- C3, as stated, fails when `D` is large against `r`: centre `(10000, 0)`, unit
direction `(1, 0)`, radius `1`, `D = 10000`, that is origin `(0, 0)`.  In `float`
`c = 10^8 - 1` rounds to `10^8`, and the result is `10000`, not `D - r = 9999`. -/
theorem c3_large_distance_counterexample :
    ((1 : ℝ) * 1 + 0 * 0 = 1) ∧ (0 : ℝ) < 1 ∧ (1 : ℝ) < 10000
    ∧ ((10000 : ℝ) - 10000 * 1 = 0 ∧ (0 : ℝ) - 10000 * 0 = 0)
    ∧ raySphereIntersection Real.sqrt (⟨Fp.fin 0, Fp.fin 0⟩ : Vec2 (Fp ℝ))
        ⟨Fp.fin 1, Fp.fin 0⟩ ⟨Fp.fin 10000, Fp.fin 0⟩ (Fp.fin 1) = Fp.fin 10000
    ∧ (Fp.fin 10000 : Fp ℝ) ≠ Fp.fin (10000 - 1) := by
  refine ⟨by norm_num, by norm_num, by norm_num, ⟨by norm_num, by norm_num⟩,
    floatValue_farCentre, ?_⟩
  intro h
  have := Fp.fin.inj h
  norm_num at this

/-- C3 (amended): for every centre, unit direction `d`, radius `r > 0` and signed
distance `D` such that the `float` evaluation of lines 17-25 on the origin
`center - D*d` incurs no rounding, `raySphereIntersection` returns `D - r` when
`D > r`, `D + r` when `-r < D ≤ r`, and `-1` when `D ≤ -r`. -/
theorem c3_central_ray_closed_form (c d : Vec2 ℝ) (r D : ℝ)
    (hunit : d.x * d.x + d.y * d.y = 1) (hr : 0 < r)
    (hex : ExactEval ⟨c.x - D * d.x, c.y - D * d.y⟩ d c r) :
    (r < D →
      raySphereIntersection Real.sqrt (Vec2.toFp ⟨c.x - D * d.x, c.y - D * d.y⟩) d.toFp
        c.toFp (Fp.fin r) = Fp.fin (D - r))
    ∧ (-r < D ∧ D ≤ r →
      raySphereIntersection Real.sqrt (Vec2.toFp ⟨c.x - D * d.x, c.y - D * d.y⟩) d.toFp
        c.toFp (Fp.fin r) = Fp.fin (D + r))
    ∧ (D ≤ -r →
      raySphereIntersection Real.sqrt (Vec2.toFp ⟨c.x - D * d.x, c.y - D * d.y⟩) d.toFp
        c.toFp (Fp.fin r) = Fp.fin (-1)) := by
  have ha : 0 < coeffA d := by
    have : coeffA d = 1 := hunit
    rw [this]; norm_num
  have key := raySphereIntersection_of_exact _ d c r ha hex
  have hx := exact_central_ray c d r D hunit hr
  refine ⟨fun h => ?_, fun h => ?_, fun h => ?_⟩
  · rw [key, hx.1 h]
  · rw [key, hx.2.1 h]
  · rw [key, hx.2.2 h]

/-- Witness of C3 (amended): centre `(10,0)`, direction `(1,0)`: `D = 10`, `r = 2`
(origin `(0,0)`) gives `8`; `D = 0`, `r = 5` (origin = centre) gives `5`;
`D = -10`, `r = 2` (the circle behind) gives `-1`. -/
theorem c3_central_ray_closed_form_witness :
    ((1 : ℝ) * 1 + 0 * 0 = 1) ∧ ((0 : ℝ) < 2)
    ∧ raySphereIntersection Real.sqrt (Vec2.toFp (⟨10 - 10 * 1, 0 - 10 * 0⟩ : Vec2 ℝ))
        (Vec2.toFp (⟨1, 0⟩ : Vec2 ℝ)) (Vec2.toFp (⟨10, 0⟩ : Vec2 ℝ)) (Fp.fin 2)
        = Fp.fin (10 - 2)
    ∧ raySphereIntersection Real.sqrt (Vec2.toFp (⟨10 - 0 * 1, 0 - 0 * 0⟩ : Vec2 ℝ))
        (Vec2.toFp (⟨1, 0⟩ : Vec2 ℝ)) (Vec2.toFp (⟨10, 0⟩ : Vec2 ℝ)) (Fp.fin 5)
        = Fp.fin (0 + 5)
    ∧ raySphereIntersection Real.sqrt
        (Vec2.toFp (⟨10 - (-10) * 1, 0 - (-10) * 0⟩ : Vec2 ℝ))
        (Vec2.toFp (⟨1, 0⟩ : Vec2 ℝ)) (Vec2.toFp (⟨10, 0⟩ : Vec2 ℝ)) (Fp.fin 2)
        = Fp.fin (-1) :=
  ⟨by norm_num, by norm_num,
    (c3_central_ray_closed_form ⟨10, 0⟩ ⟨1, 0⟩ 2 10 (by norm_num) (by norm_num)
      (by
        have h : (⟨10 - 10 * 1, 0 - 10 * 0⟩ : Vec2 ℝ) = ⟨0, 0⟩ := by norm_num
        show ExactEval (⟨10 - 10 * 1, 0 - 10 * 0⟩ : Vec2 ℝ) ⟨1, 0⟩ ⟨10, 0⟩ 2
        rw [h]; exact exactEval_scenarioOne)).1 (by norm_num),
    (c3_central_ray_closed_form ⟨10, 0⟩ ⟨1, 0⟩ 5 0 (by norm_num) (by norm_num)
      (by
        have h : (⟨10 - 0 * 1, 0 - 0 * 0⟩ : Vec2 ℝ) = ⟨10, 0⟩ := by norm_num
        show ExactEval (⟨10 - 0 * 1, 0 - 0 * 0⟩ : Vec2 ℝ) ⟨1, 0⟩ ⟨10, 0⟩ 5
        rw [h]; exact exactEval_fromCentre)).2.1 ⟨by norm_num, by norm_num⟩,
    (c3_central_ray_closed_form ⟨10, 0⟩ ⟨1, 0⟩ 2 (-10) (by norm_num) (by norm_num)
      (by
        have h : (⟨10 - (-10) * 1, 0 - (-10) * 0⟩ : Vec2 ℝ) = ⟨20, 0⟩ := by norm_num
        show ExactEval (⟨10 - (-10) * 1, 0 - (-10) * 0⟩ : Vec2 ℝ) ⟨1, 0⟩ ⟨10, 0⟩ 2
        rw [h]; exact exactEval_pastCircle)).2.2 (by norm_num)⟩

/-! ## C5: origin exactly on the circle -/

/-- A value of absolute value at most `1` is rounded to `float` with an error of at
most `2^-24`, and the result is finite. -/
theorem roundTo_unit_error (x : ℝ) (hx : |x| ≤ 1) :
    ∃ y : ℝ, roundTo binary32 x = Fp.fin y ∧ |y - x| ≤ 1 / 16 := by
  have hu : ulpExp binary32 x ≤ -23 := by
    unfold ulpExp
    have hlog : Int.log 2 |x| ≤ 0 := by
      rcases eq_or_lt_of_le (abs_nonneg x) with h0 | hpos
      · rw [← h0]; simp
      · have : Int.log 2 |x| < 1 :=
          (Int.lt_zpow_iff_log_lt (by norm_num) hpos).1 (by norm_num; linarith)
        omega
    have := max_le hlog (show binary32.emin ≤ 0 by norm_num [binary32])
    simp only [binary32] at this ⊢
    omega
  have hupos := two_zpow_pos (ulpExp binary32 x)
  have hule : (2 : ℝ) ^ ulpExp binary32 x ≤ 1 / 16 :=
    (zpow_le_zpow_right₀ (by norm_num) hu).trans (by norm_num)
  have herr : |roundFin binary32 x - x| ≤ 1 / 16 := by
    have hz := abs_roundEven_sub_le (x / (2 : ℝ) ^ ulpExp binary32 x)
    have heq : roundFin binary32 x - x
        = ((roundEven (x / (2 : ℝ) ^ ulpExp binary32 x) : ℝ)
            - x / (2 : ℝ) ^ ulpExp binary32 x) * (2 : ℝ) ^ ulpExp binary32 x := by
      unfold roundFin
      field_simp
    rw [heq, abs_mul, abs_of_pos hupos]
    calc _ ≤ 1 / 2 * (2 : ℝ) ^ ulpExp binary32 x :=
          mul_le_mul_of_nonneg_right hz hupos.le
      _ ≤ 1 / 16 := by linarith
  refine ⟨roundFin binary32 x, roundTo_of_roundFin binary32 x _ rfl ?_, herr⟩
  have h1 : |roundFin binary32 x| ≤ 2 := by
    have := abs_sub_abs_le_abs_sub (roundFin binary32 x) x
    linarith
  rw [maxFinite32]
  linarith

theorem roundedFn_accurate (x : ℝ) :
    ∃ c s : ℝ, roundedFn Real.cos (Fp.fin x) = Fp.fin c
      ∧ roundedFn Real.sin (Fp.fin x) = Fp.fin s
      ∧ |c - Real.cos x| ≤ 1 / 16 ∧ |s - Real.sin x| ≤ 1 / 16 := by
  obtain ⟨c, hc, hce⟩ := roundTo_unit_error (Real.cos x) (Real.abs_cos_le_one x)
  obtain ⟨s, hs, hse⟩ := roundTo_unit_error (Real.sin x) (Real.abs_sin_le_one x)
  exact ⟨c, s, hc, hs, hce, hse⟩

/-- Every ray angle of the loop is a finite `float`. -/
theorem rayAngle_finite (i : Nat) (hi : i < numRays) :
    ∃ θ : ℝ, (rayAngle i : Fp ℝ) = Fp.fin θ := by
  unfold rayAngle
  rw [twoPi_eq]
  have hne : ((numRays : Nat) : ℝ) ≠ 0 := by norm_num [numRays]
  obtain ⟨y, hy, hy0, hy1⟩ := roundTo_bounds binary64
    ((884279719003555 / 140737488355328 : ℝ) / ((numRays : Nat) : ℝ)) 0
    (by norm_num [binary64]) (by norm_num [binary64]) (by norm_num [binary64])
    (by norm_num [numRays]) (by norm_num [numRays])
  have hq : ddiv (Fp.fin (884279719003555 / 140737488355328 : ℝ))
      (Fp.fin ((numRays : Nat) : ℝ)) = Fp.fin y := by
    simp only [ddiv, Fp.div, if_neg hne]; exact hy
  rw [hq]
  have hi' : (i : ℝ) ≤ 360 := by
    have : i ≤ 360 := by unfold numRays at hi; omega
    exact_mod_cast this
  obtain ⟨z, hz, hz0, hz1⟩ := roundTo_bounds binary64 ((i : ℝ) * y) 9
    (by norm_num [binary64]) (by norm_num [binary64]) (by norm_num [binary64])
    (mul_nonneg (Nat.cast_nonneg i) hy0)
    (by
      have : (i : ℝ) * y ≤ 360 * 1 :=
        mul_le_mul hi' (by simpa using hy1) hy0 (by norm_num)
      norm_num at this ⊢
      linarith)
  obtain ⟨w, hw, _, _⟩ := roundTo_bounds binary32 z 9
    (by norm_num [binary32]) (by norm_num [binary32]) (by norm_num [binary32]) hz0 hz1
  refine ⟨w, ?_⟩
  show toFloat (roundTo binary64 ((i : ℝ) * y)) = Fp.fin w
  rw [hz]
  exact hw

theorem le_maxFinite64 (y : ℝ) (h : y ≤ 1) : y ≤ maxFinite binary64 :=
  h.trans ((one_le_zpow₀ (by norm_num) (by norm_num [binary64])).trans
    (maxFinite_ge binary64 (by norm_num [binary64])))

open Complex in
theorem taylor_sum_eight (x : ℝ) :
    (∑ m ∈ Finset.range 8, ((x : ℂ) * I) ^ m / (m.factorial : ℂ))
      = ((1 - x ^ 2 / 2 + x ^ 4 / 24 - x ^ 6 / 720 : ℝ) : ℂ)
        + ((x - x ^ 3 / 6 + x ^ 5 / 120 - x ^ 7 / 5040 : ℝ) : ℂ) * I := by
  have h2 : I ^ 2 = -1 := I_sq
  have h3 : I ^ 3 = -I := by rw [pow_succ, h2]; ring
  have h4 : I ^ 4 = 1 := by rw [pow_succ, h3]; simp
  have h5 : I ^ 5 = I := by rw [pow_succ, h4]; ring
  have h6 : I ^ 6 = -1 := by rw [pow_succ, h5]; simp
  have h7 : I ^ 7 = -I := by rw [pow_succ, h6]; ring
  simp only [Finset.sum_range_succ, Finset.sum_range_zero, mul_pow, h2, h3, h4, h5, h6, h7,
    Nat.factorial]
  push_cast
  ring

open Complex in
theorem exp_taylor_eight (x : ℝ) (hx : |x| ≤ 1) :
    Complex.abs (exp ((x : ℂ) * I)
        - (((1 - x ^ 2 / 2 + x ^ 4 / 24 - x ^ 6 / 720 : ℝ) : ℂ)
          + ((x - x ^ 3 / 6 + x ^ 5 / 120 - x ^ 7 / 5040 : ℝ) : ℂ) * I))
      ≤ |x| ^ 8 * (9 / 322560) := by
  have habs : Complex.abs ((x : ℂ) * I) = |x| := by simp
  have h := Complex.exp_bound (x := (x : ℂ) * I) (by rw [habs]; exact hx) (n := 8)
    (by norm_num)
  rw [taylor_sum_eight, habs] at h
  refine h.trans (le_of_eq ?_)
  norm_num [Nat.factorial]

theorem cos_taylor_eight (x : ℝ) (hx : |x| ≤ 1) :
    |Real.cos x - (1 - x ^ 2 / 2 + x ^ 4 / 24 - x ^ 6 / 720)| ≤ |x| ^ 8 * (9 / 322560) := by
  have h := exp_taylor_eight x hx
  have hre := Complex.abs_re_le_abs (Complex.exp ((x : ℂ) * Complex.I)
        - (((1 - x ^ 2 / 2 + x ^ 4 / 24 - x ^ 6 / 720 : ℝ) : ℂ)
          + ((x - x ^ 3 / 6 + x ^ 5 / 120 - x ^ 7 / 5040 : ℝ) : ℂ) * Complex.I))
  rw [Complex.sub_re, Complex.exp_ofReal_mul_I_re, Complex.add_re, Complex.ofReal_re,
    Complex.re_ofReal_mul, Complex.I_re, mul_zero, add_zero] at hre
  exact hre.trans h

theorem sin_taylor_eight (x : ℝ) (hx : |x| ≤ 1) :
    |Real.sin x - (x - x ^ 3 / 6 + x ^ 5 / 120 - x ^ 7 / 5040)| ≤ |x| ^ 8 * (9 / 322560) := by
  have h := exp_taylor_eight x hx
  have him := Complex.abs_im_le_abs (Complex.exp ((x : ℂ) * Complex.I)
        - (((1 - x ^ 2 / 2 + x ^ 4 / 24 - x ^ 6 / 720 : ℝ) : ℂ)
          + ((x - x ^ 3 / 6 + x ^ 5 / 120 - x ^ 7 / 5040 : ℝ) : ℂ) * Complex.I))
  rw [Complex.sub_im, Complex.exp_ofReal_mul_I_im, Complex.add_im, Complex.ofReal_im,
    Complex.im_ofReal_mul, Complex.I_im, mul_one, zero_add] at him
  exact him.trans h

/-! ### Ray 4 with correctly rounded `cosf` and `sinf` -/

/-- The angle of ray `4`: the `double` `4 * (2*M_PI / 360)` converted to `float`. -/
theorem rayAngle_four : (rayAngle 4 : Fp ℝ) = Fp.fin (9370165 / 134217728) := by
  unfold rayAngle
  rw [twoPi_eq]
  have hne : ((numRays : Nat) : ℝ) ≠ 0 := by norm_num [numRays]
  have hq : ddiv (Fp.fin (884279719003555 / 140737488355328 : ℝ))
      (Fp.fin ((numRays : Nat) : ℝ)) = Fp.fin (5030569068109113 / 288230376151711744) := by
    simp only [ddiv, Fp.div, if_neg hne]
    apply roundTo_eval binary64 _ _ (-6) (-58) 5030569068109113
    · rw [abs_of_pos (by norm_num [numRays])]; norm_num [numRays]
    · rw [abs_of_pos (by norm_num [numRays])]; norm_num [numRays]
    · norm_num [binary64]
    · norm_num [binary64]
    · apply roundEven_eq_of_abs_lt
      rw [abs_lt]; constructor <;> norm_num [numRays]
    · norm_num
    · rw [abs_of_pos (by norm_num)]
      exact le_maxFinite64 _ (by norm_num)
  rw [hq]
  show toFloat (roundTo binary64 (((4 : Nat) : ℝ) * (5030569068109113 / 288230376151711744))) = _
  rw [roundTo_of_isRep _ _ (isRep64_mk _ 5030569068109113 (-56) (by norm_num) (by norm_num) (by norm_num)
    (by norm_num))]
  show roundTo binary32 _ = _
  apply roundTo_eval binary32 _ _ (-4) (-27) 9370165
  · rw [abs_of_pos (by norm_num)]; norm_num
  · rw [abs_of_pos (by norm_num)]; norm_num
  · norm_num [binary32]
  · norm_num [binary32]
  · apply roundEven_eq_of_abs_lt
    rw [abs_lt]; constructor <;> norm_num
  · norm_num
  · rw [maxFinite32, abs_of_pos (by norm_num)]; norm_num

/-- The cosine of the angle of ray `4`, enclosed by its Taylor polynomial of degree
seven and rounded to `float`. -/
theorem cos_rayAngle_four :
    roundedFn Real.cos (Fp.fin (9370165 / 134217728)) = Fp.fin (4184087 / 4194304) := by
  have hT := cos_taylor_eight (9370165 / 134217728) (by rw [abs_of_pos (by norm_num)]; norm_num)
  rw [abs_of_pos (show (0 : ℝ) < 9370165 / 134217728 by norm_num), abs_le] at hT
  have hlo : (836817377283 / 838860800000 : ℝ) < Real.cos (9370165 / 134217728) := by
    have h : (836817377283 / 838860800000 : ℝ) + (9370165 / 134217728) ^ 8 * (9 / 322560)
        < (1 - (9370165 / 134217728) ^ 2 / 2 + (9370165 / 134217728) ^ 4 / 24 - (9370165 / 134217728) ^ 6 / 720) := by norm_num
    linarith [hT.1]
  have hhi : Real.cos (9370165 / 134217728) < (167363475457 / 167772160000 : ℝ) := by
    have h : (1 - (9370165 / 134217728) ^ 2 / 2 + (9370165 / 134217728) ^ 4 / 24 - (9370165 / 134217728) ^ 6 / 720) + (9370165 / 134217728) ^ 8 * (9 / 322560)
        < (167363475457 / 167772160000 : ℝ) := by norm_num
    linarith [hT.2]
  show roundTo binary32 (Real.cos (9370165 / 134217728)) = _
  have hpos : (0 : ℝ) < Real.cos (9370165 / 134217728) := lt_trans (by norm_num) hlo
  apply roundTo_eval binary32 _ _ (-1) (-24) 16736348
  · rw [abs_of_pos hpos]; exact le_trans (by norm_num) hlo.le
  · rw [abs_of_pos hpos]; exact lt_trans hhi (by norm_num)
  · norm_num [binary32]
  · norm_num [binary32]
  · apply roundEven_eq_of_abs_lt
    rw [abs_lt]
    constructor
    · rw [lt_sub_iff_add_lt, lt_div_iff₀ (by norm_num)]
      exact lt_of_le_of_lt (by norm_num) hlo
    · rw [sub_lt_iff_lt_add, div_lt_iff₀ (by norm_num)]
      exact lt_of_lt_of_le hhi (by norm_num)
  · norm_num
  · rw [maxFinite32, abs_of_pos (by norm_num)]; norm_num

/-- The sine of the angle of ray `4`, enclosed by its Taylor polynomial of degree
seven and rounded to `float`. -/
theorem sin_rayAngle_four :
    roundedFn Real.sin (Fp.fin (9370165 / 134217728)) = Fp.fin (9362555 / 134217728) := by
  have hT := sin_taylor_eight (9370165 / 134217728) (by rw [abs_of_pos (by norm_num)]; norm_num)
  rw [abs_of_pos (show (0 : ℝ) < 9370165 / 134217728 by norm_num), abs_le] at hT
  have hlo : (23406388367 / 335544320000 : ℝ) < Real.sin (9370165 / 134217728) := by
    have h : (23406388367 / 335544320000 : ℝ) + (9370165 / 134217728) ^ 8 * (9 / 322560)
        < (9370165 / 134217728 - (9370165 / 134217728) ^ 3 / 6 + (9370165 / 134217728) ^ 5 / 120 - (9370165 / 134217728) ^ 7 / 5040) := by norm_num
    linarith [hT.1]
  have hhi : Real.sin (9370165 / 134217728) < (234063883671 / 3355443200000 : ℝ) := by
    have h : (9370165 / 134217728 - (9370165 / 134217728) ^ 3 / 6 + (9370165 / 134217728) ^ 5 / 120 - (9370165 / 134217728) ^ 7 / 5040) + (9370165 / 134217728) ^ 8 * (9 / 322560)
        < (234063883671 / 3355443200000 : ℝ) := by norm_num
    linarith [hT.2]
  show roundTo binary32 (Real.sin (9370165 / 134217728)) = _
  have hpos : (0 : ℝ) < Real.sin (9370165 / 134217728) := lt_trans (by norm_num) hlo
  apply roundTo_eval binary32 _ _ (-4) (-27) 9362555
  · rw [abs_of_pos hpos]; exact le_trans (by norm_num) hlo.le
  · rw [abs_of_pos hpos]; exact lt_trans hhi (by norm_num)
  · norm_num [binary32]
  · norm_num [binary32]
  · apply roundEven_eq_of_abs_lt
    rw [abs_lt]
    constructor
    · rw [lt_sub_iff_add_lt, lt_div_iff₀ (by norm_num)]
      exact lt_of_le_of_lt (by norm_num) hlo
    · rw [sub_lt_iff_lt_add, div_lt_iff₀ (by norm_num)]
      exact lt_of_lt_of_le hhi (by norm_num)
  · norm_num
  · rw [maxFinite32, abs_of_pos (by norm_num)]; norm_num

/-- The value `a` of ray `4` with correctly rounded `cosf` and `sinf`:
`1 + 2^-23`. -/
theorem floatA_ray_four :
    floatA (rayDir (roundedFn Real.cos) (roundedFn Real.sin) 4)
      = (Fp.fin (8388609 / 8388608) : Fp ℝ) := by
  have e1 : fmul (Fp.fin (4184087 / 4194304) : Fp ℝ) (Fp.fin (4184087 / 4194304)) = Fp.fin (4173895 / 4194304) := by
    rw [fmul_fin]
    apply roundTo_eval binary32 _ _ (-1) (-24) 16695580
    · rw [abs_of_pos (by norm_num)]; norm_num
    · rw [abs_of_pos (by norm_num)]; norm_num
    · norm_num [binary32]
    · norm_num [binary32]
    · apply roundEven_eq_of_abs_lt
      rw [abs_lt]; constructor <;> norm_num
    · norm_num
    · rw [maxFinite32, abs_of_pos (by norm_num)]; norm_num
  have e2 : fmul (Fp.fin (9362555 / 134217728) : Fp ℝ) (Fp.fin (9362555 / 134217728)) = Fp.fin (10449581 / 2147483648) := by
    rw [fmul_fin]
    apply roundTo_eval binary32 _ _ (-8) (-31) 10449581
    · rw [abs_of_pos (by norm_num)]; norm_num
    · rw [abs_of_pos (by norm_num)]; norm_num
    · norm_num [binary32]
    · norm_num [binary32]
    · apply roundEven_eq_of_abs_lt
      rw [abs_lt]; constructor <;> norm_num
    · norm_num
    · rw [maxFinite32, abs_of_pos (by norm_num)]; norm_num
  have e3 : fadd (Fp.fin (4173895 / 4194304) : Fp ℝ) (Fp.fin (10449581 / 2147483648)) = Fp.fin (8388609 / 8388608) := by
    rw [fadd_fin]
    apply roundTo_eval binary32 _ _ 0 (-23) 8388609
    · rw [abs_of_pos (by norm_num)]; norm_num
    · rw [abs_of_pos (by norm_num)]; norm_num
    · norm_num [binary32]
    · norm_num [binary32]
    · apply roundEven_eq_of_abs_lt
      rw [abs_lt]; constructor <;> norm_num
    · norm_num
    · rw [maxFinite32, abs_of_pos (by norm_num)]; norm_num
  unfold floatA rayDir
  rw [rayAngle_four, cos_rayAngle_four, sin_rayAngle_four, e1, e2, e3]

/-! ### The claim -/

/-- The intersector with the names `floatA` and `divisor` for its `a` and `2 * a`. -/
theorem raySphereIntersection_divisor (sqrt : ℝ → ℝ) (origin dir center : Vec2 (Fp ℝ))
    (radius : Fp ℝ) :
    raySphereIntersection sqrt origin dir center radius
      = (let oc : Vec2 (Fp ℝ) := ⟨fsub origin.x center.x, fsub origin.y center.y⟩
        let b := fmul (Fp.fin 2) (fadd (fmul oc.x dir.x) (fmul oc.y dir.y))
        let c := fsub (fadd (fmul oc.x oc.x) (fmul oc.y oc.y)) (fmul radius radius)
        let discriminant := fsub (fmul b b) (fmul (fmul (Fp.fin 4) (floatA dir)) c)
        if Fp.lt discriminant (Fp.fin 0) then Fp.fin (-1)
        else
          let t1 := fdiv (fsub (Fp.neg b) (fsqrt sqrt discriminant)) (divisor dir)
          let t2 := fdiv (fadd (Fp.neg b) (fsqrt sqrt discriminant)) (divisor dir)
          if Fp.lt (Fp.fin 0) t1 then t1
          else if Fp.lt (Fp.fin 0) t2 then t2
          else Fp.fin (-1)) := rfl

/-- The square of a value within `1/16` of a number of absolute value at least
`7/10` and at most `1` lies between `1/4` and `2`. -/
theorem sq_bounds_of_near (c v : ℝ) (hv : 7 / 10 ≤ |v|) (hv1 : |v| ≤ 1)
    (hc : |c - v| ≤ 1 / 16) : 1 / 4 ≤ c * c ∧ c * c ≤ 2 := by
  have h1 : |v| - |c| ≤ |v - c| := abs_sub_abs_le_abs_sub v c
  have h2 : |c| - |v| ≤ |c - v| := abs_sub_abs_le_abs_sub c v
  rw [abs_sub_comm] at h1
  have hlo : 51 / 80 ≤ |c| := by linarith
  have hhi : |c| ≤ 17 / 16 := by linarith
  have hsq : c * c = |c| * |c| := (abs_mul_abs_self c).symm
  rw [hsq]
  constructor <;> nlinarith [abs_nonneg c]

theorem sq_le_two_of_near (c v : ℝ) (hv1 : |v| ≤ 1) (hc : |c - v| ≤ 1 / 16) :
    0 ≤ c * c ∧ c * c ≤ 2 := by
  have h2 : |c| - |v| ≤ |c - v| := abs_sub_abs_le_abs_sub c v
  have hhi : |c| ≤ 17 / 16 := by linarith
  have hsq : c * c = |c| * |c| := (abs_mul_abs_self c).symm
  rw [hsq]
  constructor <;> nlinarith [abs_nonneg c]

/-- One of `|cos x|`, `|sin x|` is at least `7/10`. -/
theorem cos_or_sin_large (x : ℝ) : 7 / 10 ≤ |Real.cos x| ∨ 7 / 10 ≤ |Real.sin x| := by
  by_contra h
  push_neg at h
  have h1 := Real.cos_sq_add_sin_sq x
  have hc : Real.cos x ^ 2 = |Real.cos x| * |Real.cos x| := by
    rw [abs_mul_abs_self]; ring
  have hs : Real.sin x ^ 2 = |Real.sin x| * |Real.sin x| := by
    rw [abs_mul_abs_self]; ring
  rw [hc, hs] at h1
  nlinarith [abs_nonneg (Real.cos x), abs_nonneg (Real.sin x), h.1, h.2]

/-- The value `a` and the divisor `2 * a` for a finite direction one of whose
squared components is at least `1/4`, both at most `2`. -/
theorem divisor_of_squares (c s : ℝ) (hc0 : 0 ≤ c * c) (hc2 : c * c ≤ 2)
    (hs0 : 0 ≤ s * s) (hs2 : s * s ≤ 2) (hbig : 1 / 4 ≤ c * c ∨ 1 / 4 ≤ s * s) :
    ∃ a y : ℝ, floatA (⟨Fp.fin c, Fp.fin s⟩ : Vec2 (Fp ℝ)) = Fp.fin a
      ∧ divisor (⟨Fp.fin c, Fp.fin s⟩ : Vec2 (Fp ℝ)) = Fp.fin y
      ∧ 1 / 4 ≤ a ∧ a ≤ 4 ∧ 1 / 2 ≤ y ∧ y ≤ 8 := by
  have hp : 1 ≤ binary32.prec := by norm_num [binary32]
  obtain ⟨y1, hy1, hy10, hy12⟩ := roundTo_bounds binary32 (c * c) 1 hp
    (by norm_num [binary32]) (by norm_num [binary32]) hc0 (by simpa using hc2)
  obtain ⟨y2, hy2, hy20, hy22⟩ := roundTo_bounds binary32 (s * s) 1 hp
    (by norm_num [binary32]) (by norm_num [binary32]) hs0 (by simpa using hs2)
  have hsum : 1 / 4 ≤ y1 + y2 := by
    rcases hbig with h | h
    · have := roundFin_ge binary32 (c * c) (-2) hp (by norm_num [binary32])
        (by norm_num; linarith)
      rw [← roundTo_eq_fin binary32 _ _ hy1] at this
      norm_num at this
      linarith
    · have := roundFin_ge binary32 (s * s) (-2) hp (by norm_num [binary32])
        (by norm_num; linarith)
      rw [← roundTo_eq_fin binary32 _ _ hy2] at this
      norm_num at this
      linarith
  obtain ⟨a, ha, ha0, ha4⟩ := roundTo_between binary32 (y1 + y2) (-2) 2 hp
    (by norm_num [binary32]) (by norm_num [binary32]) (by norm_num [binary32])
    (by norm_num; linarith) (by norm_num at hy12 hy22 ⊢; linarith)
  obtain ⟨y, hy, hy0, hy8⟩ := roundTo_between binary32 (2 * a) (-1) 3 hp
    (by norm_num [binary32]) (by norm_num [binary32]) (by norm_num [binary32])
    (by norm_num at ha0 ⊢; linarith) (by norm_num at ha4 ⊢; linarith)
  have hA : floatA (⟨Fp.fin c, Fp.fin s⟩ : Vec2 (Fp ℝ)) = Fp.fin a := by
    unfold floatA
    rw [fmul_fin, fmul_fin, hy1, hy2, fadd_fin, ha]
  refine ⟨a, y, hA, ?_, by norm_num at ha0; linarith, by norm_num at ha4; linarith,
    by norm_num at hy0; linarith, by norm_num at hy8; linarith⟩
  unfold divisor
  rw [hA, fmul_fin, hy]

/-- C10, as stated, fails at ray `4` when `std::cos` and `std::sin` are correctly
rounded: the direction is `(4184087 / 2^22, 9362555 / 2^27)` and
`a = dir·dir` is `1 + 2^-23`, not `1`. -/
theorem c10_ray_four_counterexample :
    4 < numRays
    ∧ (rayAngle 4 : Fp ℝ) = Fp.fin (9370165 / 134217728)
    ∧ rayDir (roundedFn Real.cos) (roundedFn Real.sin) 4
        = ⟨Fp.fin (4184087 / 4194304), Fp.fin (9362555 / 134217728)⟩
    ∧ floatA (rayDir (roundedFn Real.cos) (roundedFn Real.sin) 4)
        = Fp.fin (8388609 / 8388608)
    ∧ (Fp.fin (8388609 / 8388608) : Fp ℝ) ≠ Fp.fin 1 := by
  refine ⟨by decide, rayAngle_four, ?_, floatA_ray_four, ?_⟩
  · unfold rayDir
    rw [rayAngle_four, cos_rayAngle_four, sin_rayAngle_four]
  · intro h
    have := Fp.fin.inj h
    norm_num at this

/-- C10 (amended): for every ray index `i` in `0..359` and every light position,
when `std::cos` and `std::sin` return finite values within `1/16` of the exact
cosine and sine, the call made by the ray loop passes a direction whose
`a = dir·dir` is a finite `float` between `1/4` and `4`, so the divisor `2*a` of
both root computations is a finite `float` between `1/2` and `8`, hence
non-zero. -/
theorem c10_divisor_nonzero (cosf sinf : Fp ℝ → Fp ℝ)
    (hacc : ∀ x : ℝ, ∃ c s : ℝ, cosf (Fp.fin x) = Fp.fin c ∧ sinf (Fp.fin x) = Fp.fin s
      ∧ |c - Real.cos x| ≤ 1 / 16 ∧ |s - Real.sin x| ≤ 1 / 16)
    (sourcePos : Vec2 (Fp ℝ)) (i : Nat) (hi : i < numRays) :
    hitDist Real.sqrt cosf sinf sourcePos i
      = raySphereIntersection Real.sqrt sourcePos (rayDir cosf sinf i) blockerPos
          blockerRadius
    ∧ ∃ a y : ℝ, floatA (rayDir cosf sinf i) = Fp.fin a
        ∧ divisor (rayDir cosf sinf i) = Fp.fin y
        ∧ 1 / 4 ≤ a ∧ a ≤ 4 ∧ 1 / 2 ≤ y ∧ y ≤ 8 ∧ y ≠ 0 := by
  refine ⟨rfl, ?_⟩
  obtain ⟨θ, hθ⟩ := rayAngle_finite i hi
  obtain ⟨c, s, hc, hs, hca, hsa⟩ := hacc θ
  have hdir : rayDir cosf sinf i = ⟨Fp.fin c, Fp.fin s⟩ := by
    unfold rayDir
    rw [hθ, hc, hs]
  rw [hdir]
  have hcb := sq_le_two_of_near c (Real.cos θ) (Real.abs_cos_le_one θ) hca
  have hsb := sq_le_two_of_near s (Real.sin θ) (Real.abs_sin_le_one θ) hsa
  have hbig : 1 / 4 ≤ c * c ∨ 1 / 4 ≤ s * s := by
    rcases cos_or_sin_large θ with h | h
    · exact Or.inl (sq_bounds_of_near c _ h (Real.abs_cos_le_one θ) hca).1
    · exact Or.inr (sq_bounds_of_near s _ h (Real.abs_sin_le_one θ) hsa).1
  obtain ⟨a, y, hA, hY, ha0, ha4, hy0, hy8⟩ :=
    divisor_of_squares c s hcb.1 hcb.2 hsb.1 hsb.2 hbig
  exact ⟨a, y, hA, hY, ha0, ha4, hy0, hy8, by linarith⟩

/-- Witness of C10 (amended): correctly rounded `cosf` and `sinf`, the light at
`(0,0)`, ray `4`. -/
theorem c10_divisor_nonzero_witness :
    (∀ x : ℝ, ∃ c s : ℝ, roundedFn Real.cos (Fp.fin x) = Fp.fin c
        ∧ roundedFn Real.sin (Fp.fin x) = Fp.fin s
        ∧ |c - Real.cos x| ≤ 1 / 16 ∧ |s - Real.sin x| ≤ 1 / 16)
    ∧ 4 < numRays
    ∧ ∃ a y : ℝ, floatA (rayDir (roundedFn Real.cos) (roundedFn Real.sin) 4) = Fp.fin a
        ∧ divisor (rayDir (roundedFn Real.cos) (roundedFn Real.sin) 4) = Fp.fin y
        ∧ 1 / 4 ≤ a ∧ a ≤ 4 ∧ 1 / 2 ≤ y ∧ y ≤ 8 ∧ y ≠ 0 :=
  ⟨roundedFn_accurate, by decide,
    (c10_divisor_nonzero (roundedFn Real.cos) (roundedFn Real.sin) roundedFn_accurate
      ⟨Fp.fin 0, Fp.fin 0⟩ 4 (by decide)).2⟩

end Raycasting
